import Mathlib

/-! # CrabbyOpenGL: frame loop, input tracker, layout binder, OBJ loader, camera, shader, texture

A shallow embedding of the parts of the repository that the specification's
testable properties talk about, followed by the theorems that settle them.

Conventions of the embedding:

* C++ arrays indexed by `int` are total functions `Nat → α`; a `for` loop over
  `0 .. n-1` is a left fold over `List.range n` whose body updates one index.
* `short` / `int` fields are `Int`; where the source converts a `bool` to an
  integer the embedding writes `boolToInt`.
* `float` quantities are rationals (`ℚ`); library functions whose results are
  not rational (`cosf`, `sinf`, `glm::normalize`, `glm::lookAt`) are parameters.
  Properties that do not depend on rounding are proved over exact arithmetic;
  where rounding matters the code is embedded with every `float` operation
  rounded to binary32 (`roundF32`; the definitions named `...32` and `fpsStep`).
* A call that can end the process returns an `Outcome` (`returned` or `exited`
  with the status); a computation whose C++ behaviour is undefined (an array or
  vector read or written out of bounds) has the result `none`.
* The answers of the outside world (the GL driver's compile and link status,
  the image decoder's result, the lines of a file) are arguments.
* Where the size of a C array matters (the three-entry mouse tables), an access
  goes through `arrayIndex`, which is defined only inside the array.
-/

namespace CrabbyOpenGL

/-! ## Input state tracker (`OpenGL_Graphics.h`) -/

/-- The struct `sKeyState` of `OpenGL_Graphics`. -/
structure sKeyState where
  bPressed : Bool
  bReleased : Bool
  bHeld : Bool
deriving DecidableEq, Repr

/-- Conversion of a C++ `bool` to an integer type. -/
def boolToInt (b : Bool) : Int := if b then 1 else 0

/-- The input tables held by `OpenGL_Graphics` (the members `m_keyNewState`,
`m_keyOldState`, `m_mouseOldState`, `m_mouseNewState`, `m_keys`, `m_mouse` and
`m_mouseScroll`). -/
structure InputState where
  m_keyNewState : Nat → Int
  m_keyOldState : Nat → Int
  m_mouseOldState : Nat → Int
  m_mouseNewState : Nat → Int
  m_keys : Nat → sKeyState
  m_mouse : Nat → sKeyState
  m_mouseScroll : Int

/-- What one frame of the render loop reads from outside: the answer of
`glfwGetKey(window, i) == GLFW_PRESS` for each key code and the content of the
latch `m_bMouseButtonHeld` written by `mouse_button_callback`. -/
structure FrameInput where
  glfwGetKey : Nat → Bool
  m_bMouseButtonHeld : Nat → Bool

/-- Body of the keyboard loop of `RendererThread` for index `i`. -/
def keyBody (poll : Nat → Bool) (s : InputState) (i : Nat) : InputState :=
  -- m_keyNewState[i] = glfwGetKey(window, i) == GLFW_PRESS;
  let s1 := { s with m_keyNewState := Function.update s.m_keyNewState i (boolToInt (poll i)) }
  -- m_keys[i].bPressed = false; m_keys[i].bReleased = false;
  let k1 : sKeyState := { bPressed := false, bReleased := false, bHeld := (s1.m_keys i).bHeld }
  let s2 := { s1 with m_keys := Function.update s1.m_keys i k1 }
  let s3 :=
    if s2.m_keyNewState i ≠ s2.m_keyOldState i then
      if s2.m_keyNewState i ≠ 0 then
        -- m_keys[i].bPressed = !m_keys[i].bHeld; m_keys[i].bHeld = true;
        let k2 : sKeyState :=
          { bPressed := !(s2.m_keys i).bHeld, bReleased := (s2.m_keys i).bReleased, bHeld := true }
        { s2 with m_keys := Function.update s2.m_keys i k2 }
      else
        -- m_keys[i].bReleased = true; m_keys[i].bHeld = false;
        let k2 : sKeyState :=
          { bPressed := (s2.m_keys i).bPressed, bReleased := true, bHeld := false }
        { s2 with m_keys := Function.update s2.m_keys i k2 }
    else s2
  -- m_keyOldState[i] = m_keyNewState[i];
  { s3 with m_keyOldState := Function.update s3.m_keyOldState i (s3.m_keyNewState i) }

/-- Body of the mouse loop of `RendererThread` for index `i`; unlike the
keyboard loop the old state is only written inside the "changed" branch. -/
def mouseBody (latch : Nat → Bool) (s : InputState) (i : Nat) : InputState :=
  -- m_mouseNewState[i] = m_bMouseButtonHeld[i];
  let s1 := { s with m_mouseNewState := Function.update s.m_mouseNewState i (boolToInt (latch i)) }
  -- m_mouse[i].bPressed = false; m_mouse[i].bReleased = false;
  let k1 : sKeyState := { bPressed := false, bReleased := false, bHeld := (s1.m_mouse i).bHeld }
  let s2 := { s1 with m_mouse := Function.update s1.m_mouse i k1 }
  if s2.m_mouseNewState i ≠ s2.m_mouseOldState i then
    let s3 :=
      if s2.m_mouseNewState i ≠ 0 then
        -- m_mouse[i].bPressed = !m_mouse[i].bHeld; m_mouse[i].bHeld = true;
        let k2 : sKeyState :=
          { bPressed := !(s2.m_mouse i).bHeld, bReleased := (s2.m_mouse i).bReleased, bHeld := true }
        { s2 with m_mouse := Function.update s2.m_mouse i k2 }
      else
        -- m_mouse[i].bReleased = true; m_mouse[i].bHeld = false;
        let k2 : sKeyState :=
          { bPressed := (s2.m_mouse i).bPressed, bReleased := true, bHeld := false }
        { s2 with m_mouse := Function.update s2.m_mouse i k2 }
    -- m_mouseOldState[i] = m_mouseNewState[i];
    { s3 with m_mouseOldState := Function.update s3.m_mouseOldState i (s3.m_mouseNewState i) }
  else s2

/-- The loop `for (int i = 0; i < 348; i++)` over the key codes. -/
def keyboardPass (poll : Nat → Bool) (s : InputState) : InputState :=
  (List.range 348).foldl (keyBody poll) s

/-- The loop `for (int i = 0; i < 3; i++)` over the mouse buttons. -/
def mousePass (latch : Nat → Bool) (s : InputState) : InputState :=
  (List.range 3).foldl (mouseBody latch) s

/-- The input pass of one frame: keyboard loop, then mouse loop.  Its result is
the state that the demo's `Update` observes through `GetKey`/`GetMouseButton`. -/
def inputPass (f : FrameInput) (s : InputState) : InputState :=
  mousePass f.m_bMouseButtonHeld (keyboardPass f.glfwGetKey s)

/-- The resets at the end of the loop body, after `Update` and the FPS code:
`m_mouseScroll = 0; m_mouse[2].bReleased = false;`. -/
def endOfFrame (s : InputState) : InputState :=
  let k : sKeyState :=
    { bPressed := (s.m_mouse 2).bPressed, bReleased := false, bHeld := (s.m_mouse 2).bHeld }
  { s with m_mouseScroll := 0, m_mouse := Function.update s.m_mouse 2 k }

/-- The input states seen by `Update` on successive frames, one per element of
`frames`, starting from the tables `s`. -/
def observedInputs : InputState → List FrameInput → List InputState
  | _, [] => []
  | s, f :: fs => inputPass f s :: observedInputs (endOfFrame (inputPass f s)) fs

/-- The edge states the specification expects for a raw sample sequence whose
sample before the first frame is `prev`. -/
def expectedEdges : Bool → List Bool → List sKeyState
  | _, [] => []
  | prev, cur :: rest =>
      { bPressed := cur && !prev, bReleased := !cur && prev, bHeld := cur }
        :: expectedEdges cur rest

/-- Tables with every entry cleared. -/
def clearedInput : InputState :=
  { m_keyNewState := fun _ => 0, m_keyOldState := fun _ => 0,
    m_mouseOldState := fun _ => 0, m_mouseNewState := fun _ => 0,
    m_keys := fun _ => ⟨false, false, false⟩, m_mouse := fun _ => ⟨false, false, false⟩,
    m_mouseScroll := 0 }

/-- Five frames in which every key and every button reads
down, down, up, up, down. -/
def sampleFrames : List FrameInput :=
  [true, true, false, false, true].map fun b => ⟨fun _ => b, fun _ => b⟩

/-! ## GPU resource handles and the layout binder
(`VertexArray.h`, `VertexBuffer.h`, `IndexBuffer.h`, `BufferLayout.h`) -/

/-- The value of a C++ `int` expression: wrap-around into the 32-bit signed
range.  (Signed overflow is undefined in C++; the theorems below that depend on
`int` arithmetic state the range in which no wrap occurs.) -/
def wrapInt32 (x : Int) : Int := (x + 2147483648) % 4294967296 - 2147483648

/-- The enum class `BufferType`. -/
inductive BufferType where
  | FLOAT
  | INT
deriving DecidableEq, Repr

/-- Binding points used by the wrappers. -/
inductive BufferTarget where
  | GL_ARRAY_BUFFER
  | GL_ELEMENT_ARRAY_BUFFER
deriving DecidableEq, Repr

/-- The OpenGL entry points called by the resource wrappers, with the arguments
that matter here.  For the `glGen*` calls the argument is the name the driver
returned. -/
inductive GLCall where
  | glGenVertexArrays (id : Nat)
  | glBindVertexArray (id : Nat)
  | glDeleteVertexArrays (id : Nat)
  | glGenBuffers (id : Nat)
  | glBindBuffer (target : BufferTarget) (id : Nat)
  | glBufferData (target : BufferTarget) (bytes : Nat)
  | glDeleteBuffers (id : Nat)
  | glVertexAttribPointer (index : Int) (size : Int) (type : BufferType) (stride : Int)
      (pointer : Int)
  | glEnableVertexAttribArray (index : Int)
deriving DecidableEq, Repr

/-- Class `VertexArray`: one id, initially 0. -/
structure VertexArray where
  m_VertexArrayID : Nat := 0
deriving DecidableEq, Repr

/-- Class `VertexBuffer<T>`; `typeSize` is `sizeof(T)`. -/
structure VertexBuffer where
  m_VertexBufferID : Nat := 0
  m_BufferBytes : Nat := 0
  m_VertexCount : Nat := 0
  typeSize : Nat := 4
deriving DecidableEq, Repr

/-- Class `IndexBuffer`. -/
structure IndexBuffer where
  m_IndexBufferID : Nat := 0
deriving DecidableEq, Repr

/-- Class `BufferLayout`: the slot counter, the byte-offset accumulator and the
copy of the last vertex array. -/
structure BufferLayout where
  location : Int
  stride : Int
  m_va : VertexArray
deriving DecidableEq, Repr

/-- The constructor `BufferLayout() : stride{ 0 }, location{ 0 }`. -/
def BufferLayout.fresh : BufferLayout := { location := 0, stride := 0, m_va := {} }

/-- The private `BufferLayout::getSizeFromType`, with `sizeof(float)` and
`sizeof(int)` both 4; the `default` branch is unreachable for the two
enumerators. -/
def getSizeFromType : BufferType → Int
  | BufferType.FLOAT => 4
  | BufferType.INT => 4

/-- The expression `int sz = buffer.getVertexCount() * buffer.typeSize`: a
`size_t` product converted to `int`. -/
def strideArg (buffer : VertexBuffer) : Int :=
  wrapInt32 (((buffer.m_VertexCount * buffer.typeSize) % 18446744073709551616 : Nat) : Int)

/-- The four-argument-plus-type overload
`setBufferLayout(va, buffer, count, type)`: returns the updated binder and the
GL calls issued, in order.  `location` is converted to `GLuint` and `stride` to
a pointer, hence the reductions. -/
def BufferLayout.setBufferLayout (l : BufferLayout) (va : VertexArray) (buffer : VertexBuffer)
    (count : Int) (type : BufferType) : BufferLayout × List GLCall :=
  let calls :=
    [ GLCall.glBindVertexArray va.m_VertexArrayID,
      GLCall.glBindBuffer BufferTarget.GL_ARRAY_BUFFER buffer.m_VertexBufferID,
      GLCall.glVertexAttribPointer (l.location % 4294967296) count type (strideArg buffer)
        (l.stride % 18446744073709551616),
      GLCall.glEnableVertexAttribArray (l.location % 4294967296) ]
  ({ location := wrapInt32 (l.location + 1),
     stride := wrapInt32 (l.stride + wrapInt32 (count * getSizeFromType type)),
     m_va := va }, calls)

/-- The overload that also binds an index buffer. -/
def BufferLayout.setBufferLayoutIndexed (l : BufferLayout) (va : VertexArray)
    (buffer : VertexBuffer) (indexBuffer : IndexBuffer) (count : Int) (type : BufferType) :
    BufferLayout × List GLCall :=
  let calls :=
    [ GLCall.glBindVertexArray va.m_VertexArrayID,
      GLCall.glBindBuffer BufferTarget.GL_ARRAY_BUFFER buffer.m_VertexBufferID,
      GLCall.glBindBuffer BufferTarget.GL_ELEMENT_ARRAY_BUFFER indexBuffer.m_IndexBufferID,
      GLCall.glVertexAttribPointer (l.location % 4294967296) count type (strideArg buffer)
        (l.stride % 18446744073709551616),
      GLCall.glEnableVertexAttribArray (l.location % 4294967296) ]
  ({ location := wrapInt32 (l.location + 1),
     stride := wrapInt32 (l.stride + wrapInt32 (count * getSizeFromType type)),
     m_va := va }, calls)

/-- The arguments of one `setBufferLayout` call; `indexBuffer` is present for the
overload that takes one. -/
structure Registration where
  va : VertexArray
  buffer : VertexBuffer
  indexBuffer : Option IndexBuffer
  count : Int
  type : BufferType
deriving DecidableEq, Repr

/-- One registration, dispatched to the overload it names. -/
def BufferLayout.register (l : BufferLayout) (r : Registration) : BufferLayout × List GLCall :=
  match r.indexBuffer with
  | none => l.setBufferLayout r.va r.buffer r.count r.type
  | some ib => l.setBufferLayoutIndexed r.va r.buffer ib r.count r.type

/-- A sequence of registrations on one binder: the final binder and, for each
registration in order, the calls it issued. -/
def BufferLayout.registerAll : BufferLayout → List Registration → BufferLayout × List (List GLCall)
  | l, [] => (l, [])
  | l, r :: rs =>
      let step := l.register r
      let rest := BufferLayout.registerAll step.1 rs
      (rest.1, step.2 :: rest.2)

/-- Byte size of the attribute described by a registration. -/
def Registration.bytes (r : Registration) : Int := r.count * getSizeFromType r.type

/-- Total byte size of a list of registrations. -/
def totalBytes (rs : List Registration) : Int := (rs.map Registration.bytes).sum

/-- The calls the specification expects from a registration made when `slot`
attributes of `offset` bytes in total were registered before it. -/
def expectedCalls (slot : Nat) (offset : Int) (r : Registration) : List GLCall :=
  [GLCall.glBindVertexArray r.va.m_VertexArrayID,
   GLCall.glBindBuffer BufferTarget.GL_ARRAY_BUFFER r.buffer.m_VertexBufferID] ++
  (match r.indexBuffer with
   | none => []
   | some ib => [GLCall.glBindBuffer BufferTarget.GL_ELEMENT_ARRAY_BUFFER ib.m_IndexBufferID]) ++
  [GLCall.glVertexAttribPointer slot r.count r.type (strideArg r.buffer) offset,
   GLCall.glEnableVertexAttribArray slot]

/-- The expected calls of a whole sequence that starts at slot `slot` and byte
offset `offset`. -/
def expectedLayoutCalls : Nat → Int → List Registration → List (List GLCall)
  | _, _, [] => []
  | slot, offset, r :: rs =>
      expectedCalls slot offset r :: expectedLayoutCalls (slot + 1) (offset + r.bytes) rs

/-- A position / normal / texture-coordinate layout of floats on one buffer, as
registered by the demos' `Setup`. -/
def cubeRegistrations : List Registration :=
  [3, 3, 2].map fun c =>
    { va := { m_VertexArrayID := 1 },
      buffer := { m_VertexBufferID := 1, m_VertexCount := 8, typeSize := 4 },
      indexBuffer := none, count := c, type := BufferType.FLOAT }

/-- The GL context as far as the wrappers can tell: the next unused vertex-array
and buffer names (the driver hands out names that are not in use; no name is
deleted while the demos set up, so a counter describes it) and the calls made
so far, oldest first. -/
structure GLContext where
  nextVertexArray : Nat := 1
  nextBuffer : Nat := 1
  calls : List GLCall := []
deriving DecidableEq, Repr

/-- Record some calls. -/
def GLContext.issue (gl : GLContext) (cs : List GLCall) : GLContext := { gl with calls := gl.calls ++ cs }

/-- The method `VertexArray::generate`: `glGenVertexArrays` then `glBindVertexArray`. -/
def VertexArray.generate (_va : VertexArray) (gl : GLContext) : VertexArray × GLContext :=
  let id := gl.nextVertexArray
  ({ m_VertexArrayID := id },
   { gl with nextVertexArray := id + 1,
             calls := gl.calls ++ [GLCall.glGenVertexArrays id, GLCall.glBindVertexArray id] })

/-- The method `VertexArray::free`. -/
def VertexArray.free (va : VertexArray) (gl : GLContext) : GLContext :=
  gl.issue [GLCall.glDeleteVertexArrays va.m_VertexArrayID]

/-- The method `VertexBuffer::generate(vertexCount)`: stores the count, then
`glGenBuffers` and `glBindBuffer`. -/
def VertexBuffer.generate (vb : VertexBuffer) (vertexCount : Nat) (gl : GLContext) : VertexBuffer × GLContext :=
  let id := gl.nextBuffer
  ({ vb with m_VertexCount := vertexCount, m_VertexBufferID := id },
   { gl with nextBuffer := id + 1,
             calls := gl.calls ++
               [GLCall.glGenBuffers id, GLCall.glBindBuffer BufferTarget.GL_ARRAY_BUFFER id] })

/-- The method `VertexBuffer::setBuffer(bytes, data)`. -/
def VertexBuffer.setBuffer (vb : VertexBuffer) (bytes : Nat) (gl : GLContext) : VertexBuffer × GLContext :=
  ({ vb with m_BufferBytes := bytes },
   gl.issue [GLCall.glBufferData BufferTarget.GL_ARRAY_BUFFER bytes])

/-- The method `VertexBuffer::free`. -/
def VertexBuffer.free (vb : VertexBuffer) (gl : GLContext) : GLContext :=
  gl.issue [GLCall.glDeleteBuffers vb.m_VertexBufferID]

/-! ## OBJ loader (`Model::LoadModel`, `Window::LoadModel`) -/

/-- The type `glm::vec3`. -/
structure Vec3 where
  x : ℚ
  y : ℚ
  z : ℚ
deriving DecidableEq, Repr

/-- The local struct `Vertex` of `LoadModel`. -/
structure Vertex where
  position : Vec3
  normal : Vec3
deriving DecidableEq, Repr

/-- What the two `sscanf_s` formats of `LoadModel` store for a line: the three
floats of `"%*s %f %f %f"` and the arrays `v[3]`, `n[3]` of
`"%*s %d//%d %d//%d %d//%d"`.  The C library's number parsing is a parameter of
the embedding. -/
structure Scanner where
  floats : String → Vec3
  faceV : String → Nat → Int
  faceN : String → Nat → Int

/-- The test `line.starts_with(p)`. -/
def startsWith (line p : String) : Bool := p.data.isPrefixOf line.data

/-- The three vectors filled by the read loop. -/
structure ParseState where
  temp_positions : List Vec3 := []
  temp_normals : List Vec3 := []
  vertices : List Vertex := []
deriving DecidableEq, Repr

/-- The expression `vec[idx]` for an `int` index: defined only inside the vector. -/
def vecAt {α : Type} (vec : List α) (idx : Int) : Option α :=
  if 0 ≤ idx then vec[idx.toNat]? else none

/-- Body of the loop `for (int i = 0; i < 3; i++)` of the face branch; `none`
when a table is read out of bounds. -/
def faceBody (v n : Nat → Int) (st : Option ParseState) (i : Nat) : Option ParseState :=
  match st with
  | none => none
  | some s =>
      -- posIndex = v[i] - 1; normIndex = n[i] - 1;  (on `int`, the subtraction can
      -- only overflow for INT_MIN, whose result indexes outside the tables anyway)
      let posIndex := v i - 1
      let normIndex := n i - 1
      match vecAt s.temp_positions posIndex, vecAt s.temp_normals normIndex with
      | some p, some q => some { s with vertices := s.vertices ++ [{ position := p, normal := q }] }
      | _, _ => none

/-- Body of the loop `while (std::getline(inputFileStream, line))`. -/
def lineBody (sc : Scanner) (st : Option ParseState) (line : String) : Option ParseState :=
  match st with
  | none => none
  | some s =>
      if startsWith line "vn" then
        some { s with temp_normals := s.temp_normals ++ [sc.floats line] }
      else if startsWith line "v" then
        some { s with temp_positions := s.temp_positions ++ [sc.floats line] }
      else if startsWith line "f" then
        (List.range 3).foldl (faceBody (sc.faceV line) (sc.faceN line)) (some s)
      else some s

/-- The whole read loop over the lines of the file. -/
def readLines (sc : Scanner) (lines : List String) : Option ParseState :=
  lines.foldl (lineBody sc) (some {})

/-- Everything `LoadModel` returns or writes through its reference parameters,
together with the GL context and the vertex data handed to `setBuffer`. -/
structure LoadModelResult where
  ret : Bool
  gl : GLContext
  vao : VertexArray
  vbo : VertexBuffer
  vertexCount : Int
  uploaded : List Vertex
deriving DecidableEq, Repr

/-- The function `LoadModel(vao, vbo, vertexCount, modelFile)`.  `file` is the
list of lines `std::getline` yields, or `none` when the stream is not open.
The result is `none` when a table is indexed out of bounds. -/
def LoadModel (sc : Scanner) (file : Option (List String)) (gl : GLContext) (vao : VertexArray)
    (vbo : VertexBuffer) (vertexCount : Int) : Option LoadModelResult :=
  match file with
  | none =>
      some { ret := false, gl := gl, vao := vao, vbo := vbo, vertexCount := vertexCount,
             uploaded := [] }
  | some lines =>
      match readLines sc lines with
      | none => none
      | some st =>
          -- BufferLayout cubeLayout; vao.generate(); vbo.generate(6);
          let g1 := vao.generate gl
          let g2 := vbo.generate 6 g1.2
          -- vbo.setBuffer(vertices.size() * 6 * sizeof(float), vertexBuffer);
          let g3 := g2.1.setBuffer ((st.vertices.length * 6 * 4) % 18446744073709551616) g2.2
          let l1 := BufferLayout.fresh.setBufferLayout g1.1 g3.1 3 BufferType.FLOAT
          let l2 := l1.1.setBufferLayout g1.1 g3.1 3 BufferType.FLOAT
          some { ret := true, gl := (g3.2.issue l1.2).issue l2.2, vao := g1.1, vbo := g3.1,
                 -- vertexCount = vertices.size();
                 vertexCount := wrapInt32 ((st.vertices.length % 18446744073709551616 : Nat) : Int),
                 uploaded := st.vertices }

/-- The `v` records of a file, in file order (lines sent to the position
branch). -/
def positionRecords (sc : Scanner) (lines : List String) : List Vec3 :=
  (lines.filter fun l => !startsWith l "vn" && startsWith l "v").map sc.floats

/-- The `vn` records of a file, in file order. -/
def normalRecords (sc : Scanner) (lines : List String) : List Vec3 :=
  (lines.filter fun l => startsWith l "vn").map sc.floats

/-- The `f` lines of a file, in file order. -/
def faceLines (lines : List String) : List String :=
  lines.filter fun l => startsWith l "f"

/-- Well-formedness of the face indices: every index pair of every face line
(line number `k`) refers, 1-based, to a position and a normal record among the
lines that precede it. -/
def FacesInRange (sc : Scanner) (lines : List String) : Prop :=
  ∀ k, k < lines.length → ∀ i, i < 3 → startsWith (lines.getD k "") "f" = true →
    1 ≤ sc.faceV (lines.getD k "") i ∧
    sc.faceV (lines.getD k "") i ≤ (positionRecords sc (lines.take k)).length ∧
    1 ≤ sc.faceN (lines.getD k "") i ∧
    sc.faceN (lines.getD k "") i ≤ (normalRecords sc (lines.take k)).length

instance (sc : Scanner) (lines : List String) : Decidable (FacesInRange sc lines) := by
  unfold FacesInRange
  infer_instance

/-- A scanner for the sample file below: it reads the numbers of the few lines
the sample uses. -/
def sampleScanner : Scanner :=
  { floats := fun l =>
      if l = "v 0 0 0" then ⟨0, 0, 0⟩ else if l = "v 1 0 0" then ⟨1, 0, 0⟩
      else if l = "v 0 1 0" then ⟨0, 1, 0⟩ else ⟨0, 0, 1⟩,
    faceV := fun l i => if l = "f 1//1 2//1 3//1" then (i : Int) + 1 else 3 - (i : Int),
    faceN := fun _ _ => 1 }

/-- A sample file: three positions, one normal, two triangles. -/
def sampleObj : List String :=
  ["v 0 0 0", "v 1 0 0", "v 0 1 0", "vn 0 0 1", "f 1//1 2//1 3//1", "f 3//1 2//1 1//1"]

/-! ## Camera (`Camera.h`) -/

/-- Component-wise sum of two `glm::vec3`. -/
def Vec3.add (a b : Vec3) : Vec3 := ⟨a.x + b.x, a.y + b.y, a.z + b.z⟩

/-- The library functions the camera calls whose values are not rational:
`cosf`, `sinf`, `glm::radians`, `glm::normalize` and `glm::lookAt` (with result
type `Mat4`). -/
structure Glm (Mat4 : Type) where
  cosf : ℚ → ℚ
  sinf : ℚ → ℚ
  radians : ℚ → ℚ
  normalize : Vec3 → Vec3
  lookAt : Vec3 → Vec3 → Vec3 → Mat4

/-- Class `Camera`. -/
structure Camera (Mat4 : Type) where
  vCameraPos : Vec3
  vCameraFront : Vec3
  vCameraUp : Vec3
  fPitch : ℚ
  fYaw : ℚ
  fFov : ℚ
  fLastX : ℚ
  fLastY : ℚ
  matView : Mat4
  fCameraSpeed : ℚ

/-- A default-constructed `Camera`: the member initialisers of the class; the
members without one (`vCameraPos`, `vCameraFront`, `matView`) hold whatever is
passed in. -/
def Camera.fresh {Mat4 : Type} (pos front : Vec3) (view : Mat4) : Camera Mat4 :=
  { vCameraPos := pos, vCameraFront := front, vCameraUp := ⟨0, 1, 0⟩,
    fPitch := 0, fYaw := -90, fFov := 80, fLastX := 400, fLastY := 300,
    matView := view, fCameraSpeed := 5 }

/-- The method `Camera::ProcessMouse(gl, fMousePosX, fMousePosY)`; of `gl` it
reads `bFirstMouse`, `ScreenWidth()` and `ScreenHeight()`.  The arithmetic is
exact here; `Camera.ProcessMouse32` rounds every `float` operation. -/
def Camera.ProcessMouse {Mat4 : Type} (g : Glm Mat4) (c : Camera Mat4) (bFirstMouse : Bool)
    (screenWidth screenHeight : Int) (fMousePosX fMousePosY : ℚ) : Camera Mat4 :=
  let c1 : Camera Mat4 :=
    if bFirstMouse then
      -- fLastX = gl->ScreenWidth() / 2.0f; fLastY = gl->ScreenHeight() / 2.0f;
      { c with fLastX := (screenWidth : ℚ) / 2, fLastY := (screenHeight : ℚ) / 2 }
    else
      let fOffsetX := fMousePosX - c.fLastX
      let fOffsetY := c.fLastY - fMousePosY
      let fSensitivity : ℚ := 2 / 10
      let fOffsetX := fOffsetX * fSensitivity
      let fOffsetY := fOffsetY * fSensitivity
      let fYaw := c.fYaw + fOffsetX
      let fPitch := c.fPitch + fOffsetY
      let fPitch := if fPitch > 89 then 89 else if fPitch < -89 then -89 else fPitch
      let vDirection : Vec3 :=
        ⟨g.cosf (g.radians fYaw) * g.cosf (g.radians fPitch),
         g.sinf (g.radians fPitch),
         g.sinf (g.radians fYaw) * g.cosf (g.radians fPitch)⟩
      { c with fLastX := fMousePosX, fLastY := fMousePosY, fYaw := fYaw, fPitch := fPitch,
               vCameraFront := g.normalize vDirection }
  -- matView = glm::lookAt(vCameraPos, vCameraPos + vCameraFront, vCameraUp);
  { c1 with matView := g.lookAt c1.vCameraPos (c1.vCameraPos.add c1.vCameraFront) c1.vCameraUp }

/-- The arguments of one `ProcessMouse` call. -/
structure MouseCall where
  bFirstMouse : Bool
  screenWidth : Int
  screenHeight : Int
  fMousePosX : ℚ
  fMousePosY : ℚ

/-- The camera after each call of a sequence of `ProcessMouse` calls. -/
def Camera.mouseRun {Mat4 : Type} (g : Glm Mat4) : Camera Mat4 → List MouseCall → List (Camera Mat4)
  | _, [] => []
  | c, m :: ms =>
      let c1 := c.ProcessMouse g m.bFirstMouse m.screenWidth m.screenHeight m.fMousePosX m.fMousePosY
      c1 :: Camera.mouseRun g c1 ms

/-- A stand-in for the math library, for evaluating the angle bookkeeping (which
does not depend on it) on concrete samples. -/
def stubGlm : Glm Unit :=
  { cosf := fun _ => 1, sinf := fun _ => 0, radians := fun a => a,
    normalize := fun v => v, lookAt := fun _ _ _ => () }

/-! ## Render loop controller (`OpenGL_Graphics::Start`, `OpenGL_Graphics::RendererThread`)

The two threads are sequential programs over shared state; an execution is a
sequence of atomic steps, each taken by one thread.  A step that cannot proceed
(`join` before the render thread has ended, `glfwWaitEvents` without an event, a
thread that has not been spawned or has ended) leaves the state unchanged. -/

/-- The two threads of a run. -/
inductive Thread where
  | main
  | render
deriving DecidableEq, Repr, Fintype

/-- Program points of `Start`, executed by the main thread. -/
inductive MainPc where
  /-- Before `m_bIsRunning = true;`. -/
  | setRunning
  /-- Before `glfwSetWindowUserPointer` and the three callback registrations. -/
  | setCallbacks
  /-- Before `glfwMakeContextCurrent(nullptr);`. -/
  | releaseContext
  /-- Before `std::thread rendererThread = std::thread(...)`. -/
  | spawn
  /-- At the test of `while (m_bIsRunning)`. -/
  | loopCheck
  /-- Before `processInput(window);`. -/
  | processInput
  /-- Before `if (glfwWindowShouldClose(window)) m_bIsRunning = false;`. -/
  | closeCheck
  /-- Before `glfwWaitEvents();`. -/
  | waitEvents
  /-- Before `rendererThread.join();`. -/
  | join
  /-- Before `Destroy();`. -/
  | destroy
  /-- Before `glfwDestroyWindow(window);`. -/
  | destroyWindow
  /-- Before `glfwTerminate();`. -/
  | terminate
  /-- After the last statement of `Start`. -/
  | done
deriving DecidableEq, Repr, Fintype

/-- Program points of `RendererThread`. -/
inductive RenderPc where
  /-- The thread has not been spawned. -/
  | notStarted
  /-- Before `glfwMakeContextCurrent(window);`. -/
  | makeCurrent
  /-- Before `if (!Setup()) m_bIsRunning = false;`. -/
  | setup
  /-- At the test of `while (m_bIsRunning)`. -/
  | loopCheck
  /-- Before the clock update and the keyboard and mouse loops. -/
  | inputPass
  /-- Before `if (!Update(fElapsedTime)) m_bIsRunning = false;`. -/
  | update
  /-- Before the FPS calculation. -/
  | fps
  /-- Before the scroll / release resets and `glfwSwapBuffers(window);`. -/
  | swap
  /-- Before `glfwMakeContextCurrent(nullptr);` after the loop. -/
  | releaseContext
  /-- After the last statement of `RendererThread`. -/
  | done
deriving DecidableEq, Repr, Fintype

/-- The observable calls of a run, in the order they happen. -/
inductive Event where
  | setup (ret : Bool)
  | inputPass
  | update (ret : Bool)
  | fpsAccount
  | swapBuffers
  | destroy
  | destroyWindow
  | terminate
deriving DecidableEq, Repr

/-- The control part of the shared state: both program points, the run flag
`m_bIsRunning`, the window's close flag and the thread on which the GL context
is current. -/
structure Control where
  mainPc : MainPc
  renderPc : RenderPc
  m_bIsRunning : Bool
  shouldClose : Bool
  contextOwner : Option Thread
deriving DecidableEq, Repr, Fintype

/-- The state of a run: control part and the events so far, oldest first. -/
structure RunState where
  ctl : Control
  trace : List Event
deriving DecidableEq, Repr

/-- One scheduling decision: the thread that takes the next step and what the
outside world answers if the step asks: `ret` is the value returned by `Setup`
or `Update`, `escape` whether the quit key reads pressed in `processInput`,
`close` whether the user has asked to close the window, `event` whether
`glfwWaitEvents` returns. -/
structure Action where
  thread : Thread
  ret : Bool
  escape : Bool
  close : Bool
  event : Bool
deriving DecidableEq, Repr, Fintype

/-- The state when `Start` is entered: `ConstructWindow` has left the context
current on the main thread and the static flag holds its initial `false`. -/
def Control.init : Control :=
  { mainPc := MainPc.setRunning, renderPc := RenderPc.notStarted, m_bIsRunning := false,
    shouldClose := false, contextOwner := some Thread.main }

/-- The initial run state. -/
def RunState.init : RunState := { ctl := Control.init, trace := [] }

/-- One step of `Start` on the main thread: the new control state and the event
it emits, if any. -/
def Start.step (c : Control) (a : Action) : Control × List Event :=
  match c.mainPc with
  | MainPc.setRunning => ({ c with m_bIsRunning := true, mainPc := MainPc.setCallbacks }, [])
  | MainPc.setCallbacks => ({ c with mainPc := MainPc.releaseContext }, [])
  | MainPc.releaseContext => ({ c with contextOwner := none, mainPc := MainPc.spawn }, [])
  | MainPc.spawn => ({ c with renderPc := RenderPc.makeCurrent, mainPc := MainPc.loopCheck }, [])
  | MainPc.loopCheck =>
      if c.m_bIsRunning then ({ c with mainPc := MainPc.processInput }, [])
      else ({ c with mainPc := MainPc.join }, [])
  | MainPc.processInput =>
      -- if (glfwGetKey(window, GLFW_KEY_ESCAPE) == GLFW_PRESS)
      --   { m_bIsRunning = false; glfwSetWindowShouldClose(window, true); }
      if a.escape then
        ({ c with m_bIsRunning := false, shouldClose := true, mainPc := MainPc.closeCheck }, [])
      else ({ c with mainPc := MainPc.closeCheck }, [])
  | MainPc.closeCheck =>
      if c.shouldClose || a.close then
        ({ c with m_bIsRunning := false, shouldClose := true, mainPc := MainPc.waitEvents }, [])
      else ({ c with mainPc := MainPc.waitEvents }, [])
  | MainPc.waitEvents =>
      if a.event then ({ c with mainPc := MainPc.loopCheck }, []) else (c, [])
  | MainPc.join =>
      if c.renderPc = RenderPc.done then ({ c with mainPc := MainPc.destroy }, []) else (c, [])
  | MainPc.destroy => ({ c with mainPc := MainPc.destroyWindow }, [Event.destroy])
  | MainPc.destroyWindow =>
      ({ c with contextOwner := none, mainPc := MainPc.terminate }, [Event.destroyWindow])
  | MainPc.terminate => ({ c with mainPc := MainPc.done }, [Event.terminate])
  | MainPc.done => (c, [])

/-- One step of `RendererThread`: the new control state and the event it emits,
if any. -/
def RendererThread.step (c : Control) (a : Action) : Control × List Event :=
  match c.renderPc with
  | RenderPc.notStarted => (c, [])
  | RenderPc.makeCurrent =>
      ({ c with contextOwner := some Thread.render, renderPc := RenderPc.setup }, [])
  | RenderPc.setup =>
      -- if (!Setup()) m_bIsRunning = false;
      if a.ret then ({ c with renderPc := RenderPc.loopCheck }, [Event.setup true])
      else ({ c with m_bIsRunning := false, renderPc := RenderPc.loopCheck }, [Event.setup false])
  | RenderPc.loopCheck =>
      if c.m_bIsRunning then ({ c with renderPc := RenderPc.inputPass }, [])
      else ({ c with renderPc := RenderPc.releaseContext }, [])
  | RenderPc.inputPass => ({ c with renderPc := RenderPc.update }, [Event.inputPass])
  | RenderPc.update =>
      -- if (!Update(fElapsedTime)) { m_bIsRunning = false; }
      if a.ret then ({ c with renderPc := RenderPc.fps }, [Event.update true])
      else ({ c with m_bIsRunning := false, renderPc := RenderPc.fps }, [Event.update false])
  | RenderPc.fps => ({ c with renderPc := RenderPc.swap }, [Event.fpsAccount])
  | RenderPc.swap => ({ c with renderPc := RenderPc.loopCheck }, [Event.swapBuffers])
  | RenderPc.releaseContext => ({ c with contextOwner := none, renderPc := RenderPc.done }, [])
  | RenderPc.done => (c, [])

/-- One step of the control state by the scheduled thread. -/
def Control.step (c : Control) (a : Action) : Control × List Event :=
  match a.thread with
  | Thread.main => Start.step c a
  | Thread.render => RendererThread.step c a

/-- One step of a run. -/
def RunState.step (s : RunState) (a : Action) : RunState :=
  { ctl := (s.ctl.step a).1, trace := s.trace ++ (s.ctl.step a).2 }

/-- The state reached by a schedule. -/
def RunState.run (s : RunState) (schedule : List Action) : RunState :=
  schedule.foldl RunState.step s

/-- The control state reached by a schedule. -/
def Control.run (c : Control) (schedule : List Action) : Control :=
  schedule.foldl (fun c a => (c.step a).1) c

/-- A main-thread step in which nothing outside happens except that
`glfwWaitEvents` returns. -/
def mainStep : Action :=
  { thread := Thread.main, ret := true, escape := false, close := false, event := true }

/-- A render-thread step in which `Setup` / `Update` would succeed. -/
def renderStep : Action :=
  { thread := Thread.render, ret := true, escape := false, close := false, event := true }

/-- A render-thread step in which `Setup` / `Update` would fail. -/
def renderFail : Action := { renderStep with ret := false }

/-- A main-thread step in which the quit key reads pressed. -/
def mainEscape : Action := { mainStep with escape := true }

/-- A main-thread step in which the user has asked to close the window. -/
def mainClose : Action := { mainStep with close := true }

/-- A schedule that ends any run: both threads alternate, `Setup` / `Update` fail
and the quit key is down. -/
def stopSchedule : List Action :=
  (List.replicate 16 [renderFail, mainEscape]).flatten

/-- Schedule: the main thread starts the renderer, `Setup` fails, the main loop
notices on its next test, and the run is torn down. -/
def setupFailsSchedule : List Action :=
  List.replicate 4 mainStep ++ List.replicate 4 renderFail ++ List.replicate 5 mainStep

/-- Schedule: `Setup` succeeds, two frames succeed, `Update` fails in the third
frame; the main thread, waiting in its loop, then tears the run down. -/
def updateFailsSchedule : List Action :=
  List.replicate 7 mainStep ++ List.replicate 14 renderStep ++ [renderFail]
    ++ List.replicate 4 renderStep ++ List.replicate 6 mainStep

/-- Events emitted inside the body of the render loop. -/
def Event.inLoopBody : Event → Bool
  | Event.setup _ => false
  | Event.inputPass => true
  | Event.update _ => true
  | Event.fpsAccount => true
  | Event.swapBuffers => true
  | Event.destroy => false
  | Event.destroyWindow => false
  | Event.terminate => false

/-- Events emitted by the tear-down at the end of `Start`. -/
def Event.isTeardown : Event → Bool
  | Event.setup _ => false
  | Event.inputPass => false
  | Event.update _ => false
  | Event.fpsAccount => false
  | Event.swapBuffers => false
  | Event.destroy => true
  | Event.destroyWindow => true
  | Event.terminate => true

/-- Events that are calls of the demo's `Update`. -/
def Event.isUpdate : Event → Bool
  | Event.setup _ => false
  | Event.inputPass => false
  | Event.update _ => true
  | Event.fpsAccount => false
  | Event.swapBuffers => false
  | Event.destroy => false
  | Event.destroyWindow => false
  | Event.terminate => false

/-- Program points of `Start` at or before the creation of the render thread. -/
def MainPc.beforeSpawn : MainPc → Bool
  | MainPc.setRunning => true
  | MainPc.setCallbacks => true
  | MainPc.releaseContext => true
  | MainPc.spawn => true
  | MainPc.loopCheck => false
  | MainPc.processInput => false
  | MainPc.closeCheck => false
  | MainPc.waitEvents => false
  | MainPc.join => false
  | MainPc.destroy => false
  | MainPc.destroyWindow => false
  | MainPc.terminate => false
  | MainPc.done => false

/-- The tear-down calls `Start` has made when it is at a program point. -/
def MainPc.teardownDone : MainPc → List Event
  | MainPc.setRunning => []
  | MainPc.setCallbacks => []
  | MainPc.releaseContext => []
  | MainPc.spawn => []
  | MainPc.loopCheck => []
  | MainPc.processInput => []
  | MainPc.closeCheck => []
  | MainPc.waitEvents => []
  | MainPc.join => []
  | MainPc.destroy => []
  | MainPc.destroyWindow => [Event.destroy]
  | MainPc.terminate => [Event.destroy, Event.destroyWindow]
  | MainPc.done => [Event.destroy, Event.destroyWindow, Event.terminate]

/-- Program points of `Start` after `join` has returned. -/
def MainPc.afterJoin : MainPc → Bool
  | MainPc.setRunning => false
  | MainPc.setCallbacks => false
  | MainPc.releaseContext => false
  | MainPc.spawn => false
  | MainPc.loopCheck => false
  | MainPc.processInput => false
  | MainPc.closeCheck => false
  | MainPc.waitEvents => false
  | MainPc.join => false
  | MainPc.destroy => true
  | MainPc.destroyWindow => true
  | MainPc.terminate => true
  | MainPc.done => true

/-- Program points of `RendererThread` before `Setup` has returned. -/
def RenderPc.beforeLoop : RenderPc → Bool
  | RenderPc.notStarted => true
  | RenderPc.makeCurrent => true
  | RenderPc.setup => true
  | RenderPc.loopCheck => false
  | RenderPc.inputPass => false
  | RenderPc.update => false
  | RenderPc.fps => false
  | RenderPc.swap => false
  | RenderPc.releaseContext => false
  | RenderPc.done => false

/-- Program points of `RendererThread` at the loop test or after the loop. -/
def RenderPc.outsideBody : RenderPc → Bool
  | RenderPc.notStarted => false
  | RenderPc.makeCurrent => false
  | RenderPc.setup => false
  | RenderPc.loopCheck => true
  | RenderPc.inputPass => false
  | RenderPc.update => false
  | RenderPc.fps => false
  | RenderPc.swap => false
  | RenderPc.releaseContext => true
  | RenderPc.done => true

/-- Program points of `RendererThread` that lie after the `Update` call of the
current iteration, or after the loop. -/
def RenderPc.pastUpdate : RenderPc → Bool
  | RenderPc.notStarted => false
  | RenderPc.makeCurrent => false
  | RenderPc.setup => false
  | RenderPc.loopCheck => true
  | RenderPc.inputPass => false
  | RenderPc.update => false
  | RenderPc.fps => true
  | RenderPc.swap => true
  | RenderPc.releaseContext => true
  | RenderPc.done => true

/-- Facts about the two program points that hold in every reachable state: the
render thread has been spawned exactly when the main thread is past the spawn,
and the main thread is past `join` only when the render thread has ended. -/
def Control.consistent (c : Control) : Prop :=
  (c.mainPc.beforeSpawn = true → c.renderPc = RenderPc.notStarted) ∧
  (c.mainPc.afterJoin = true → c.renderPc = RenderPc.done) ∧
  (c.renderPc = RenderPc.notStarted → c.mainPc.beforeSpawn = true)

instance (c : Control) : Decidable c.consistent := by
  unfold Control.consistent
  infer_instance

/-- Schedule: while the second frame is being rendered the user closes the window; the render
thread finishes the frame it is in and leaves the loop, the main thread joins
it and tears the run down. -/
def windowClosedSchedule : List Action :=
  List.replicate 4 mainStep ++ List.replicate 8 renderStep
    ++ [mainStep, mainStep, mainClose, mainStep, mainStep]
    ++ List.replicate 6 renderStep ++ List.replicate 4 mainStep

/-- Schedule: as `windowClosedSchedule`, but the run is ended by the quit key. -/
def escapeSchedule : List Action :=
  List.replicate 4 mainStep ++ List.replicate 8 renderStep
    ++ [mainStep, mainEscape, mainStep, mainStep, mainStep]
    ++ List.replicate 6 renderStep ++ List.replicate 4 mainStep

/-! ## The "Tokyo Towers" demo (`Tokyo Towers (1)/main.cpp`): resource lifecycle -/

/-- The GPU resource members of class `Window`.  Shader members are left out:
`Shader::load` and the uniform setters create no vertex array and no buffer. -/
structure TokyoWindow where
  axesVAO : VertexArray := {}
  axesVBO : VertexBuffer := {}
  axesLayout : BufferLayout := BufferLayout.fresh
  cubeVAO : VertexArray := {}
  cubeVBO : VertexBuffer := {}
  cubeVertexCount : Int := 0
  modelVAO : VertexArray := {}
  modelVBO : VertexBuffer := {}
  modelVertexCount : Int := 0
  lampVAO : VertexArray := {}
deriving DecidableEq, Repr

/-- The method `Window::Setup`, as far as vertex arrays and buffers go.
`lineBytes` and `cubeBytes` are `sizeof(line_vertices)` and
`sizeof(cube_vertices)` (arrays of `VertexData.h`); `cubeObj` and `towersObj`
are the contents of the two model files, `none` when a file cannot be opened.
The outer `Option` is `none` when `LoadModel` indexes a table out of bounds. -/
def TokyoWindow.Setup (sc : Scanner) (lineBytes cubeBytes : Nat)
    (cubeObj towersObj : Option (List String)) (w : TokyoWindow) (gl : GLContext) :
    Option (Bool × TokyoWindow × GLContext) :=
  -- axesVAO.generate(); axesVBO.generate(3); axesVBO.setBuffer(sizeof(line_vertices), ...);
  let a1 := w.axesVAO.generate gl
  let a2 := w.axesVBO.generate 3 a1.2
  let a3 := a2.1.setBuffer lineBytes a2.2
  -- axesLayout.setBufferLayout(axesVAO, axesVBO, 3, BufferType::FLOAT);
  let a4 := w.axesLayout.setBufferLayout a1.1 a3.1 3 BufferType.FLOAT
  let w1 := { w with axesVAO := a1.1, axesVBO := a3.1, axesLayout := a4.1 }
  let gl1 := a3.2.issue a4.2
  -- if (!LoadModel(cubeVAO, cubeVBO, cubeVertexCount, "models/cube.obj")) return false;
  match LoadModel sc cubeObj gl1 w1.cubeVAO w1.cubeVBO w1.cubeVertexCount with
  | none => none
  | some r1 =>
    let w2 := { w1 with cubeVAO := r1.vao, cubeVBO := r1.vbo, cubeVertexCount := r1.vertexCount }
    if !r1.ret then some (false, w2, r1.gl)
    else
      -- if (!LoadModel(modelVAO, modelVBO, modelVertexCount, "models/Towers1.obj")) return false;
      match LoadModel sc towersObj r1.gl w2.modelVAO w2.modelVBO w2.modelVertexCount with
      | none => none
      | some r2 =>
        let w3 := { w2 with modelVAO := r2.vao, modelVBO := r2.vbo,
                            modelVertexCount := r2.vertexCount }
        if !r2.ret then some (false, w3, r2.gl)
        else
          -- cubeVBO.generate(3); cubeVBO.setBuffer(sizeof(cube_vertices), ...);
          let c1 := w3.cubeVBO.generate 3 r2.gl
          let c2 := c1.1.setBuffer cubeBytes c1.2
          -- lampVAO.generate(); BufferLayout lampLayout;
          -- lampLayout.setBufferLayout(lampVAO, cubeVBO, 3, BufferType::FLOAT);
          let l1 := w3.lampVAO.generate c2.2
          let l2 := BufferLayout.fresh.setBufferLayout l1.1 c2.1 3 BufferType.FLOAT
          some (true, { w3 with cubeVBO := c2.1, lampVAO := l1.1 }, l1.2.issue l2.2)

/-- The method `Window::Destroy`: `axesVAO.free(); axesVBO.free(); lampVAO.free();
cubeVAO.free(); cubeVBO.free();`. -/
def TokyoWindow.Destroy (w : TokyoWindow) (gl : GLContext) : GLContext :=
  w.cubeVBO.free (w.cubeVAO.free (w.lampVAO.free (w.axesVBO.free (w.axesVAO.free gl))))

/-- The calls made by `Setup` followed by `Destroy` on a new `Window` in a new
context (empty when `Setup` has no defined result). -/
def tokyoLifecycle (sc : Scanner) (lineBytes cubeBytes : Nat)
    (cubeObj towersObj : Option (List String)) : List GLCall :=
  match TokyoWindow.Setup sc lineBytes cubeBytes cubeObj towersObj {} {} with
  | none => []
  | some r => (r.2.1.Destroy r.2.2).calls

/-- The vertex-array names generated in a call sequence. -/
def generatedVertexArrays (calls : List GLCall) : List Nat :=
  calls.filterMap fun c =>
    match c with
    | GLCall.glGenVertexArrays id => some id
    | _ => none

/-- The buffer names generated in a call sequence. -/
def generatedBuffers (calls : List GLCall) : List Nat :=
  calls.filterMap fun c =>
    match c with
    | GLCall.glGenBuffers id => some id
    | _ => none

/-- Three calls in an 800 x 600 window: the first sample, then a jump far up and
a jump far down. -/
def sampleMouseCalls : List MouseCall :=
  [⟨true, 800, 600, 0, 0⟩, ⟨false, 800, 600, 400, -100000⟩, ⟨false, 800, 600, 400, 100000⟩]

/-! ## Shader program (`Shader.h`) -/

/-- The test `line.find(sub) != std::string::npos`: `sub` occurs somewhere in
`line`. -/
def containsSubstr (line sub : String) : Bool :=
  line.data.tails.any fun t => sub.data.isPrefixOf t

/-- The locals of the read loop of `Shader::load`: `type` (the enum
`ShaderType` as the `int` it is cast to: `NONE = -1`, `VERTEX = 0`,
`FRAGMENT = 1`) and the two streams `ss[0]`, `ss[1]`, each as the list of
pieces written to it. -/
structure ShaderParse where
  type : Int := -1
  ss0 : List String := []
  ss1 : List String := []
deriving DecidableEq, Repr

/-- The statement `ss[idx] << line << '\n';` on the two-element array `ss`:
defined only for an index inside the array. -/
def ShaderParse.write (s : ShaderParse) (idx : Int) (line : String) : Option ShaderParse :=
  if idx = 0 then some { s with ss0 := s.ss0 ++ [line ++ "\n"] }
  else if idx = 1 then some { s with ss1 := s.ss1 ++ [line ++ "\n"] }
  else none

/-- Body of the loop `while (getline(stream, line))` of `Shader::load`; `none`
when `ss` is indexed outside its two elements. -/
def shaderLineBody (st : Option ShaderParse) (line : String) : Option ShaderParse :=
  match st with
  | none => none
  | some s =>
      if containsSubstr line "SHADER" then
        if containsSubstr line "VERTEX" then some { s with type := 0 }
        else if containsSubstr line "FRAGMENT" then some { s with type := 1 }
        else some s
      else s.write s.type line

/-- The read loop of `Shader::load` over the lines of the file. -/
def Shader.parse (lines : List String) : Option ShaderParse :=
  lines.foldl shaderLineBody (some {})

/-- The method `std::stringstream::str`: the pieces written so far, joined. -/
def streamStr (buf : List String) : String := buf.foldr (fun piece rest => piece ++ rest) ""

/-- The fixed text put in front of the vertex stage. -/
def vertexHeader : String := "#version 330 core\n #define SHADER_VERTEX\n #ifdef SHADER_VERTEX\n"

/-- The fixed text put in front of the fragment stage. -/
def fragmentHeader : String :=
  "#version 330 core\n #define SHADER_FRAGMENT\n #ifdef SHADER_FRAGMENT\n"

/-- Lines 52-73 of `Shader::load`: the strings `vertexShader` and
`fragmentShader` built from the lines of the file. -/
def Shader.assemble (lines : List String) : Option (String × String) :=
  match Shader.parse lines with
  | none => none
  | some p => some (vertexHeader ++ streamStr p.ss0, fragmentHeader ++ streamStr p.ss1)

/-- The two shader stages. -/
inductive ShaderStage where
  | GL_VERTEX_SHADER
  | GL_FRAGMENT_SHADER
deriving DecidableEq, Repr

/-- What the GL driver answers during `Shader::load`: `GL_COMPILE_STATUS` for a
stage and its source, `GL_LINK_STATUS` for the program made of the two sources,
the info log it reports, and the name `glCreateProgram` returns. -/
structure ShaderDriver where
  compileStatus : ShaderStage → String → Bool
  linkStatus : String → String → Bool
  infoLog : String
  program : Nat

/-- How a call ends: it returns a value to its caller, or the process exits
with a status. -/
inductive Outcome (α : Type) where
  | returned (value : α)
  | exited (status : Int)
deriving DecidableEq, Repr

/-- A call's console output, in order, and how it ended. -/
structure Ran (α : Type) where
  printed : List String
  outcome : Outcome α
deriving DecidableEq, Repr

/-- The method `Shader::CompileShader(type, source, shaderPath)`; the value
returned stands for the shader name. -/
def Shader.CompileShader (drv : ShaderDriver) (type : ShaderStage) (source shaderPath : String) :
    Ran ShaderStage :=
  if drv.compileStatus type source then { printed := [], outcome := Outcome.returned type }
  else
    -- ... glDeleteShader(shader); glfwTerminate(); exit(0);
    { printed :=
        ["[OpenGL Error] Failed to compile " ++
           (if type = ShaderStage.GL_VERTEX_SHADER then "vertex" else "fragment") ++
           " shader in '" ++ shaderPath ++ "'",
         "Log: " ++ drv.infoLog],
      outcome := Outcome.exited 0 }

/-- What `Shader::load` leaves behind when it returns: the member `id` and the
two sources it compiled. -/
structure Shader where
  id : Nat
  vertexShader : String
  fragmentShader : String
deriving DecidableEq, Repr

/-- The method `Shader::load(shaderPath)` on a file with the given lines (no
lines when the file cannot be opened); `none` when the read loop indexes `ss`
out of bounds. -/
def Shader.load (drv : ShaderDriver) (shaderPath : String) (lines : List String) :
    Option (Ran Shader) :=
  match Shader.assemble lines with
  | none => none
  | some (vertexShader, fragmentShader) =>
      let vs := Shader.CompileShader drv ShaderStage.GL_VERTEX_SHADER vertexShader shaderPath
      match vs.outcome with
      | Outcome.exited status => some { printed := vs.printed, outcome := Outcome.exited status }
      | Outcome.returned _ =>
          let fs := Shader.CompileShader drv ShaderStage.GL_FRAGMENT_SHADER fragmentShader
            shaderPath
          match fs.outcome with
          | Outcome.exited status =>
              some { printed := vs.printed ++ fs.printed, outcome := Outcome.exited status }
          | Outcome.returned _ =>
              -- id = glCreateProgram(); ... glGetProgramiv(id, GL_LINK_STATUS, &result);
              if drv.linkStatus vertexShader fragmentShader then
                some { printed := vs.printed ++ fs.printed,
                       outcome := Outcome.returned
                         { id := drv.program, vertexShader := vertexShader,
                           fragmentShader := fragmentShader } }
              else
                -- ... glfwTerminate(); exit(0);
                some { printed := vs.printed ++ fs.printed ++
                         ["[OpenGL Error] Linking error in '" ++ shaderPath ++ "'",
                          "Log: " ++ drv.infoLog],
                       outcome := Outcome.exited 0 }

/-- A stage marker as the specification describes it: a line containing
"SHADER" together with "VERTEX" or "FRAGMENT". -/
def isStageMarker (line : String) : Bool :=
  containsSubstr line "SHADER" && (containsSubstr line "VERTEX" || containsSubstr line "FRAGMENT")

/-- The stage a marker line names (0: vertex, 1: fragment), "VERTEX" taking
precedence. -/
def markerStage (line : String) : Int := if containsSubstr line "VERTEX" then 0 else 1

/-- The stage named by the last marker among the lines `pre`, if there is one. -/
def lastMarkerStage (pre : List String) : Option Int :=
  (pre.filter isStageMarker).getLast?.map markerStage

/-- The lines of a file that belong to a stage according to the specification:
the non-marker lines whose nearest preceding marker names that stage, in file
order. -/
def stageLines (stage : Int) (lines : List String) : List String :=
  ((List.range lines.length).filter fun k =>
      !isStageMarker (lines.getD k "") && lastMarkerStage (lines.take k) == some stage).map
    fun k => lines.getD k ""

/-- The source the specification expects for a stage: the header, then every
line of the stage followed by a newline. -/
def expectedSource (header : String) (stage : Int) (lines : List String) : String :=
  header ++ streamStr ((stageLines stage lines).map fun l => l ++ "\n")

/-- A sample shader file with both stages. -/
def sampleShader : List String :=
  ["// SHADER VERTEX", "layout (location = 0) in vec3 aPos;", "void main() ;",
   "// SHADER FRAGMENT", "out vec4 FragColor;", "", "void main() ;"]

/-- A sample shader file that starts with a comment line before the first
marker. -/
def commentFirstShader : List String :=
  ["// basic colour shader", "// SHADER VERTEX", "void main() ;",
   "// SHADER FRAGMENT", "void main() ;"]

/-- A driver that accepts everything. -/
def okDriver : ShaderDriver :=
  { compileStatus := fun _ _ => true, linkStatus := fun _ _ => true, infoLog := "", program := 1 }

/-- A driver that rejects the vertex stage. -/
def vertexFailDriver : ShaderDriver :=
  { okDriver with compileStatus := fun t _ => decide (t = ShaderStage.GL_FRAGMENT_SHADER),
                  infoLog := "0(1) : error C0000: syntax error" }

/-- A driver that rejects the fragment stage. -/
def fragmentFailDriver : ShaderDriver :=
  { okDriver with compileStatus := fun t _ => decide (t = ShaderStage.GL_VERTEX_SHADER),
                  infoLog := "0(1) : error C0000: syntax error" }

/-- A driver that compiles both stages and fails to link them. -/
def linkFailDriver : ShaderDriver :=
  { okDriver with linkStatus := fun _ _ => false, infoLog := "link error" }

/-! ## Camera: keyboard movement and vector helpers (`Camera.h`, glm) -/

/-- Component-wise difference of two `glm::vec3`. -/
def Vec3.sub (a b : Vec3) : Vec3 := ⟨a.x - b.x, a.y - b.y, a.z - b.z⟩

/-- The product `v * s` of a `glm::vec3` and a scalar. -/
def Vec3.scale (v : Vec3) (s : ℚ) : Vec3 := ⟨v.x * s, v.y * s, v.z * s⟩

/-- The function `glm::cross`. -/
def Vec3.cross (a b : Vec3) : Vec3 :=
  ⟨a.y * b.z - b.y * a.z, a.z * b.x - b.z * a.x, a.x * b.y - b.x * a.y⟩

/-- The squared length `dot(v, v)`. -/
def Vec3.normSq (v : Vec3) : ℚ := v.x * v.x + v.y * v.y + v.z * v.z

/-- The enum class `CameraMovement`. -/
inductive CameraMovement where
  | FORWARD
  | BACKWARD
  | LEFT
  | RIGHT
  | UP
  | DOWN
deriving DecidableEq, Repr

/-- The method `Camera::ProcessKeyboard(movement, fDeltaTime)`.  The arithmetic
is exact here; `Camera.ProcessKeyboard32` rounds every `float` operation. -/
def Camera.ProcessKeyboard {Mat4 : Type} (g : Glm Mat4) (c : Camera Mat4)
    (movement : CameraMovement) (fDeltaTime : ℚ) : Camera Mat4 :=
  let fDistance := c.fCameraSpeed * fDeltaTime
  let vCameraPos : Vec3 :=
    match movement with
    | CameraMovement.FORWARD => c.vCameraPos.add (c.vCameraFront.scale fDistance)
    | CameraMovement.BACKWARD => c.vCameraPos.sub (c.vCameraFront.scale fDistance)
    | CameraMovement.LEFT =>
        c.vCameraPos.sub ((g.normalize (c.vCameraFront.cross c.vCameraUp)).scale fDistance)
    | CameraMovement.RIGHT =>
        c.vCameraPos.add ((g.normalize (c.vCameraFront.cross c.vCameraUp)).scale fDistance)
    | CameraMovement.UP => c.vCameraPos.add (c.vCameraUp.scale fDistance)
    | CameraMovement.DOWN => c.vCameraPos.sub (c.vCameraUp.scale fDistance)
  -- matView = glm::lookAt(vCameraPos, vCameraPos + vCameraFront, vCameraUp);
  { c with vCameraPos := vCameraPos,
           matView := g.lookAt vCameraPos (vCameraPos.add c.vCameraFront) c.vCameraUp }

/-- The direction computed by `ProcessMouse` from yaw and pitch (in degrees),
before normalisation. -/
def Glm.direction {Mat4 : Type} (g : Glm Mat4) (fYaw fPitch : ℚ) : Vec3 :=
  ⟨g.cosf (g.radians fYaw) * g.cosf (g.radians fPitch),
   g.sinf (g.radians fPitch),
   g.sinf (g.radians fYaw) * g.cosf (g.radians fPitch)⟩

/-- A math library over the rationals for evaluating the camera on concrete
samples: cosine and sine by the rational parametrisation of the circle (so that
`cos² + sin² = 1` holds exactly), a rational factor for degrees to radians, one
Newton step for the inverse square root in `normalize` (exact on unit vectors),
and `lookAt` recording its three arguments. -/
def rationalGlm : Glm (Vec3 × Vec3 × Vec3) :=
  { cosf := fun a => (1 - a * a) / (1 + a * a),
    sinf := fun a => 2 * a / (1 + a * a),
    radians := fun a => a * (355 / 113) / 180,
    normalize := fun v => v.scale ((3 - v.normSq) / 2),
    lookAt := fun eye center up => (eye, center, up) }

/-! ## Class `Model` (`Optimization - 2/headers/Model.h`) -/

/-- The members of class `Model` that `load` touches. -/
structure Model where
  vao : VertexArray := {}
  vbo : VertexBuffer := {}
  nr_indices : Int := 0
deriving DecidableEq, Repr

/-- The method `Model::load(filePath)`: `return LoadModel(vao, vbo, nr_indices,
filePath);`.  The result holds the returned flag, the model and the context. -/
def Model.load (sc : Scanner) (file : Option (List String)) (m : Model) (gl : GLContext) :
    Option (Bool × Model × GLContext) :=
  match LoadModel sc file gl m.vao m.vbo m.nr_indices with
  | none => none
  | some r => some (r.ret, { vao := r.vao, vbo := r.vbo, nr_indices := r.vertexCount }, r.gl)

/-- A file that opens but whose only face refers to records that do not exist. -/
def danglingFaceObj : List String := ["f 1//1 2//1 3//1"]

/-- The sample file with a texture-coordinate line after its first position. -/
def texcoordObj : List String :=
  ["v 0 0 0", "vt 0 0", "v 1 0 0", "v 0 1 0", "vn 0 0 1", "f 1//1 2//1 3//1"]

/-- The same file without the texture-coordinate line. -/
def plainObj : List String :=
  ["v 0 0 0", "v 1 0 0", "v 0 1 0", "vn 0 0 1", "f 1//1 2//1 3//1"]

/-! ## Texture wrapper (`Tokyo Towers (1)/headers/Texture2D.h`) -/

/-- The pixel formats `loadTexture` chooses from. -/
inductive TextureFormat where
  | GL_RED
  | GL_RGB
  | GL_RGBA
deriving DecidableEq, Repr

/-- The texture parameters `loadTexture` sets. -/
inductive TextureParam where
  | GL_TEXTURE_WRAP_S
  | GL_TEXTURE_WRAP_T
  | GL_TEXTURE_MIN_FILTER
  | GL_TEXTURE_MAG_FILTER
deriving DecidableEq, Repr

/-- The parameter values `loadTexture` uses. -/
inductive TextureValue where
  | GL_REPEAT
  | GL_LINEAR_MIPMAP_LINEAR
  | GL_LINEAR
deriving DecidableEq, Repr

/-- The calls `loadTexture` makes on the GL and on the image decoder, with the
arguments that matter. -/
inductive TextureCall where
  | glGenTextures (id : Nat)
  | glBindTexture (id : Nat)
  | glTexImage2D (format : TextureFormat) (width height : Int)
  | glGenerateMipmap
  | glTexParameteri (pname : TextureParam) (value : TextureValue)
  | stbi_image_free
deriving DecidableEq, Repr

/-- What `stbi_load(path, &width, &height, &nrComponents, 0)` stores when it
returns pixel data. -/
structure Decoded where
  width : Int
  height : Int
  nrComponents : Int
deriving DecidableEq, Repr

/-- A run of `loadTexture`: the calls made, the console output, and whether it
returned or ended the process. -/
structure TextureRun where
  calls : List TextureCall
  printed : List String
  outcome : Outcome Unit
deriving DecidableEq, Repr

/-- The method `Texture2D::loadTexture(path)`.  `id` is the name `glGenTextures`
returns, `data` the result of `stbi_load` (`none` for a null pointer: the file
cannot be opened or decoded). -/
def Texture2D.loadTexture (id : Nat) (path : String) (data : Option Decoded) : TextureRun :=
  match data with
  | some d =>
      let upload (format : TextureFormat) : TextureRun :=
        { calls :=
            [TextureCall.glGenTextures id, TextureCall.glBindTexture id,
             TextureCall.glTexImage2D format d.width d.height, TextureCall.glGenerateMipmap,
             TextureCall.glTexParameteri TextureParam.GL_TEXTURE_WRAP_S TextureValue.GL_REPEAT,
             TextureCall.glTexParameteri TextureParam.GL_TEXTURE_WRAP_T TextureValue.GL_REPEAT,
             TextureCall.glTexParameteri TextureParam.GL_TEXTURE_MIN_FILTER
               TextureValue.GL_LINEAR_MIPMAP_LINEAR,
             TextureCall.glTexParameteri TextureParam.GL_TEXTURE_MAG_FILTER TextureValue.GL_LINEAR,
             TextureCall.stbi_image_free],
          printed := [], outcome := Outcome.returned () }
      if d.nrComponents = 1 then upload TextureFormat.GL_RED
      else if d.nrComponents = 3 then upload TextureFormat.GL_RGB
      else if d.nrComponents = 4 then upload TextureFormat.GL_RGBA
      else
        -- exit(-1);
        { calls := [TextureCall.glGenTextures id], printed := [], outcome := Outcome.exited (-1) }
  | none =>
      { calls := [TextureCall.glGenTextures id, TextureCall.stbi_image_free],
        printed := ["Texture failed to load at path: " ++ path],
        outcome := Outcome.returned () }

/-- The calls that transfer pixels or build mipmaps. -/
def TextureCall.isUpload : TextureCall → Bool
  | TextureCall.glGenTextures _ => false
  | TextureCall.glBindTexture _ => false
  | TextureCall.glTexImage2D _ _ _ => true
  | TextureCall.glGenerateMipmap => true
  | TextureCall.glTexParameteri _ _ => false
  | TextureCall.stbi_image_free => false

/-! ## Frame statistics and the scroll flag (`OpenGL_Graphics::RendererThread`) -/

/-- The conversion `(int)x` of a floating-point value: truncation toward zero. -/
def truncToInt (x : ℚ) : Int := if 0 ≤ x then ⌊x⌋ else ⌈x⌉

/-- The callback `scroll_callback(window, xoffset, yoffset)`, run on the main
thread: it stores `SCROLL_UP` (3), `SCROLL_DOWN` (4) or 0 in `m_mouseScroll`. -/
def scroll_callback (yoffset : ℚ) (s : InputState) : InputState :=
  if truncToInt yoffset = 1 then { s with m_mouseScroll := 3 }
  else if truncToInt yoffset = -1 then { s with m_mouseScroll := 4 }
  else { s with m_mouseScroll := 0 }

/-- Program points inside one iteration of the render loop. -/
inductive BodyPc where
  /-- Before the clock update and the keyboard and mouse loops. -/
  | inputPass
  /-- Before the call of `Update`. -/
  | update
  /-- Before the FPS calculation. -/
  | fps
  /-- Before `m_mouseScroll = 0; m_mouse[2].bReleased = false;`. -/
  | resets
  /-- Before `glfwSwapBuffers(window);`. -/
  | present
  /-- At the test of `while (m_bIsRunning)`. -/
  | loopCheck
deriving DecidableEq, Repr

/-- The render thread inside the loop: its program point and the input tables it
shares with the callbacks. -/
structure BodyState where
  pc : BodyPc
  input : InputState

/-- What can happen next: the render thread executes the statement at its
program point (reading the frame's raw input if that is the input pass), or the
main thread delivers a scroll event. -/
inductive BodyAction where
  | render (f : FrameInput)
  | scroll (yoffset : ℚ)

/-- One step inside the loop.  `Update` can read the tables through the `const`
getters but cannot write the private members. -/
def BodyState.step (s : BodyState) (a : BodyAction) : BodyState :=
  match a with
  | BodyAction.scroll yoffset => { s with input := scroll_callback yoffset s.input }
  | BodyAction.render f =>
      match s.pc with
      | BodyPc.inputPass => { pc := BodyPc.update, input := inputPass f s.input }
      | BodyPc.update => { s with pc := BodyPc.fps }
      | BodyPc.fps => { s with pc := BodyPc.resets }
      | BodyPc.resets => { pc := BodyPc.present, input := endOfFrame s.input }
      | BodyPc.present => { s with pc := BodyPc.loopCheck }
      | BodyPc.loopCheck => { s with pc := BodyPc.inputPass }

/-- The state reached inside the loop by a sequence of steps. -/
def BodyState.run (s : BodyState) (schedule : List BodyAction) : BodyState :=
  schedule.foldl BodyState.step s

/-- The part of an iteration from the call of `Update` to the resets, during
which two scroll events arrive: one before `Update` runs and one after it. -/
def scrollSchedule : List BodyAction :=
  [BodyAction.scroll 1, BodyAction.render ⟨fun _ => false, fun _ => false⟩,
   BodyAction.scroll (-1), BodyAction.render ⟨fun _ => false, fun _ => false⟩]

/-! ## One layout binder used for several vertex arrays (`BufferLayout.h`) -/

/-- The registrations of `rs` that target the vertex array of `r`. -/
def sameArray (r : Registration) (rs : List Registration) : List Registration :=
  rs.filter fun x => decide (x.va = r.va)

/-- The registrations of `rs` that target a vertex array other than that of `r`. -/
def otherArrays (r : Registration) (rs : List Registration) : List Registration :=
  rs.filter fun x => !decide (x.va = r.va)

/-- The container and lamp arrays of "Lighting Basics", three floats each on the
buffer of `generate(8)`, registered through one binder instead of the demo's two
(`cubeLayout`, `lampLayout`). -/
def twoArrayRegistrations : List Registration :=
  [1, 2].map fun a =>
    { va := { m_VertexArrayID := a },
      buffer := { m_VertexBufferID := 1, m_VertexCount := 8, typeSize := 4 },
      indexBuffer := none, count := 3, type := BufferType.FLOAT }

/-! ## Camera: `init`, `getLookAt`, `SetCameraPos` (`Camera.h`) -/

/-- The method `Camera::init(vPos, vFront)`. -/
def Camera.init {Mat4 : Type} (g : Glm Mat4) (c : Camera Mat4) (vPos vFront : Vec3) :
    Camera Mat4 :=
  let c1 : Camera Mat4 := { c with vCameraPos := vPos, vCameraFront := vFront }
  -- matView = glm::lookAt(vCameraPos, vCameraPos + vCameraFront, vCameraUp);
  { c1 with matView := g.lookAt c1.vCameraPos (c1.vCameraPos.add c1.vCameraFront) c1.vCameraUp }

/-- The method `Camera::getLookAt()`. -/
def Camera.getLookAt {Mat4 : Type} (c : Camera Mat4) : Mat4 := c.matView

/-- The method `Camera::SetCameraPos(vPos)`. -/
def Camera.SetCameraPos {Mat4 : Type} (c : Camera Mat4) (vPos : Vec3) : Camera Mat4 :=
  { c with vCameraPos := vPos }

/-- The view matrix the specification expects to be cached: `lookAt` of the
camera's current position, position plus front, and up. -/
def Camera.expectedView {Mat4 : Type} (g : Glm Mat4) (c : Camera Mat4) : Mat4 :=
  g.lookAt c.vCameraPos (c.vCameraPos.add c.vCameraFront) c.vCameraUp

/-- The camera of the demos after `camera.init(vec3(0, 0, 3), vec3(0, 0, -1))`,
over `rationalGlm`. -/
def demoCamera : Camera (Vec3 × Vec3 × Vec3) :=
  (Camera.fresh ⟨0, 0, 0⟩ ⟨0, 0, 0⟩ ((⟨0, 0, 0⟩, ⟨0, 0, 0⟩, ⟨0, 0, 0⟩) : Vec3 × Vec3 × Vec3)).init
    rationalGlm ⟨0, 0, 3⟩ ⟨0, 0, -1⟩

/-! ## Further sample inputs and the context owner of the render loop controller -/

/-- A sample shader file with a comment that mentions "SHADER" inside the vertex
stage. -/
def taggedCommentShader : List String :=
  ["// SHADER VERTEX", "// inputs of this SHADER", "void main() ;"]

/-- Schedule: the main thread starts the renderer and `Setup` fails, which clears
the run flag. -/
def setupFailedStart : List Action :=
  List.replicate 4 mainStep ++ List.replicate 2 renderFail

/-- The events in which OpenGL functions are called: `Setup` (resource creation),
`Update` (drawing), the buffer swap, and `Destroy` (the `free()` calls of the
demos). -/
def Event.needsContext : Event → Bool
  | Event.setup _ => true
  | Event.inputPass => false
  | Event.update _ => true
  | Event.fpsAccount => false
  | Event.swapBuffers => true
  | Event.destroy => true
  | Event.destroyWindow => false
  | Event.terminate => false

/-- Program points of `Start` at which the main thread has not yet executed
`glfwMakeContextCurrent(nullptr)`. -/
def MainPc.holdsContext : MainPc → Bool
  | MainPc.setRunning => true
  | MainPc.setCallbacks => true
  | MainPc.releaseContext => true
  | MainPc.spawn => false
  | MainPc.loopCheck => false
  | MainPc.processInput => false
  | MainPc.closeCheck => false
  | MainPc.waitEvents => false
  | MainPc.join => false
  | MainPc.destroy => false
  | MainPc.destroyWindow => false
  | MainPc.terminate => false
  | MainPc.done => false

/-- Program points of `RendererThread` between `glfwMakeContextCurrent(window)`
and `glfwMakeContextCurrent(nullptr)`. -/
def RenderPc.holdsContext : RenderPc → Bool
  | RenderPc.notStarted => false
  | RenderPc.makeCurrent => false
  | RenderPc.setup => true
  | RenderPc.loopCheck => true
  | RenderPc.inputPass => true
  | RenderPc.update => true
  | RenderPc.fps => true
  | RenderPc.swap => true
  | RenderPc.releaseContext => true
  | RenderPc.done => false

/-- The thread on which the context is current, read off the two program
points. -/
def Control.ownerByPc (c : Control) : Option Thread :=
  if c.mainPc.holdsContext then some Thread.main
  else if c.renderPc.holdsContext then some Thread.render
  else none

/-- Schedule: the main thread starts the renderer, `Setup` fails, the render
thread ends and the main thread reaches the call of `Destroy`. -/
def untilDestroySchedule : List Action :=
  List.replicate 4 mainStep ++ List.replicate 4 renderFail ++ List.replicate 2 mainStep

/-- A file whose face line comes before the records it refers to. -/
def forwardFaceObj : List String :=
  ["v 0 0 0", "vn 0 0 1", "f 1//1 2//1 3//1", "v 1 0 0", "v 0 1 0"]

/-! ## Mouse tables and mouse accessors (`OpenGL_Graphics.h`) -/

/-- The enum class `Mouse` of `OpenGL_Graphics`. -/
inductive Mouse where
  | LEFT
  | RIGHT
  | MIDDLE
  | SCROLL_UP
  | SCROLL_DOWN
deriving DecidableEq, Repr

/-- The cast `(int)button`: the enumerator values `LEFT = 0`, `RIGHT = 1`,
`MIDDLE = 2`, `SCROLL_UP = 3`, `SCROLL_DOWN = 4`. -/
def Mouse.toInt : Mouse → Int
  | Mouse.LEFT => 0
  | Mouse.RIGHT => 1
  | Mouse.MIDDLE => 2
  | Mouse.SCROLL_UP => 3
  | Mouse.SCROLL_DOWN => 4

/-- The number of entries of the arrays `m_mouse[3]`, `m_mouseOldState[3]`,
`m_mouseNewState[3]` and `m_bMouseButtonHeld[3]`. -/
def mouseTableSize : Nat := 3

/-- An access `table[i]` to a C array of `size` entries with an `int` index: the
entry it denotes when `i` is inside the array, `none` when it is outside. -/
def arrayIndex (size : Nat) (i : Int) : Option Nat :=
  if 0 ≤ i ∧ i < size then some i.toNat else none

/-- The accessor `GetMouseButton(button)`: `return m_mouse[(int)button];`, `none`
when the read is outside `m_mouse`. -/
def GetMouseButton (s : InputState) (button : Mouse) : Option sKeyState :=
  (arrayIndex mouseTableSize button.toInt).map s.m_mouse

/-- The callback `mouse_button_callback(window, button, action, mods)`:
`m_bMouseButtonHeld[button] = action;` (an `int` stored in a `bool`), `none` when
the write is outside the latch array. -/
def mouse_button_callback (button action : Int) (m_bMouseButtonHeld : Nat → Bool) :
    Option (Nat → Bool) :=
  (arrayIndex mouseTableSize button).map fun i =>
    Function.update m_bMouseButtonHeld i (decide (action ≠ 0))

/-- The accessor `GetMouseScroll()`: `return (Mouse)m_mouseScroll;`, as the value
of the enum's underlying `int`. -/
def GetMouseScroll (s : InputState) : Int := s.m_mouseScroll

/-! ## The stride argument of `setBufferLayout` (`BufferLayout.h`, `VertexBuffer.h`) -/

/-- The `stride` argument of a call, if the call is `glVertexAttribPointer`. -/
def GLCall.passedStride : GLCall → Option Int
  | GLCall.glGenVertexArrays _ => none
  | GLCall.glBindVertexArray _ => none
  | GLCall.glDeleteVertexArrays _ => none
  | GLCall.glGenBuffers _ => none
  | GLCall.glBindBuffer _ _ => none
  | GLCall.glBufferData _ _ => none
  | GLCall.glDeleteBuffers _ => none
  | GLCall.glVertexAttribPointer _ _ _ stride _ => some stride
  | GLCall.glEnableVertexAttribArray _ => none

/-- The `stride` arguments of the `glVertexAttribPointer` calls among `calls`, in
order. -/
def pointerStrides (calls : List GLCall) : List Int := calls.filterMap GLCall.passedStride

/-- The lamp of "Lighting Basics": one attribute of three floats on the buffer of
`generate(8)`. -/
def lampRegistrations : List Registration :=
  [{ va := { m_VertexArrayID := 2 },
     buffer := { m_VertexBufferID := 1, m_VertexCount := 8, typeSize := 4 },
     indexBuffer := none, count := 3, type := BufferType.FLOAT }]

/-! ## Binary32 arithmetic (`float`)

The members and locals of type `float` hold binary32 numbers, and every
arithmetic operation on them rounds its exact result to the nearest binary32
number, ties to the one with an even mantissa.  A `float` is embedded as the
rational it denotes; infinities and NaN are outside the embedding, and the
theorems about rounded code state the range of their inputs so that no
operation overflows. -/

/-- Rounding of a rational to the nearest integer, ties to the even one. -/
def roundHalfEven (t : ℚ) : Int :=
  if t - ⌊t⌋ < 1 / 2 then ⌊t⌋
  else if 1 / 2 < t - ⌊t⌋ then ⌊t⌋ + 1
  else if ⌊t⌋ % 2 = 0 then ⌊t⌋ else ⌊t⌋ + 1

/-- The exponent of the last mantissa bit of the binary32 numbers around `v`:
mantissas have 24 bits, and the exponent is at least -149 (subnormal numbers). -/
def f32Exponent (v : ℚ) : Int := max (Int.log 2 |v| - 23) (-149)

/-- The exact result `v` as stored in a `float`: the nearest binary32 number,
ties to even (for `|v|` below the overflow threshold of binary32). -/
def roundF32 (v : ℚ) : ℚ := (roundHalfEven (v / 2 ^ f32Exponent v) : ℚ) * 2 ^ f32Exponent v

/-! ## Camera in binary32 (`Camera.h`)

`Camera.ProcessMouse` and `Camera.ProcessKeyboard` above compute with exact
rationals, which suffices for the properties that do not depend on rounding.
The definitions below round every `float` operation of the source. -/

/-- The vector sum `a + b` of glm on `float` components. -/
def Vec3.add32 (a b : Vec3) : Vec3 :=
  ⟨roundF32 (a.x + b.x), roundF32 (a.y + b.y), roundF32 (a.z + b.z)⟩

/-- The vector difference `a - b` of glm on `float` components. -/
def Vec3.sub32 (a b : Vec3) : Vec3 :=
  ⟨roundF32 (a.x - b.x), roundF32 (a.y - b.y), roundF32 (a.z - b.z)⟩

/-- The product `v * s` of glm of a vector and a `float`. -/
def Vec3.scale32 (v : Vec3) (s : ℚ) : Vec3 :=
  ⟨roundF32 (v.x * s), roundF32 (v.y * s), roundF32 (v.z * s)⟩

/-- The function `glm::cross` on `float` components. -/
def Vec3.cross32 (a b : Vec3) : Vec3 :=
  ⟨roundF32 (roundF32 (a.y * b.z) - roundF32 (b.y * a.z)),
   roundF32 (roundF32 (a.z * b.x) - roundF32 (b.z * a.x)),
   roundF32 (roundF32 (a.x * b.y) - roundF32 (b.x * a.y))⟩

/-- The method `Camera::ProcessMouse(gl, fMousePosX, fMousePosY)` with every
`float` operation rounded; of `gl` it reads `bFirstMouse`, `ScreenWidth()` and
`ScreenHeight()` (both `int`, converted to `float` for the division). -/
def Camera.ProcessMouse32 {Mat4 : Type} (g : Glm Mat4) (c : Camera Mat4) (bFirstMouse : Bool)
    (screenWidth screenHeight : Int) (fMousePosX fMousePosY : ℚ) : Camera Mat4 :=
  let c1 : Camera Mat4 :=
    if bFirstMouse then
      -- fLastX = gl->ScreenWidth() / 2.0f; fLastY = gl->ScreenHeight() / 2.0f;
      { c with fLastX := roundF32 (roundF32 (screenWidth : ℚ) / 2),
               fLastY := roundF32 (roundF32 (screenHeight : ℚ) / 2) }
    else
      let fOffsetX := roundF32 (fMousePosX - c.fLastX)
      let fOffsetY := roundF32 (c.fLastY - fMousePosY)
      -- float fSensitivity = 0.2f;
      let fSensitivity : ℚ := roundF32 (2 / 10)
      let fOffsetX := roundF32 (fOffsetX * fSensitivity)
      let fOffsetY := roundF32 (fOffsetY * fSensitivity)
      let fYaw := roundF32 (c.fYaw + fOffsetX)
      let fPitch := roundF32 (c.fPitch + fOffsetY)
      let fPitch := if fPitch > 89 then 89 else if fPitch < -89 then -89 else fPitch
      let vDirection : Vec3 :=
        ⟨roundF32 (g.cosf (g.radians fYaw) * g.cosf (g.radians fPitch)),
         g.sinf (g.radians fPitch),
         roundF32 (g.sinf (g.radians fYaw) * g.cosf (g.radians fPitch))⟩
      { c with fLastX := fMousePosX, fLastY := fMousePosY, fYaw := fYaw, fPitch := fPitch,
               vCameraFront := g.normalize vDirection }
  -- matView = glm::lookAt(vCameraPos, vCameraPos + vCameraFront, vCameraUp);
  { c1 with matView := g.lookAt c1.vCameraPos (c1.vCameraPos.add32 c1.vCameraFront) c1.vCameraUp }

/-- The direction computed by `ProcessMouse` from yaw and pitch, with the two
products rounded, before normalisation. -/
def Glm.direction32 {Mat4 : Type} (g : Glm Mat4) (fYaw fPitch : ℚ) : Vec3 :=
  ⟨roundF32 (g.cosf (g.radians fYaw) * g.cosf (g.radians fPitch)),
   g.sinf (g.radians fPitch),
   roundF32 (g.sinf (g.radians fYaw) * g.cosf (g.radians fPitch))⟩

/-- The exact result `v` is below the overflow threshold of binary32, so that the
`float` holding it is the finite number `roundF32 v`. -/
def F32Finite (v : ℚ) : Prop := |v| < 2 ^ 128 - 2 ^ 103

/-- The exact results rounded by the update `base += 0.2f * delta` of
`ProcessMouse`, where `delta` is a difference of two `float`s: the difference,
the product with the sensitivity, and the sum. -/
def scaledStepOperands (b a : ℚ) : List ℚ :=
  [a, roundF32 a * roundF32 (2 / 10), b + roundF32 (roundF32 a * roundF32 (2 / 10))]

/-- The method `Camera::ProcessKeyboard(movement, fDeltaTime)` with every `float`
operation rounded. -/
def Camera.ProcessKeyboard32 {Mat4 : Type} (g : Glm Mat4) (c : Camera Mat4)
    (movement : CameraMovement) (fDeltaTime : ℚ) : Camera Mat4 :=
  -- float fDistance = fCameraSpeed * fDeltaTime;
  let fDistance := roundF32 (c.fCameraSpeed * fDeltaTime)
  let vCameraPos : Vec3 :=
    match movement with
    | CameraMovement.FORWARD => c.vCameraPos.add32 (c.vCameraFront.scale32 fDistance)
    | CameraMovement.BACKWARD => c.vCameraPos.sub32 (c.vCameraFront.scale32 fDistance)
    | CameraMovement.LEFT =>
        c.vCameraPos.sub32 ((g.normalize (c.vCameraFront.cross32 c.vCameraUp)).scale32 fDistance)
    | CameraMovement.RIGHT =>
        c.vCameraPos.add32 ((g.normalize (c.vCameraFront.cross32 c.vCameraUp)).scale32 fDistance)
    | CameraMovement.UP => c.vCameraPos.add32 (c.vCameraUp.scale32 fDistance)
    | CameraMovement.DOWN => c.vCameraPos.sub32 (c.vCameraUp.scale32 fDistance)
  -- matView = glm::lookAt(vCameraPos, vCameraPos + vCameraFront, vCameraUp);
  { c with vCameraPos := vCameraPos,
           matView := g.lookAt vCameraPos (vCameraPos.add32 c.vCameraFront) c.vCameraUp }

/-- The axis along which the specification displaces the camera for a
movement: front, up, or the normalised cross product of the two. -/
def moveAxis32 {Mat4 : Type} (g : Glm Mat4) (c : Camera Mat4) : CameraMovement → Vec3
  | CameraMovement.FORWARD => c.vCameraFront
  | CameraMovement.BACKWARD => c.vCameraFront
  | CameraMovement.LEFT => g.normalize (c.vCameraFront.cross32 c.vCameraUp)
  | CameraMovement.RIGHT => g.normalize (c.vCameraFront.cross32 c.vCameraUp)
  | CameraMovement.UP => c.vCameraUp
  | CameraMovement.DOWN => c.vCameraUp

/-- Whether the specification adds the displacement (FORWARD, RIGHT, UP) or
subtracts it (BACKWARD, LEFT, DOWN). -/
def CameraMovement.adds : CameraMovement → Bool
  | CameraMovement.FORWARD => true
  | CameraMovement.BACKWARD => false
  | CameraMovement.LEFT => false
  | CameraMovement.RIGHT => true
  | CameraMovement.UP => true
  | CameraMovement.DOWN => false

/-- Every component of `v` has magnitude at most `B`. -/
def Vec3.Within (v : Vec3) (B : ℚ) : Prop := |v.x| ≤ B ∧ |v.y| ≤ B ∧ |v.z| ≤ B

/-- Every component of the exact vector `v` is below the overflow threshold of
binary32. -/
def Vec3.Finite32 (v : Vec3) : Prop := F32Finite v.x ∧ F32Finite v.y ∧ F32Finite v.z

/-- A camera at `x = 0.1f` looking along the x axis. -/
def tenthCamera : Camera Unit := Camera.fresh ⟨13421773 / 134217728, 0, 3⟩ ⟨1, 0, 0⟩ ()

/-! ## Frame statistics in binary32 (`OpenGL_Graphics::RendererThread`) -/

/-- The render steps from the buffer swap of one iteration to the resets of the
next: the swap, the loop test, the input pass, `Update` and the FPS block, each
with the raw input `f`. -/
def untilNextResets (f : FrameInput) : List BodyAction := List.replicate 5 (BodyAction.render f)

/-! # Theorems -/

/-! ## Theorems: input state tracker -/

theorem keyBody_other (poll : Nat → Bool) (s : InputState) (i k : Nat) (h : k ≠ i) :
    (keyBody poll s i).m_keys k = s.m_keys k ∧
    (keyBody poll s i).m_keyOldState k = s.m_keyOldState k := by
  unfold keyBody
  constructor
  · dsimp only
    split_ifs <;> simp [Function.update, h]
  · dsimp only
    split_ifs <;> simp [Function.update, h]

theorem keyBody_mouse (poll : Nat → Bool) (s : InputState) (i : Nat) :
    (keyBody poll s i).m_mouse = s.m_mouse ∧
    (keyBody poll s i).m_mouseOldState = s.m_mouseOldState := by
  unfold keyBody
  constructor
  · dsimp only
    split_ifs <;> rfl
  · dsimp only
    split_ifs <;> rfl

theorem keyBody_self (poll : Nat → Bool) (s : InputState) (i : Nat) (prev : Bool)
    (hold : s.m_keyOldState i = boolToInt prev) (hheld : (s.m_keys i).bHeld = prev) :
    (keyBody poll s i).m_keys i
      = { bPressed := poll i && !prev, bReleased := !poll i && prev, bHeld := poll i } ∧
    (keyBody poll s i).m_keyOldState i = boolToInt (poll i) := by
  unfold keyBody
  cases hp : poll i <;> cases prev <;>
    simp [Function.update, boolToInt, hold, hheld] at *

theorem mouseBody_other (latch : Nat → Bool) (s : InputState) (i k : Nat) (h : k ≠ i) :
    (mouseBody latch s i).m_mouse k = s.m_mouse k ∧
    (mouseBody latch s i).m_mouseOldState k = s.m_mouseOldState k := by
  unfold mouseBody
  constructor
  · dsimp only
    split_ifs <;> simp [Function.update, h]
  · dsimp only
    split_ifs <;> simp [Function.update, h]

theorem mouseBody_keys (latch : Nat → Bool) (s : InputState) (i : Nat) :
    (mouseBody latch s i).m_keys = s.m_keys ∧
    (mouseBody latch s i).m_keyOldState = s.m_keyOldState := by
  unfold mouseBody
  constructor
  · dsimp only
    split_ifs <;> rfl
  · dsimp only
    split_ifs <;> rfl

theorem mouseBody_self (latch : Nat → Bool) (s : InputState) (i : Nat) (prev : Bool)
    (hold : s.m_mouseOldState i = boolToInt prev) (hheld : (s.m_mouse i).bHeld = prev) :
    (mouseBody latch s i).m_mouse i
      = { bPressed := latch i && !prev, bReleased := !latch i && prev, bHeld := latch i } ∧
    (mouseBody latch s i).m_mouseOldState i = boolToInt (latch i) := by
  unfold mouseBody
  cases hp : latch i <;> cases prev <;>
    simp [Function.update, boolToInt, hold, hheld] at *

/-- A fold of the keyboard body over indices that exclude `k` leaves slot `k`
alone, and never touches the mouse tables. -/
theorem keyFold_frame (poll : Nat → Bool) (l : List Nat) (s : InputState) :
    (∀ k, k ∉ l → (l.foldl (keyBody poll) s).m_keys k = s.m_keys k ∧
      (l.foldl (keyBody poll) s).m_keyOldState k = s.m_keyOldState k) ∧
    (l.foldl (keyBody poll) s).m_mouse = s.m_mouse ∧
    (l.foldl (keyBody poll) s).m_mouseOldState = s.m_mouseOldState := by
  induction l generalizing s with
  | nil => simp
  | cons i rest ih =>
    obtain ⟨h1, h2, h3⟩ := ih (keyBody poll s i)
    refine ⟨?_, ?_, ?_⟩
    · intro k hk
      have hki : k ≠ i := fun e => hk (by simp [e])
      have hkr : k ∉ rest := fun e => hk (by simp [e])
      rw [List.foldl_cons, (h1 k hkr).1, (h1 k hkr).2]
      exact keyBody_other poll s i k hki
    · rw [List.foldl_cons, h2, (keyBody_mouse poll s i).1]
    · rw [List.foldl_cons, h3, (keyBody_mouse poll s i).2]

theorem mouseFold_frame (latch : Nat → Bool) (l : List Nat) (s : InputState) :
    (∀ k, k ∉ l → (l.foldl (mouseBody latch) s).m_mouse k = s.m_mouse k ∧
      (l.foldl (mouseBody latch) s).m_mouseOldState k = s.m_mouseOldState k) ∧
    (l.foldl (mouseBody latch) s).m_keys = s.m_keys ∧
    (l.foldl (mouseBody latch) s).m_keyOldState = s.m_keyOldState := by
  induction l generalizing s with
  | nil => simp
  | cons i rest ih =>
    obtain ⟨h1, h2, h3⟩ := ih (mouseBody latch s i)
    refine ⟨?_, ?_, ?_⟩
    · intro k hk
      have hki : k ≠ i := fun e => hk (by simp [e])
      have hkr : k ∉ rest := fun e => hk (by simp [e])
      rw [List.foldl_cons, (h1 k hkr).1, (h1 k hkr).2]
      exact mouseBody_other latch s i k hki
    · rw [List.foldl_cons, h2, (mouseBody_keys latch s i).1]
    · rw [List.foldl_cons, h3, (mouseBody_keys latch s i).2]

/-- The keyboard loop over `0 .. n-1` gives slot `k < n` its edge state. -/
theorem keyFold_slot (poll : Nat → Bool) (n : Nat) (s : InputState) (k : Nat) (prev : Bool)
    (hk : k < n) (hold : s.m_keyOldState k = boolToInt prev)
    (hheld : (s.m_keys k).bHeld = prev) :
    ((List.range n).foldl (keyBody poll) s).m_keys k
      = { bPressed := poll k && !prev, bReleased := !poll k && prev, bHeld := poll k } ∧
    ((List.range n).foldl (keyBody poll) s).m_keyOldState k = boolToInt (poll k) := by
  induction n with
  | zero => omega
  | succ n ih =>
    rw [List.range_succ, List.foldl_append, List.foldl_cons, List.foldl_nil]
    by_cases hkn : k = n
    · subst hkn
      have hfr := (keyFold_frame poll (List.range k) s).1 k (by simp)
      exact keyBody_self poll _ k prev (by rw [hfr.2, hold]) (by rw [hfr.1, hheld])
    · have hlt : k < n := by omega
      obtain ⟨a, b⟩ := ih hlt
      obtain ⟨c, d⟩ := keyBody_other poll ((List.range n).foldl (keyBody poll) s) n k hkn
      exact ⟨by rw [c, a], by rw [d, b]⟩

theorem mouseFold_slot (latch : Nat → Bool) (n : Nat) (s : InputState) (k : Nat) (prev : Bool)
    (hk : k < n) (hold : s.m_mouseOldState k = boolToInt prev)
    (hheld : (s.m_mouse k).bHeld = prev) :
    ((List.range n).foldl (mouseBody latch) s).m_mouse k
      = { bPressed := latch k && !prev, bReleased := !latch k && prev, bHeld := latch k } ∧
    ((List.range n).foldl (mouseBody latch) s).m_mouseOldState k = boolToInt (latch k) := by
  induction n with
  | zero => omega
  | succ n ih =>
    rw [List.range_succ, List.foldl_append, List.foldl_cons, List.foldl_nil]
    by_cases hkn : k = n
    · subst hkn
      have hfr := (mouseFold_frame latch (List.range k) s).1 k (by simp)
      exact mouseBody_self latch _ k prev (by rw [hfr.2, hold]) (by rw [hfr.1, hheld])
    · have hlt : k < n := by omega
      obtain ⟨a, b⟩ := ih hlt
      obtain ⟨c, d⟩ := mouseBody_other latch ((List.range n).foldl (mouseBody latch) s) n k hkn
      exact ⟨by rw [c, a], by rw [d, b]⟩

/-- One input pass, seen from key slot `k`. -/
theorem inputPass_key (f : FrameInput) (s : InputState) (k : Nat) (prev : Bool) (hk : k < 348)
    (hold : s.m_keyOldState k = boolToInt prev) (hheld : (s.m_keys k).bHeld = prev) :
    (inputPass f s).m_keys k
      = { bPressed := f.glfwGetKey k && !prev, bReleased := !f.glfwGetKey k && prev,
          bHeld := f.glfwGetKey k } ∧
    (inputPass f s).m_keyOldState k = boolToInt (f.glfwGetKey k) := by
  obtain ⟨-, h2, h3⟩ := mouseFold_frame f.m_bMouseButtonHeld (List.range 3)
    (keyboardPass f.glfwGetKey s)
  obtain ⟨a, b⟩ := keyFold_slot f.glfwGetKey 348 s k prev hk hold hheld
  unfold inputPass mousePass
  rw [h2, h3]
  exact ⟨a, b⟩

/-- One input pass, seen from mouse slot `b`. -/
theorem inputPass_mouse (f : FrameInput) (s : InputState) (b : Nat) (prev : Bool) (hb : b < 3)
    (hold : s.m_mouseOldState b = boolToInt prev) (hheld : (s.m_mouse b).bHeld = prev) :
    (inputPass f s).m_mouse b
      = { bPressed := f.m_bMouseButtonHeld b && !prev,
          bReleased := !f.m_bMouseButtonHeld b && prev,
          bHeld := f.m_bMouseButtonHeld b } ∧
    (inputPass f s).m_mouseOldState b = boolToInt (f.m_bMouseButtonHeld b) := by
  obtain ⟨-, h2, h3⟩ := keyFold_frame f.glfwGetKey (List.range 348) s
  unfold inputPass mousePass
  exact mouseFold_slot f.m_bMouseButtonHeld 3 _ b prev hb
    (by unfold keyboardPass; rw [h3, hold]) (by unfold keyboardPass; rw [h2, hheld])

theorem observed_keys (frames : List FrameInput) (s : InputState) (k : Nat) (prev : Bool)
    (hk : k < 348) (hold : s.m_keyOldState k = boolToInt prev)
    (hheld : (s.m_keys k).bHeld = prev) :
    (observedInputs s frames).map (fun st => st.m_keys k)
      = expectedEdges prev (frames.map fun f => f.glfwGetKey k) := by
  induction frames generalizing s prev with
  | nil => rfl
  | cons f fs ih =>
    obtain ⟨a, b⟩ := inputPass_key f s k prev hk hold hheld
    simp only [observedInputs, List.map_cons, expectedEdges]
    rw [a, ih (endOfFrame (inputPass f s)) (f.glfwGetKey k)]
    · simpa [endOfFrame] using b
    · simp [endOfFrame, a]

theorem observed_mouse (frames : List FrameInput) (s : InputState) (b : Nat) (prev : Bool)
    (hb : b < 3) (hold : s.m_mouseOldState b = boolToInt prev)
    (hheld : (s.m_mouse b).bHeld = prev) :
    (observedInputs s frames).map (fun st => st.m_mouse b)
      = expectedEdges prev (frames.map fun f => f.m_bMouseButtonHeld b) := by
  induction frames generalizing s prev with
  | nil => rfl
  | cons f fs ih =>
    obtain ⟨a, c⟩ := inputPass_mouse f s b prev hb hold hheld
    simp only [observedInputs, List.map_cons, expectedEdges]
    rw [a, ih (endOfFrame (inputPass f s)) (f.m_bMouseButtonHeld b)]
    · simpa [endOfFrame] using c
    · by_cases h2 : b = 2
      · subst h2; simp [endOfFrame, a]
      · simp [endOfFrame, Function.update, h2, a]

/-- C1. Edge detection: for every key code below 348 and every mouse button
below 3 whose previous sample and held flag are initially clear, and for every
finite sequence of frames, the states observed after each frame's input pass have
`bPressed` true exactly on an up-to-down change of the raw sample, `bReleased`
true exactly on a down-to-up change, and `bHeld` equal to the raw sample. -/
theorem input_edge_detection (s : InputState) (frames : List FrameInput) :
    (∀ k, k < 348 → s.m_keyOldState k = 0 → (s.m_keys k).bHeld = false →
      (observedInputs s frames).map (fun st => st.m_keys k)
        = expectedEdges false (frames.map fun f => f.glfwGetKey k)) ∧
    (∀ b, b < 3 → s.m_mouseOldState b = 0 → (s.m_mouse b).bHeld = false →
      (observedInputs s frames).map (fun st => st.m_mouse b)
        = expectedEdges false (frames.map fun f => f.m_bMouseButtonHeld b)) :=
  ⟨fun k hk h1 h2 => observed_keys frames s k false hk (by simpa [boolToInt] using h1) h2,
   fun b hb h1 h2 => observed_mouse frames s b false hb (by simpa [boolToInt] using h1) h2⟩

/-- Witness for C1: the raw sequence down, down, up, up, down on key 65 and on
the middle mouse button. -/
theorem input_edge_detection_witness :
    (observedInputs clearedInput sampleFrames).map (fun st => st.m_keys 65)
      = [⟨true, false, true⟩, ⟨false, false, true⟩, ⟨false, true, false⟩,
         ⟨false, false, false⟩, ⟨true, false, true⟩] ∧
    (observedInputs clearedInput sampleFrames).map (fun st => st.m_mouse 2)
      = [⟨true, false, true⟩, ⟨false, false, true⟩, ⟨false, true, false⟩,
         ⟨false, false, false⟩, ⟨true, false, true⟩] :=
  ⟨(input_edge_detection clearedInput sampleFrames).1 65 (by decide) rfl rfl,
   (input_edge_detection clearedInput sampleFrames).2 2 (by decide) rfl rfl⟩

/-! ## Theorems: layout binder -/

theorem wrapInt32_of_range (x : Int) (h1 : -2147483648 ≤ x) (h2 : x < 2147483648) :
    wrapInt32 x = x := by
  unfold wrapInt32
  omega

theorem getSizeFromType_eq (t : BufferType) : getSizeFromType t = 4 := by
  cases t <;> rfl

theorem totalBytes_cons (r : Registration) (rs : List Registration) :
    totalBytes (r :: rs) = r.bytes + totalBytes rs := by
  simp [totalBytes]

theorem totalBytes_nonneg (rs : List Registration) (h : ∀ r ∈ rs, 0 ≤ r.count) :
    0 ≤ totalBytes rs := by
  induction rs with
  | nil => simp [totalBytes]
  | cons r rs ih =>
    rw [totalBytes_cons]
    have h1 : 0 ≤ r.count := h r (by simp)
    have h2 := ih (fun x hx => h x (by simp [hx]))
    have h3 : r.bytes = r.count * 4 := by simp [Registration.bytes, getSizeFromType_eq]
    omega

/-- One registration made at slot `slot` and byte offset `off`, when nothing
wraps: the calls are the expected ones and both counters advance. -/
theorem register_step (l : BufferLayout) (r : Registration) (slot : Nat) (off : Int)
    (hloc : l.location = slot) (hstr : l.stride = off) (hoff : 0 ≤ off)
    (hslot : (slot : Int) + 1 < 2147483648) (hc : 0 ≤ r.count)
    (hsum : off + r.bytes < 2147483648) :
    (l.register r).2 = expectedCalls slot off r ∧
    (l.register r).1.location = (slot + 1 : Nat) ∧
    (l.register r).1.stride = off + r.bytes := by
  have hb : r.bytes = r.count * 4 := by simp [Registration.bytes, getSizeFromType_eq]
  have hw1 : wrapInt32 (r.count * getSizeFromType r.type) = r.count * 4 := by
    rw [getSizeFromType_eq]
    exact wrapInt32_of_range _ (by omega) (by omega)
  have hw2 : wrapInt32 (l.stride + r.count * 4) = off + r.bytes := by
    rw [hstr, hb]
    exact wrapInt32_of_range _ (by omega) (by omega)
  have hw3 : wrapInt32 (l.location + 1) = (slot + 1 : Nat) := by
    rw [hloc]
    push_cast
    exact wrapInt32_of_range _ (by omega) (by omega)
  have hm1 : l.location % 4294967296 = slot := by
    rw [hloc]; omega
  have hm2 : l.stride % 18446744073709551616 = off := by
    rw [hstr]; omega
  unfold BufferLayout.register
  cases hib : r.indexBuffer with
  | none =>
    simp only [BufferLayout.setBufferLayout, expectedCalls, hib, hw1, hw2, hw3, hm1, hm2]
    simp
  | some ib =>
    simp only [BufferLayout.setBufferLayoutIndexed, expectedCalls, hib, hw1, hw2, hw3, hm1, hm2]
    simp

/-- The general form of the accumulation property, from any slot and offset. -/
theorem registerAll_from (regs : List Registration) (l : BufferLayout) (slot : Nat) (off : Int)
    (hloc : l.location = slot) (hstr : l.stride = off) (hoff : 0 ≤ off)
    (hlen : (slot : Int) + regs.length < 2147483648)
    (hcount : ∀ r ∈ regs, 0 ≤ r.count)
    (htotal : off + totalBytes regs < 2147483648) :
    (∀ k r, regs[k]? = some r →
      (BufferLayout.registerAll l regs).2[k]?
        = some (expectedCalls (slot + k) (off + totalBytes (regs.take k)) r)) ∧
    (BufferLayout.registerAll l regs).2.length = regs.length ∧
    (BufferLayout.registerAll l regs).1.location = (slot + regs.length : Nat) ∧
    (BufferLayout.registerAll l regs).1.stride = off + totalBytes regs := by
  induction regs generalizing l slot off with
  | nil =>
    refine ⟨?_, ?_, ?_, ?_⟩
    · intro k r h; simp at h
    · rfl
    · simpa [BufferLayout.registerAll] using hloc
    · simpa [BufferLayout.registerAll, totalBytes] using hstr
  | cons r rs ih =>
    have hc : 0 ≤ r.count := hcount r (by simp)
    have hrs : ∀ x ∈ rs, 0 ≤ x.count := fun x hx => hcount x (by simp [hx])
    have hnn := totalBytes_nonneg rs hrs
    rw [totalBytes_cons] at htotal
    have hb : r.bytes = r.count * 4 := by simp [Registration.bytes, getSizeFromType_eq]
    simp only [List.length_cons] at hlen
    push_cast at hlen
    obtain ⟨s1, s2, s3⟩ := register_step l r slot off hloc hstr hoff (by omega) hc (by omega)
    obtain ⟨i1, i2, i3, i4⟩ := ih (l.register r).1 (slot + 1) (off + r.bytes) s2 s3
      (by omega) (by push_cast; omega) hrs (by omega)
    refine ⟨?_, ?_, ?_, ?_⟩
    · intro k x hk
      cases k with
      | zero =>
        simp only [List.getElem?_cons_zero, Option.some.injEq] at hk
        subst hk
        simp [BufferLayout.registerAll, s1, totalBytes]
      | succ k =>
        simp only [List.getElem?_cons_succ] at hk
        have := i1 k x hk
        simp only [BufferLayout.registerAll, List.getElem?_cons_succ, this, List.take_succ_cons,
          totalBytes_cons]
        congr 2
        · omega
        · ring
    · simp [BufferLayout.registerAll, i2]
    · simp only [BufferLayout.registerAll, i3, List.length_cons]
      congr 1
      omega
    · simp only [BufferLayout.registerAll, i4, totalBytes_cons]
      ring

/-- C2. Offset accumulation: on a freshly constructed `BufferLayout`, for every
sequence of registrations (of non-negative component counts, short enough and
small enough that no `int` wraps), the `k`-th registration binds its array and
buffer, passes slot `k` and byte offset `Σ_{i<k} c_i * size(t_i)` to
`glVertexAttribPointer`, enables slot `k`, and afterwards the accumulator holds
the sum of all sizes and the slot counter the number of registrations. -/
theorem layout_offset_accumulation (regs : List Registration)
    (hlen : (regs.length : Int) < 2147483648)
    (hcount : ∀ r ∈ regs, 0 ≤ r.count)
    (htotal : totalBytes regs < 2147483648) :
    (∀ k r, regs[k]? = some r →
      (BufferLayout.registerAll BufferLayout.fresh regs).2[k]?
        = some (expectedCalls k (totalBytes (regs.take k)) r)) ∧
    (BufferLayout.registerAll BufferLayout.fresh regs).2.length = regs.length ∧
    (BufferLayout.registerAll BufferLayout.fresh regs).1.location = regs.length ∧
    (BufferLayout.registerAll BufferLayout.fresh regs).1.stride = totalBytes regs := by
  have h := registerAll_from regs BufferLayout.fresh 0 0 rfl rfl (le_refl 0)
    (by simpa using hlen) hcount (by simpa using htotal)
  simpa using h

/-- Witness for C2: counts 3, 3, 2 of `FLOAT` give slots 0, 1, 2, byte offsets
0, 12, 24 and a final accumulator of 32. -/
theorem layout_offset_accumulation_witness :
    (BufferLayout.registerAll BufferLayout.fresh cubeRegistrations).2
      = [[GLCall.glBindVertexArray 1, GLCall.glBindBuffer BufferTarget.GL_ARRAY_BUFFER 1,
          GLCall.glVertexAttribPointer 0 3 BufferType.FLOAT 32 0,
          GLCall.glEnableVertexAttribArray 0],
         [GLCall.glBindVertexArray 1, GLCall.glBindBuffer BufferTarget.GL_ARRAY_BUFFER 1,
          GLCall.glVertexAttribPointer 1 3 BufferType.FLOAT 32 12,
          GLCall.glEnableVertexAttribArray 1],
         [GLCall.glBindVertexArray 1, GLCall.glBindBuffer BufferTarget.GL_ARRAY_BUFFER 1,
          GLCall.glVertexAttribPointer 2 2 BufferType.FLOAT 32 24,
          GLCall.glEnableVertexAttribArray 2]] ∧
    (BufferLayout.registerAll BufferLayout.fresh cubeRegistrations).1.stride = 32 ∧
    (BufferLayout.registerAll BufferLayout.fresh cubeRegistrations).1.location = 3 := by
  have h := layout_offset_accumulation cubeRegistrations (by decide) (by decide) (by decide)
  refine ⟨by decide, ?_, ?_⟩
  · rw [h.2.2.2]; decide
  · rw [h.2.2.1]; decide

/-! ## Theorems: OBJ loader -/

theorem startsWith_v_not_f (l : String) (h : startsWith l "v" = true) :
    startsWith l "f" = false := by
  unfold startsWith at *
  cases hd : l.data with
  | nil => simp [hd] at h
  | cons c cs =>
    rw [hd] at h
    have hv : "v".data = ['v'] := rfl
    have hf : "f".data = ['f'] := rfl
    rw [hv] at h
    rw [hf]
    simp only [List.isPrefixOf, Bool.and_true, beq_iff_eq] at h
    simp [List.isPrefixOf, ← h]

theorem startsWith_vn_v (l : String) (h : startsWith l "vn" = true) :
    startsWith l "v" = true := by
  unfold startsWith at *
  cases hd : l.data with
  | nil => simp [hd] at h
  | cons c cs =>
    rw [hd] at h
    have hvn : "vn".data = ['v', 'n'] := rfl
    have hv : "v".data = ['v'] := rfl
    rw [hvn] at h
    rw [hv]
    cases cs with
    | nil => simp [List.isPrefixOf] at h
    | cons d ds =>
      simp only [List.isPrefixOf, Bool.and_true, Bool.and_eq_true, beq_iff_eq] at h
      simp [List.isPrefixOf, ← h.1]

theorem vecAt_of_range {α : Type} (xs : List α) (a : Int) (h1 : 1 ≤ a) (h2 : a ≤ xs.length) :
    ∃ p, vecAt xs (a - 1) = some p ∧ xs[(a - 1).toNat]? = some p := by
  have hlt : (a - 1).toNat < xs.length := by omega
  refine ⟨xs[(a - 1).toNat], ?_, ?_⟩
  · unfold vecAt
    rw [if_pos (by omega)]
    exact List.getElem?_eq_getElem hlt
  · exact List.getElem?_eq_getElem hlt

/-- The face branch on in-range indices appends exactly the three referenced
position/normal pairs, in index order. -/
theorem faceFold_ok (v n : Nat → Int) (s : ParseState)
    (hv : ∀ i, i < 3 → 1 ≤ v i ∧ v i ≤ s.temp_positions.length)
    (hn : ∀ i, i < 3 → 1 ≤ n i ∧ n i ≤ s.temp_normals.length) :
    ∃ P Q : Nat → Vec3,
      (∀ i, i < 3 → s.temp_positions[(v i - 1).toNat]? = some (P i) ∧
        s.temp_normals[(n i - 1).toNat]? = some (Q i)) ∧
      (List.range 3).foldl (faceBody v n) (some s)
        = some { s with vertices := s.vertices ++
            [⟨P 0, Q 0⟩, ⟨P 1, Q 1⟩, ⟨P 2, Q 2⟩] } := by
  obtain ⟨p0, a0, b0⟩ := vecAt_of_range s.temp_positions (v 0) (hv 0 (by omega)).1 (hv 0 (by omega)).2
  obtain ⟨p1, a1, b1⟩ := vecAt_of_range s.temp_positions (v 1) (hv 1 (by omega)).1 (hv 1 (by omega)).2
  obtain ⟨p2, a2, b2⟩ := vecAt_of_range s.temp_positions (v 2) (hv 2 (by omega)).1 (hv 2 (by omega)).2
  obtain ⟨q0, c0, d0⟩ := vecAt_of_range s.temp_normals (n 0) (hn 0 (by omega)).1 (hn 0 (by omega)).2
  obtain ⟨q1, c1, d1⟩ := vecAt_of_range s.temp_normals (n 1) (hn 1 (by omega)).1 (hn 1 (by omega)).2
  obtain ⟨q2, c2, d2⟩ := vecAt_of_range s.temp_normals (n 2) (hn 2 (by omega)).1 (hn 2 (by omega)).2
  refine ⟨fun i => if i = 0 then p0 else if i = 1 then p1 else p2,
          fun i => if i = 0 then q0 else if i = 1 then q1 else q2, ?_, ?_⟩
  · intro i hi
    have : i = 0 ∨ i = 1 ∨ i = 2 := by omega
    rcases this with h | h | h <;> subst h
    · exact ⟨b0, d0⟩
    · exact ⟨b1, d1⟩
    · exact ⟨b2, d2⟩
  · have hr : List.range 3 = [0, 1, 2] := by decide
    rw [hr]
    simp [List.foldl, faceBody, a0, a1, a2, c0, c1, c2]

theorem facesInRange_butLast (sc : Scanner) (pre : List String) (l : String)
    (h : FacesInRange sc (pre ++ [l])) : FacesInRange sc pre := by
  intro k hk i hi hf
  have hk2 : k < (pre ++ [l]).length := by simp; omega
  have hget : (pre ++ [l]).getD k "" = pre.getD k "" := by
    simp [List.getD, List.getElem?_append_left hk]
  have htake : (pre ++ [l]).take k = pre.take k := by
    rw [List.take_append_of_le_length (by omega)]
  have := h k hk2 i hi (by rw [hget]; exact hf)
  rw [hget, htake] at this
  exact this

theorem facesInRange_last (sc : Scanner) (pre : List String) (l : String)
    (h : FacesInRange sc (pre ++ [l])) (hf : startsWith l "f" = true) (i : Nat) (hi : i < 3) :
    1 ≤ sc.faceV l i ∧ sc.faceV l i ≤ (positionRecords sc pre).length ∧
    1 ≤ sc.faceN l i ∧ sc.faceN l i ≤ (normalRecords sc pre).length := by
  have hget : (pre ++ [l]).getD pre.length "" = l := by
    simp [List.getD]
  have htake : (pre ++ [l]).take pre.length = pre := by
    simp
  have := h pre.length (by simp) i hi (by rw [hget]; exact hf)
  rw [hget, htake] at this
  exact this

theorem positionRecords_snoc (sc : Scanner) (pre : List String) (l : String) :
    positionRecords sc (pre ++ [l])
      = positionRecords sc pre ++
        (if (!startsWith l "vn" && startsWith l "v") = true then [sc.floats l] else []) := by
  unfold positionRecords
  by_cases h : (!startsWith l "vn" && startsWith l "v") = true <;>
    simp [List.filter_append, List.filter_cons, h]

theorem normalRecords_snoc (sc : Scanner) (pre : List String) (l : String) :
    normalRecords sc (pre ++ [l])
      = normalRecords sc pre ++ (if startsWith l "vn" = true then [sc.floats l] else []) := by
  unfold normalRecords
  by_cases h : startsWith l "vn" = true <;>
    simp [List.filter_append, List.filter_cons, h]

theorem faceLines_snoc (pre : List String) (l : String) :
    faceLines (pre ++ [l]) = faceLines pre ++ (if startsWith l "f" = true then [l] else []) := by
  unfold faceLines
  by_cases h : startsWith l "f" = true <;>
    simp [List.filter_append, List.filter_cons, h]

theorem getElem?_append_some {α : Type} (xs ys : List α) (k : Nat) (a : α)
    (h : xs[k]? = some a) : (xs ++ ys)[k]? = some a := by
  have hk : k < xs.length := by
    by_contra hc
    rw [List.getElem?_eq_none (by omega)] at h
    exact Option.noConfusion h
  rw [List.getElem?_append_left hk]
  exact h

/-- Invariant of the read loop on a file whose face indices are in range: the
tables are the records read so far and vertex `3 * j + i` is the pair named by
the `i`-th index pair of the `j`-th face line. -/
theorem readLines_inv (sc : Scanner) (lines : List String) (h : FacesInRange sc lines) :
    ∃ s, readLines sc lines = some s ∧
      s.temp_positions = positionRecords sc lines ∧
      s.temp_normals = normalRecords sc lines ∧
      s.vertices.length = 3 * (faceLines lines).length ∧
      ∀ j l i, (faceLines lines)[j]? = some l → i < 3 →
        ∃ p q, (positionRecords sc lines)[(sc.faceV l i - 1).toNat]? = some p ∧
          (normalRecords sc lines)[(sc.faceN l i - 1).toNat]? = some q ∧
          s.vertices[3 * j + i]? = some ⟨p, q⟩ := by
  induction lines using List.reverseRecOn with
  | nil =>
    exact ⟨{}, rfl, rfl, rfl, rfl, by intro j l i hj; simp [faceLines] at hj⟩
  | append_singleton pre l ih =>
    obtain ⟨s, hs, hp, hn, hlen, hvert⟩ := ih (facesInRange_butLast sc pre l h)
    have hread : readLines sc (pre ++ [l]) = lineBody sc (some s) l := by
      unfold readLines at *
      rw [List.foldl_append, hs]
      rfl
    rw [hread, positionRecords_snoc, normalRecords_snoc, faceLines_snoc]
    by_cases hvn : startsWith l "vn" = true
    · have hv := startsWith_vn_v l hvn
      have hf := startsWith_v_not_f l hv
      refine ⟨{ s with temp_normals := s.temp_normals ++ [sc.floats l] }, ?_, ?_, ?_, ?_, ?_⟩
      · simp [lineBody, hvn]
      · simp [hvn, hp]
      · simp [hvn, hn]
      · simp [hf, hlen]
      · intro j x i hj hi
        simp only [hf, Bool.false_eq_true, if_false, List.append_nil] at hj
        obtain ⟨p, q, e1, e2, e3⟩ := hvert j x i hj hi
        exact ⟨p, q, getElem?_append_some _ _ _ _ e1, getElem?_append_some _ _ _ _ e2, e3⟩
    · by_cases hv : startsWith l "v" = true
      · have hf := startsWith_v_not_f l hv
        refine ⟨{ s with temp_positions := s.temp_positions ++ [sc.floats l] }, ?_, ?_, ?_, ?_, ?_⟩
        · simp [lineBody, hvn, hv]
        · simp [hvn, hv, hp]
        · simp [hvn, hn]
        · simp [hf, hlen]
        · intro j x i hj hi
          simp only [hf, Bool.false_eq_true, if_false, List.append_nil] at hj
          obtain ⟨p, q, e1, e2, e3⟩ := hvert j x i hj hi
          exact ⟨p, q, getElem?_append_some _ _ _ _ e1, getElem?_append_some _ _ _ _ e2, e3⟩
      · by_cases hf : startsWith l "f" = true
        · have hr := facesInRange_last sc pre l h hf
          obtain ⟨P, Q, hPQ, hfold⟩ := faceFold_ok (sc.faceV l) (sc.faceN l) s
            (fun i hi => ⟨(hr i hi).1, by rw [hp]; exact (hr i hi).2.1⟩)
            (fun i hi => ⟨(hr i hi).2.2.1, by rw [hn]; exact (hr i hi).2.2.2⟩)
          refine ⟨{ s with vertices := s.vertices ++ [⟨P 0, Q 0⟩, ⟨P 1, Q 1⟩, ⟨P 2, Q 2⟩] },
            ?_, ?_, ?_, ?_, ?_⟩
          · simp only [lineBody, hvn, hv, hf, Bool.false_eq_true, if_false, if_true]
            exact hfold
          · simp [hvn, hv, hp]
          · simp [hvn, hn]
          · simp [hf, hlen]
            omega
          · intro j x i hj hi
            simp only [hf, if_true] at hj
            by_cases hjl : j < (faceLines pre).length
            · rw [List.getElem?_append_left hjl] at hj
              obtain ⟨p, q, e1, e2, e3⟩ := hvert j x i hj hi
              exact ⟨p, q, getElem?_append_some _ _ _ _ e1, getElem?_append_some _ _ _ _ e2,
                getElem?_append_some _ _ _ _ e3⟩
            · have hjeq : j = (faceLines pre).length := by
                by_contra hne
                rw [List.getElem?_eq_none (by simp; omega)] at hj
                exact Option.noConfusion hj
              subst hjeq
              have hx : x = l := by simpa using hj.symm
              subst hx
              refine ⟨P i, Q i, ?_, ?_, ?_⟩
              · exact getElem?_append_some _ _ _ _ (by rw [← hp]; exact (hPQ i hi).1)
              · exact getElem?_append_some _ _ _ _ (by rw [← hn]; exact (hPQ i hi).2)
              · have hge : s.vertices.length ≤ 3 * (faceLines pre).length + i := by omega
                rw [List.getElem?_append_right hge]
                have hidx : 3 * (faceLines pre).length + i - s.vertices.length = i := by omega
                rw [hidx]
                have : i = 0 ∨ i = 1 ∨ i = 2 := by omega
                rcases this with e | e | e <;> subst e <;> rfl
        · refine ⟨s, ?_, ?_, ?_, ?_, ?_⟩
          · simp [lineBody, hvn, hv, hf]
          · simp [hvn, hv, hp]
          · simp [hvn, hn]
          · simp [hf, hlen]
          · intro j x i hj hi
            simp only [hf, Bool.false_eq_true, if_false, List.append_nil] at hj
            obtain ⟨p, q, e1, e2, e3⟩ := hvert j x i hj hi
            exact ⟨p, q, getElem?_append_some _ _ _ _ e1, getElem?_append_some _ _ _ _ e2, e3⟩

/-- When the read loop completes, `LoadModel` succeeds and uploads the vertices
it collected. -/
theorem loadModel_of_read (sc : Scanner) (lines : List String) (gl : GLContext)
    (vao : VertexArray) (vbo : VertexBuffer) (vertexCount : Int) (s : ParseState)
    (h : readLines sc lines = some s) :
    ∃ res, LoadModel sc (some lines) gl vao vbo vertexCount = some res ∧
      res.ret = true ∧
      res.vertexCount = wrapInt32 ((s.vertices.length % 18446744073709551616 : Nat) : Int) ∧
      res.uploaded = s.vertices := by
  simp only [LoadModel, h]
  exact ⟨_, rfl, rfl, rfl, rfl⟩

/-- C3. OBJ flattening: for every file whose face indices refer, 1-based, to
records that precede them (and with fewer than `2^31 / 3` faces, so the `int`
vertex count holds the size), `LoadModel` returns true, sets the vertex count to
three times the number of `f` lines, and emitted vertex `3 * j + i` carries the
position record and the normal record named by the `i`-th index pair of the
`j`-th face line: file order, no reordering, no deduplication. -/
theorem loadModel_flattens_faces (sc : Scanner) (lines : List String) (gl : GLContext)
    (vao : VertexArray) (vbo : VertexBuffer) (vertexCount : Int)
    (hwf : FacesInRange sc lines)
    (hsize : 3 * (faceLines lines).length < 2147483648) :
    ∃ res, LoadModel sc (some lines) gl vao vbo vertexCount = some res ∧
      res.ret = true ∧
      res.vertexCount = 3 * (faceLines lines).length ∧
      res.uploaded.length = 3 * (faceLines lines).length ∧
      ∀ j l i, (faceLines lines)[j]? = some l → i < 3 →
        ∃ p q, (positionRecords sc lines)[(sc.faceV l i - 1).toNat]? = some p ∧
          (normalRecords sc lines)[(sc.faceN l i - 1).toNat]? = some q ∧
          res.uploaded[3 * j + i]? = some ⟨p, q⟩ := by
  obtain ⟨s, hs, -, -, hlen, hvert⟩ := readLines_inv sc lines hwf
  obtain ⟨res, hres, hret, hcount, hup⟩ := loadModel_of_read sc lines gl vao vbo vertexCount s hs
  refine ⟨res, hres, hret, ?_, by rw [hup]; exact hlen, by rw [hup]; exact hvert⟩
  rw [hcount, hlen]
  have h1 : 3 * (faceLines lines).length % 18446744073709551616 = 3 * (faceLines lines).length :=
    Nat.mod_eq_of_lt (by omega)
  rw [h1]
  push_cast
  exact wrapInt32_of_range _ (by omega) (by omega)

/-- Witness for C3: the sample file with two triangles yields six vertices, the
second triangle listing the same three positions in reverse order. -/
theorem loadModel_flattens_faces_witness :
    ∃ res, LoadModel sampleScanner (some sampleObj) {} {} {} 0 = some res ∧
      res.ret = true ∧ res.vertexCount = 6 ∧
      res.uploaded = [⟨⟨0, 0, 0⟩, ⟨0, 0, 1⟩⟩, ⟨⟨1, 0, 0⟩, ⟨0, 0, 1⟩⟩, ⟨⟨0, 1, 0⟩, ⟨0, 0, 1⟩⟩,
                      ⟨⟨0, 1, 0⟩, ⟨0, 0, 1⟩⟩, ⟨⟨1, 0, 0⟩, ⟨0, 0, 1⟩⟩, ⟨⟨0, 0, 0⟩, ⟨0, 0, 1⟩⟩] := by
  obtain ⟨res, h1, h2, h3, -, -⟩ :=
    loadModel_flattens_faces sampleScanner sampleObj {} {} {} 0 (by decide) (by decide)
  refine ⟨res, h1, h2, by rw [h3]; decide, ?_⟩
  have h4 : (LoadModel sampleScanner (some sampleObj) {} {} {} 0).map (fun r => r.uploaded)
      = some [⟨⟨0, 0, 0⟩, ⟨0, 0, 1⟩⟩, ⟨⟨1, 0, 0⟩, ⟨0, 0, 1⟩⟩, ⟨⟨0, 1, 0⟩, ⟨0, 0, 1⟩⟩,
              ⟨⟨0, 1, 0⟩, ⟨0, 0, 1⟩⟩, ⟨⟨1, 0, 0⟩, ⟨0, 0, 1⟩⟩, ⟨⟨0, 0, 0⟩, ⟨0, 0, 1⟩⟩] := by
    decide
  rw [h1] at h4
  simpa using h4

/-! ## Theorems: camera -/

theorem processMouse_pitch_bounds {Mat4 : Type} (g : Glm Mat4) (c : Camera Mat4) (b : Bool)
    (w h : Int) (x y : ℚ) (hc : -89 ≤ c.fPitch ∧ c.fPitch ≤ 89) :
    -89 ≤ (c.ProcessMouse g b w h x y).fPitch ∧ (c.ProcessMouse g b w h x y).fPitch ≤ 89 := by
  unfold Camera.ProcessMouse
  cases b with
  | true => simpa using hc
  | false =>
    simp only [Bool.false_eq_true, if_false]
    split_ifs with h1 h2
    · norm_num
    · norm_num
    · constructor
      · exact not_lt.mp h2
      · exact not_lt.mp h1

theorem mouseRun_pitch_bounds {Mat4 : Type} (g : Glm Mat4) (calls : List MouseCall)
    (c : Camera Mat4) (hc : -89 ≤ c.fPitch ∧ c.fPitch ≤ 89) :
    ∀ c1 ∈ Camera.mouseRun g c calls, -89 ≤ c1.fPitch ∧ c1.fPitch ≤ 89 := by
  induction calls generalizing c with
  | nil => intro c1 h1; simp [Camera.mouseRun] at h1
  | cons m ms ih =>
    intro c1 h1
    have hstep := processMouse_pitch_bounds g c m.bFirstMouse m.screenWidth m.screenHeight
      m.fMousePosX m.fMousePosY hc
    simp only [Camera.mouseRun, List.mem_cons] at h1
    rcases h1 with h1 | h1
    · rw [h1]; exact hstep
    · exact ih _ hstep c1 h1

/-- C4. Pitch clamp: for every sequence of `ProcessMouse` calls, with any samples,
any window size and any value of `bFirstMouse` at each call, applied to a freshly
constructed camera, the pitch after each call lies in `[-89, 89]`. -/
theorem camera_pitch_clamped {Mat4 : Type} (g : Glm Mat4) (pos front : Vec3) (view : Mat4)
    (calls : List MouseCall) :
    ∀ c ∈ Camera.mouseRun g (Camera.fresh pos front view) calls,
      -89 ≤ c.fPitch ∧ c.fPitch ≤ 89 :=
  mouseRun_pitch_bounds g calls _ (by simp [Camera.fresh])

/-- Witness for C4: after a first sample and a jump of 100300 pixels upwards the
pitch is exactly 89, inside the bounds. -/
theorem camera_pitch_clamped_witness :
    (((Camera.fresh ⟨0, 0, 3⟩ ⟨0, 0, -1⟩ ()).ProcessMouse stubGlm true 800 600 0 0).ProcessMouse
        stubGlm false 800 600 400 (-100000)).fPitch = 89 ∧
    -89 ≤ (((Camera.fresh ⟨0, 0, 3⟩ ⟨0, 0, -1⟩ ()).ProcessMouse stubGlm true 800 600 0 0).ProcessMouse
        stubGlm false 800 600 400 (-100000)).fPitch ∧
    (((Camera.fresh ⟨0, 0, 3⟩ ⟨0, 0, -1⟩ ()).ProcessMouse stubGlm true 800 600 0 0).ProcessMouse
        stubGlm false 800 600 400 (-100000)).fPitch ≤ 89 :=
  ⟨by simp [Camera.ProcessMouse, Camera.fresh]; norm_num,
   camera_pitch_clamped stubGlm ⟨0, 0, 3⟩ ⟨0, 0, -1⟩ () sampleMouseCalls _
     (List.mem_cons_of_mem _ (List.mem_cons_self _ _))⟩

/-- C5. First-sample suppression: a `ProcessMouse` call made while `bFirstMouse`
is set changes nothing but the reference point, which becomes the window centre,
and the view matrix, which is recomputed from the unchanged position and front
vector; in particular yaw, pitch, front and position keep their values for
every sample. -/
theorem processMouse_first_sample {Mat4 : Type} (g : Glm Mat4) (c : Camera Mat4)
    (w h : Int) (x y : ℚ) :
    c.ProcessMouse g true w h x y
      = { c with fLastX := (w : ℚ) / 2, fLastY := (h : ℚ) / 2,
                 matView := g.lookAt c.vCameraPos (c.vCameraPos.add c.vCameraFront) c.vCameraUp } ∧
    (c.ProcessMouse g true w h x y).fYaw = c.fYaw ∧
    (c.ProcessMouse g true w h x y).fPitch = c.fPitch ∧
    (c.ProcessMouse g true w h x y).vCameraFront = c.vCameraFront ∧
    (c.ProcessMouse g true w h x y).vCameraPos = c.vCameraPos :=
  ⟨rfl, rfl, rfl, rfl, rfl⟩

/-- C6 as stated fails: after a first call with sample (0, 0) in an 800 x 600
window, a second call with sample (10, 0) changes the yaw by -78, not by
0.2 * (10 - 0) = 2. -/
theorem processMouse_second_delta_counterexample :
    ¬ (((Camera.fresh ⟨0, 0, 3⟩ ⟨0, 0, -1⟩ ()).ProcessMouse stubGlm true 800 600 0 0).ProcessMouse
          stubGlm false 800 600 10 0).fYaw
        = ((Camera.fresh ⟨0, 0, 3⟩ ⟨0, 0, -1⟩ ()).ProcessMouse stubGlm true 800 600 0 0).fYaw
          + 2 / 10 * (10 - 0) := by
  simp [Camera.ProcessMouse, Camera.fresh]
  norm_num

/-! ## Theorems: render loop controller -/

theorem run_snoc (s : RunState) (schedule : List Action) (a : Action) :
    s.run (schedule ++ [a]) = (s.run schedule).step a := by
  simp [RunState.run, List.foldl_append]

theorem run_append (s : RunState) (s1 s2 : List Action) :
    s.run (s1 ++ s2) = (s.run s1).run s2 := by
  simp [RunState.run, List.foldl_append]

theorem run_ctl (s : RunState) (schedule : List Action) :
    (s.run schedule).ctl = s.ctl.run schedule := by
  induction schedule generalizing s with
  | nil => rfl
  | cons a rest ih =>
    simp only [RunState.run, Control.run, List.foldl_cons] at *
    rw [ih]
    rfl

theorem consistent_step (c : Control) (a : Action) (h : c.consistent) :
    (c.step a).1.consistent := by
  obtain ⟨mpc, rpc, flag, sc, o⟩ := c
  obtain ⟨th, ret, esc, cl, ev⟩ := a
  unfold Control.consistent at *
  cases th <;> cases mpc <;> cases rpc <;>
    simp_all [Control.step, Start.step, RendererThread.step, MainPc.beforeSpawn,
      MainPc.afterJoin] <;>
    split_ifs <;> simp_all

theorem consistent_run (schedule : List Action) :
    (RunState.init.run schedule).ctl.consistent := by
  induction schedule using List.reverseRecOn with
  | nil => simp [RunState.run, RunState.init, Control.init, Control.consistent,
      MainPc.beforeSpawn, MainPc.afterJoin]
  | append_singleton sched a ih =>
    rw [run_snoc]
    exact consistent_step _ a ih

/-- Invariant behind C7: nothing is traced before `Setup` returns, and once a
failed `Setup` is in the trace the flag is clear, the render thread is at the
loop test or beyond it, and no loop-body event has been traced. -/
theorem setup_failure_step (s : RunState) (a : Action)
    (hc : s.ctl.consistent)
    (h1 : s.ctl.renderPc.beforeLoop = true → s.trace = [])
    (h2 : Event.setup false ∈ s.trace → s.ctl.m_bIsRunning = false ∧
      s.ctl.renderPc.outsideBody = true ∧ ∀ e ∈ s.trace, e.inLoopBody = false) :
    ((s.step a).ctl.renderPc.beforeLoop = true → (s.step a).trace = []) ∧
    (Event.setup false ∈ (s.step a).trace → (s.step a).ctl.m_bIsRunning = false ∧
      (s.step a).ctl.renderPc.outsideBody = true ∧
      ∀ e ∈ (s.step a).trace, e.inLoopBody = false) := by
  obtain ⟨⟨mpc, rpc, flag, sc, o⟩, trace⟩ := s
  obtain ⟨th, ret, esc, cl, ev⟩ := a
  unfold Control.consistent at hc
  cases th
  · cases mpc <;>
      simp_all [RunState.step, Control.step, Start.step, MainPc.beforeSpawn, MainPc.afterJoin,
        RenderPc.beforeLoop, RenderPc.outsideBody] <;>
      (try split_ifs) <;>
      simp_all [RenderPc.beforeLoop, RenderPc.outsideBody, Event.inLoopBody, or_imp,
        forall_and]
  · cases rpc <;>
      simp_all [RunState.step, Control.step, RendererThread.step, RenderPc.beforeLoop,
        RenderPc.outsideBody] <;>
      (try split_ifs) <;>
      simp_all [RenderPc.beforeLoop, RenderPc.outsideBody, Event.inLoopBody, or_imp,
        forall_and]

theorem setup_failure_inv (schedule : List Action) :
    ((RunState.init.run schedule).ctl.renderPc.beforeLoop = true →
      (RunState.init.run schedule).trace = []) ∧
    (Event.setup false ∈ (RunState.init.run schedule).trace →
      (RunState.init.run schedule).ctl.m_bIsRunning = false ∧
      (RunState.init.run schedule).ctl.renderPc.outsideBody = true ∧
      ∀ e ∈ (RunState.init.run schedule).trace, e.inLoopBody = false) := by
  induction schedule using List.reverseRecOn with
  | nil => simp [RunState.run, RunState.init]
  | append_singleton sched a ih =>
    rw [run_snoc]
    exact setup_failure_step _ a (consistent_run sched) ih.1 ih.2

/-- C7. In every execution (every interleaving of the two threads and every
behaviour of the outside world), if `Setup` has returned false then the loop
body never runs: the trace holds no `Update` call, no input pass, no FPS
accounting and no buffer swap, the run flag is clear, and the render thread is
at the loop test or past the loop. -/
theorem setup_failure_skips_loop (schedule : List Action)
    (h : Event.setup false ∈ (RunState.init.run schedule).trace) :
    (∀ r, Event.update r ∉ (RunState.init.run schedule).trace) ∧
    Event.inputPass ∉ (RunState.init.run schedule).trace ∧
    Event.fpsAccount ∉ (RunState.init.run schedule).trace ∧
    Event.swapBuffers ∉ (RunState.init.run schedule).trace ∧
    (RunState.init.run schedule).ctl.m_bIsRunning = false ∧
    (RunState.init.run schedule).ctl.renderPc.outsideBody = true := by
  obtain ⟨hflag, hpc, hbody⟩ := (setup_failure_inv schedule).2 h
  refine ⟨fun r hr => ?_, fun hr => ?_, fun hr => ?_, fun hr => ?_, hflag, hpc⟩
  · simpa [Event.inLoopBody] using hbody _ hr
  · simpa [Event.inLoopBody] using hbody _ hr
  · simpa [Event.inLoopBody] using hbody _ hr
  · simpa [Event.inLoopBody] using hbody _ hr

/-- Witness for C7: a complete run in which `Setup` fails; its whole trace is the
failed `Setup` followed by the tear-down. -/
theorem setup_failure_skips_loop_witness :
    (RunState.init.run setupFailsSchedule).trace
      = [Event.setup false, Event.destroy, Event.destroyWindow, Event.terminate] ∧
    (∀ r, Event.update r ∉ (RunState.init.run setupFailsSchedule).trace) ∧
    Event.inputPass ∉ (RunState.init.run setupFailsSchedule).trace :=
  ⟨by decide,
   (setup_failure_skips_loop setupFailsSchedule (by decide)).1,
   (setup_failure_skips_loop setupFailsSchedule (by decide)).2.1⟩

/-- A step emits at most one event, and an `Update` event only from the program
point of the `Update` call. -/
theorem step_emits (c : Control) (a : Action) :
    (c.step a).2 = [] ∨
    ∃ e, (c.step a).2 = [e] ∧ (e.isUpdate = true → c.renderPc = RenderPc.update) ∧
      (e.isTeardown = true → c.mainPc.afterJoin = true ∧ a.thread = Thread.main) ∧
      (e.isTeardown = false → a.thread = Thread.render) := by
  obtain ⟨mpc, rpc, flag, sc, o⟩ := c
  obtain ⟨th, ret, esc, cl, ev⟩ := a
  cases th
  · cases mpc <;> simp [Control.step, Start.step, Event.isUpdate, Event.isTeardown,
      MainPc.afterJoin] <;> split_ifs <;> simp
  · cases rpc <;> simp [Control.step, RendererThread.step, Event.isUpdate, Event.isTeardown] <;>
      split_ifs <;> simp [Event.isUpdate, Event.isTeardown]

theorem update_failure_step (s : RunState) (a : Action)
    (hc : s.ctl.consistent)
    (h1 : s.ctl.renderPc.beforeLoop = true → s.trace = [])
    (h2 : Event.update false ∈ s.trace → s.ctl.m_bIsRunning = false ∧
      s.ctl.renderPc.pastUpdate = true) :
    (Event.update false ∈ (s.step a).trace → (s.step a).ctl.m_bIsRunning = false ∧
      (s.step a).ctl.renderPc.pastUpdate = true) := by
  obtain ⟨⟨mpc, rpc, flag, sc, o⟩, trace⟩ := s
  obtain ⟨th, ret, esc, cl, ev⟩ := a
  unfold Control.consistent at hc
  cases th
  · cases mpc <;>
      simp_all [RunState.step, Control.step, Start.step, MainPc.beforeSpawn, MainPc.afterJoin,
        RenderPc.beforeLoop, RenderPc.pastUpdate] <;>
      (try split_ifs) <;>
      simp_all [RenderPc.beforeLoop, RenderPc.pastUpdate]
  · cases rpc <;>
      simp_all [RunState.step, Control.step, RendererThread.step, RenderPc.beforeLoop,
        RenderPc.pastUpdate] <;>
      (try split_ifs) <;>
      simp_all [RenderPc.beforeLoop, RenderPc.pastUpdate]

theorem update_failure_inv (schedule : List Action) :
    (Event.update false ∈ (RunState.init.run schedule).trace →
      (RunState.init.run schedule).ctl.m_bIsRunning = false ∧
      (RunState.init.run schedule).ctl.renderPc.pastUpdate = true) ∧
    (∀ (i j : Nat) (r : Bool), i < j →
      (RunState.init.run schedule).trace[i]? = some (Event.update false) →
      (RunState.init.run schedule).trace[j]? ≠ some (Event.update r)) := by
  induction schedule using List.reverseRecOn with
  | nil => simp [RunState.run, RunState.init]
  | append_singleton sched a ih =>
    rw [run_snoc]
    refine ⟨update_failure_step _ a (consistent_run sched) (setup_failure_inv sched).1 ih.1, ?_⟩
    intro i j r hij hi hj
    have hemit := step_emits (RunState.init.run sched).ctl a
    simp only [RunState.step] at hi hj
    rcases hemit with h0 | ⟨e, he, hupd, -, -⟩
    · rw [h0, List.append_nil] at hi hj
      exact ih.2 i j r hij hi hj
    · rw [he] at hi hj
      by_cases hjl : j < (RunState.init.run sched).trace.length
      · rw [List.getElem?_append_left hjl] at hj
        rw [List.getElem?_append_left (by omega)] at hi
        exact ih.2 i j r hij hi hj
      · have hil : i < (RunState.init.run sched).trace.length := by
          by_contra hcon
          have hjlen : (RunState.init.run sched).trace.length + 1 ≤ j := by omega
          rw [List.getElem?_eq_none (by simp; omega)] at hj
          exact Option.noConfusion hj
        rw [List.getElem?_append_left hil] at hi
        have hmem : Event.update false ∈ (RunState.init.run sched).trace :=
          List.getElem?_mem hi
        have hpast := (ih.1 hmem).2
        by_cases hjeq : j = (RunState.init.run sched).trace.length
        · subst hjeq
          rw [List.getElem?_append_right (le_refl _)] at hj
          simp only [Nat.sub_self, List.getElem?_cons_zero, Option.some.injEq] at hj
          subst hj
          have := hupd rfl
          rw [this] at hpast
          simp [RenderPc.pastUpdate] at hpast
        · rw [List.getElem?_eq_none (by simp; omega)] at hj
          exact Option.noConfusion hj

/-- C8. In every execution, once an `Update` call has returned false the run flag
is clear, the render thread is past that call, and no later position of the
trace holds an `Update` call, whatever number of successful frames came
before. -/
theorem update_failure_stops_loop (schedule : List Action) (i : Nat)
    (h : (RunState.init.run schedule).trace[i]? = some (Event.update false)) :
    (∀ (j : Nat) (r : Bool), i < j →
      (RunState.init.run schedule).trace[j]? ≠ some (Event.update r)) ∧
    (RunState.init.run schedule).ctl.m_bIsRunning = false ∧
    (RunState.init.run schedule).ctl.renderPc.pastUpdate = true :=
  ⟨fun j r hij => (update_failure_inv schedule).2 i j r hij h,
   (update_failure_inv schedule).1 (List.getElem?_mem h)⟩

/-- Witness for C8: two successful frames, then `Update` fails in the third; the
failed call is the last `Update` of the trace. -/
theorem update_failure_stops_loop_witness :
    (RunState.init.run updateFailsSchedule).trace
      = [Event.setup true,
         Event.inputPass, Event.update true, Event.fpsAccount, Event.swapBuffers,
         Event.inputPass, Event.update true, Event.fpsAccount, Event.swapBuffers,
         Event.inputPass, Event.update false, Event.fpsAccount, Event.swapBuffers,
         Event.destroy, Event.destroyWindow, Event.terminate] ∧
    (∀ (j : Nat) (r : Bool), 10 < j →
      (RunState.init.run updateFailsSchedule).trace[j]? ≠ some (Event.update r)) :=
  ⟨by decide, (update_failure_stops_loop updateFailsSchedule 10 (by decide)).1⟩

theorem teardown_step (s : RunState) (a : Action)
    (hc : s.ctl.consistent)
    (h : ∃ pre, s.trace = pre ++ s.ctl.mainPc.teardownDone ∧ ∀ e ∈ pre, e.isTeardown = false) :
    ∃ pre, (s.step a).trace = pre ++ (s.step a).ctl.mainPc.teardownDone ∧
      ∀ e ∈ pre, e.isTeardown = false := by
  obtain ⟨⟨mpc, rpc, flag, sc, o⟩, trace⟩ := s
  obtain ⟨th, ret, esc, cl, ev⟩ := a
  obtain ⟨pre, hpre, hfree⟩ := h
  unfold Control.consistent at hc
  simp only at hpre
  subst hpre
  cases th
  · cases mpc <;>
      simp only [RunState.step, Control.step, Start.step, MainPc.teardownDone, List.append_nil] <;>
      (try split_ifs) <;>
      first
      | exact ⟨pre, by simp [MainPc.teardownDone], hfree⟩
  · refine ⟨pre ++ (RendererThread.step ⟨mpc, rpc, flag, sc, o⟩ ⟨Thread.render, ret, esc, cl, ev⟩).2,
      ?_, ?_⟩
    · cases rpc <;> cases mpc <;>
        simp_all [RunState.step, Control.step, RendererThread.step, MainPc.teardownDone,
          MainPc.afterJoin, MainPc.beforeSpawn] <;>
        split_ifs <;> simp
    · intro e he
      rcases List.mem_append.mp he with h1 | h1
      · exact hfree e h1
      · cases rpc <;> simp [RendererThread.step] at h1 <;>
          (try split_ifs at h1) <;> simp_all [Event.isTeardown]

theorem teardown_inv (schedule : List Action) :
    ∃ pre, (RunState.init.run schedule).trace
        = pre ++ (RunState.init.run schedule).ctl.mainPc.teardownDone ∧
      ∀ e ∈ pre, e.isTeardown = false := by
  induction schedule using List.reverseRecOn with
  | nil => exact ⟨[], rfl, by simp⟩
  | append_singleton sched a ih =>
    rw [run_snoc]
    exact teardown_step _ a (consistent_run sched) ih

/-- From every consistent control state the schedule `stopSchedule` brings
`Start` to its end. -/
theorem stopSchedule_completes (mpc : MainPc) (rpc : RenderPc) (flag sc : Bool)
    (o : Option Thread) :
    Control.consistent ⟨mpc, rpc, flag, sc, o⟩ →
      (Control.run ⟨mpc, rpc, flag, sc, o⟩ stopSchedule).mainPc = MainPc.done := by
  revert mpc rpc flag sc o
  decide

/-- C9. In every execution of `Start`: the main thread is past `join` only when
the render thread has ended; the trace is a part free of tear-down calls (it
holds every `Setup` and `Update`) followed by the tear-down calls made so far,
which are `Destroy`, `glfwDestroyWindow`, `glfwTerminate` in this order; when
`Start` has returned, `Destroy` occurs exactly once; and every execution can be
continued until `Start` returns. -/
theorem destroy_exactly_once (schedule : List Action) :
    ((RunState.init.run schedule).ctl.mainPc.afterJoin = true →
      (RunState.init.run schedule).ctl.renderPc = RenderPc.done) ∧
    (∃ pre, (RunState.init.run schedule).trace
        = pre ++ (RunState.init.run schedule).ctl.mainPc.teardownDone ∧
      ∀ e ∈ pre, e.isTeardown = false) ∧
    ((RunState.init.run schedule).ctl.mainPc = MainPc.done →
      (∃ pre, (RunState.init.run schedule).trace
          = pre ++ [Event.destroy, Event.destroyWindow, Event.terminate] ∧
        ∀ e ∈ pre, e.isTeardown = false) ∧
      (RunState.init.run schedule).trace.count Event.destroy = 1) ∧
    ((RunState.init.run schedule).run stopSchedule).ctl.mainPc = MainPc.done := by
  have hc := consistent_run schedule
  obtain ⟨pre, hpre, hfree⟩ := teardown_inv schedule
  refine ⟨hc.2.1, ⟨pre, hpre, hfree⟩, ?_, ?_⟩
  · intro hdone
    rw [hdone] at hpre
    refine ⟨⟨pre, hpre, hfree⟩, ?_⟩
    rw [hpre]
    have h0 : pre.count Event.destroy = 0 := by
      rw [List.count_eq_zero]
      intro hmem
      simpa [Event.isTeardown] using hfree _ hmem
    simp [MainPc.teardownDone, List.count_append, h0, List.count_cons]
  · rw [run_ctl]
    exact stopSchedule_completes _ _ _ _ _ hc

/-- Witness for C9: complete runs ended by a failed `Setup`, a failed `Update`, a
window close and the quit key; each ends with the three tear-down calls and
holds exactly one `Destroy`. -/
theorem destroy_exactly_once_witness :
    (RunState.init.run setupFailsSchedule).trace.count Event.destroy = 1 ∧
    (RunState.init.run updateFailsSchedule).trace.count Event.destroy = 1 ∧
    (RunState.init.run windowClosedSchedule).trace.count Event.destroy = 1 ∧
    (RunState.init.run escapeSchedule).trace.count Event.destroy = 1 ∧
    (RunState.init.run windowClosedSchedule).trace
      = [Event.setup true, Event.inputPass, Event.update true, Event.fpsAccount,
         Event.swapBuffers, Event.inputPass, Event.update true, Event.fpsAccount,
         Event.swapBuffers, Event.destroy, Event.destroyWindow, Event.terminate] :=
  ⟨((destroy_exactly_once setupFailsSchedule).2.2.1 (by decide)).2,
   ((destroy_exactly_once updateFailsSchedule).2.2.1 (by decide)).2,
   ((destroy_exactly_once windowClosedSchedule).2.2.1 (by decide)).2,
   ((destroy_exactly_once escapeSchedule).2.2.1 (by decide)).2,
   by decide⟩

/-! ## Theorems: resource lifecycle of the "Tokyo Towers" demo -/

/-- C10 (the code departs from the claim). Whenever `Setup` succeeds on a new
`Window` in a new context, four vertex arrays (1: axes, 2: cube, 3: model,
4: lamp) and four buffers (1: axes, 2: the cube buffer of `LoadModel`, 3: model,
4: the second cube buffer) have been generated, and `Destroy` deletes arrays
1, 4, 2 and buffers 1, 4 once each: the model's array and buffer and the first
cube buffer are never freed. -/
theorem tokyo_destroy_misses_handles (sc : Scanner) (lineBytes cubeBytes : Nat)
    (cubeObj towersObj : Option (List String))
    (h : (TokyoWindow.Setup sc lineBytes cubeBytes cubeObj towersObj {} {}).map (fun r => r.1)
      = some true) :
    generatedVertexArrays (tokyoLifecycle sc lineBytes cubeBytes cubeObj towersObj)
      = [1, 2, 3, 4] ∧
    generatedBuffers (tokyoLifecycle sc lineBytes cubeBytes cubeObj towersObj) = [1, 2, 3, 4] ∧
    ((tokyoLifecycle sc lineBytes cubeBytes cubeObj towersObj).filter fun c =>
        c matches GLCall.glDeleteVertexArrays _ || c matches GLCall.glDeleteBuffers _)
      = [GLCall.glDeleteVertexArrays 1, GLCall.glDeleteBuffers 1, GLCall.glDeleteVertexArrays 4,
         GLCall.glDeleteVertexArrays 2, GLCall.glDeleteBuffers 4] ∧
    (tokyoLifecycle sc lineBytes cubeBytes cubeObj towersObj).count
      (GLCall.glDeleteVertexArrays 3) = 0 ∧
    (tokyoLifecycle sc lineBytes cubeBytes cubeObj towersObj).count
      (GLCall.glDeleteBuffers 2) = 0 ∧
    (tokyoLifecycle sc lineBytes cubeBytes cubeObj towersObj).count
      (GLCall.glDeleteBuffers 3) = 0 := by
  cases cubeObj with
  | none => simp [TokyoWindow.Setup, LoadModel] at h
  | some cubeLines =>
    cases h1 : readLines sc cubeLines with
    | none => simp [TokyoWindow.Setup, LoadModel, h1] at h
    | some st1 =>
      cases towersObj with
      | none => simp [TokyoWindow.Setup, LoadModel, h1] at h
      | some towersLines =>
        cases h2 : readLines sc towersLines with
        | none => simp [TokyoWindow.Setup, LoadModel, h1, h2] at h
        | some st2 =>
          simp only [tokyoLifecycle, TokyoWindow.Setup, LoadModel, h1, h2, Bool.not_true,
            Bool.false_eq_true, if_false]
          simp only [TokyoWindow.Destroy, VertexArray.free, VertexBuffer.free,
            VertexArray.generate, VertexBuffer.generate, VertexBuffer.setBuffer, GLContext.issue,
            BufferLayout.setBufferLayout, BufferLayout.fresh, List.append_assoc,
            List.nil_append, List.cons_append]
          exact ⟨rfl, rfl, rfl, rfl, rfl, rfl⟩

/-- Witness for C10: the two sample model files. -/
theorem tokyo_destroy_misses_handles_witness :
    generatedBuffers (tokyoLifecycle sampleScanner 72 432 (some sampleObj) (some sampleObj))
      = [1, 2, 3, 4] ∧
    (tokyoLifecycle sampleScanner 72 432 (some sampleObj) (some sampleObj)).count
      (GLCall.glDeleteBuffers 2) = 0 ∧
    (tokyoLifecycle sampleScanner 72 432 (some sampleObj) (some sampleObj)).count
      (GLCall.glDeleteBuffers 3) = 0 ∧
    (tokyoLifecycle sampleScanner 72 432 (some sampleObj) (some sampleObj)).count
      (GLCall.glDeleteVertexArrays 3) = 0 :=
  ⟨(tokyo_destroy_misses_handles sampleScanner 72 432 (some sampleObj) (some sampleObj)
      (by decide)).2.1,
   (tokyo_destroy_misses_handles sampleScanner 72 432 (some sampleObj) (some sampleObj)
      (by decide)).2.2.2.2.1,
   (tokyo_destroy_misses_handles sampleScanner 72 432 (some sampleObj) (some sampleObj)
      (by decide)).2.2.2.2.2,
   (tokyo_destroy_misses_handles sampleScanner 72 432 (some sampleObj) (some sampleObj)
      (by decide)).2.2.2.1⟩

/-! ## Theorems: shader program -/

theorem lastMarkerStage_snoc (pre : List String) (l : String) :
    lastMarkerStage (pre ++ [l])
      = if isStageMarker l = true then some (markerStage l) else lastMarkerStage pre := by
  unfold lastMarkerStage
  by_cases h : isStageMarker l = true
  · simp [List.filter_append, List.filter_cons, h]
  · simp [List.filter_append, List.filter_cons, h]

theorem stageLines_snoc (stage : Int) (pre : List String) (l : String) :
    stageLines stage (pre ++ [l])
      = stageLines stage pre ++
        (if (!isStageMarker l && lastMarkerStage pre == some stage) = true then [l] else []) := by
  unfold stageLines
  have hlen : (pre ++ [l]).length = pre.length + 1 := by simp
  rw [hlen, List.range_succ, List.filter_append, List.map_append]
  have hget : ∀ k, k < pre.length → (pre ++ [l]).getD k "" = pre.getD k "" := by
    intro k hk
    simp [List.getD, List.getElem?_append_left hk]
  have htake : ∀ k, k < pre.length → (pre ++ [l]).take k = pre.take k := by
    intro k hk
    rw [List.take_append_of_le_length (by omega)]
  have hlast : (pre ++ [l]).getD pre.length "" = l := by simp [List.getD]
  have htl : (pre ++ [l]).take pre.length = pre := by simp
  congr 1
  · have hf : (List.range pre.length).filter (fun k =>
          !isStageMarker ((pre ++ [l]).getD k "") &&
            lastMarkerStage ((pre ++ [l]).take k) == some stage)
        = (List.range pre.length).filter (fun k =>
          !isStageMarker (pre.getD k "") && lastMarkerStage (pre.take k) == some stage) := by
      apply List.filter_congr
      intro k hk
      rw [hget k (List.mem_range.mp hk), htake k (List.mem_range.mp hk)]
    rw [hf]
    apply List.map_congr_left
    intro k hk
    exact hget k (List.mem_range.mp (List.mem_filter.mp hk).1)
  · by_cases hc : (!isStageMarker l && lastMarkerStage pre == some stage) = true
    · simp [List.filter_cons, hlast, htl, hc]
    · simp [List.filter_cons, hlast, htl, hc]

theorem lastMarkerStage_of_first (m : String) (rest : List String)
    (hm : isStageMarker m = true) :
    ∃ t, lastMarkerStage (m :: rest) = some t ∧ (t = 0 ∨ t = 1) := by
  unfold lastMarkerStage
  cases h : ((m :: rest).filter isStageMarker).getLast? with
  | none =>
    rw [List.getLast?_eq_none_iff] at h
    simp [List.filter_cons, hm] at h
  | some x =>
    refine ⟨markerStage x, rfl, ?_⟩
    unfold markerStage
    split_ifs <;> simp

/-- Invariant of the read loop on a file that starts with a marker and whose
other lines do not mention "SHADER": the stage variable names the last marker
and each stream holds the lines of its stage. -/
theorem shader_parse_inv (lines : List String)
    (hfirst : ∀ m rest, lines = m :: rest → isStageMarker m = true)
    (hclean : ∀ l ∈ lines, containsSubstr l "SHADER" = true → isStageMarker l = true) :
    ∃ p, Shader.parse lines = some p ∧
      p.type = (lastMarkerStage lines).getD (-1) ∧
      p.ss0 = (stageLines 0 lines).map (fun l => l ++ "\n") ∧
      p.ss1 = (stageLines 1 lines).map (fun l => l ++ "\n") := by
  induction lines using List.reverseRecOn with
  | nil => exact ⟨{}, rfl, rfl, rfl, rfl⟩
  | append_singleton pre l ih =>
    obtain ⟨p, hp, htype, h0, h1⟩ := ih
      (fun m rest hmr => hfirst m (rest ++ [l]) (by simp [hmr]))
      (fun x hx => hclean x (by simp [hx]))
    have hparse : Shader.parse (pre ++ [l]) = shaderLineBody (some p) l := by
      unfold Shader.parse at *
      rw [List.foldl_append, hp]
      rfl
    rw [hparse, lastMarkerStage_snoc, stageLines_snoc, stageLines_snoc]
    by_cases hs : containsSubstr l "SHADER" = true
    · have hm : isStageMarker l = true := hclean l (by simp) hs
      have hvf : containsSubstr l "VERTEX" = true ∨ containsSubstr l "FRAGMENT" = true := by
        simpa [isStageMarker, hs] using hm
      by_cases hv : containsSubstr l "VERTEX" = true
      · refine ⟨{ p with type := 0 }, by simp [shaderLineBody, hs, hv], ?_, ?_, ?_⟩
        · simp [hm, markerStage, hv]
        · simp [hm, h0]
        · simp [hm, h1]
      · have hf : containsSubstr l "FRAGMENT" = true := by
          rcases hvf with h | h
          · exact absurd h hv
          · exact h
        refine ⟨{ p with type := 1 }, by simp [shaderLineBody, hs, hv, hf], ?_, ?_, ?_⟩
        · simp [hm, markerStage, hv]
        · simp [hm, h0]
        · simp [hm, h1]
    · have hm : isStageMarker l = false := by simp [isStageMarker, hs]
      have hne : pre ≠ [] := by
        intro he
        subst he
        have := hfirst l [] rfl
        rw [hm] at this
        exact Bool.noConfusion this
      obtain ⟨m, rest, hpre⟩ := List.exists_cons_of_ne_nil hne
      have hmm : isStageMarker m = true := hfirst m (rest ++ [l]) (by simp [hpre])
      obtain ⟨t, ht, ht01⟩ := lastMarkerStage_of_first m rest hmm
      rw [← hpre] at ht
      rw [ht] at htype
      simp only [Option.getD_some] at htype
      rcases ht01 with h | h
      · subst h
        refine ⟨{ p with ss0 := p.ss0 ++ [l ++ "\n"] }, ?_, ?_, ?_, ?_⟩
        · simp [shaderLineBody, hs, ShaderParse.write, htype]
        · simp [hm, ht, htype]
        · simp [hm, ht, h0]
        · simp [hm, ht, h1]
      · subst h
        refine ⟨{ p with ss1 := p.ss1 ++ [l ++ "\n"] }, ?_, ?_, ?_, ?_⟩
        · simp [shaderLineBody, hs, ShaderParse.write, htype]
        · simp [hm, ht, htype]
        · simp [hm, ht, h0]
        · simp [hm, ht, h1]

/-- C11. Stage assembly: for every shader text whose first line is a stage marker
and whose lines mention "SHADER" only when they are markers, the vertex source
is the vertex header followed by, in file order, every non-marker line whose
nearest preceding marker is a vertex marker, each followed by a newline, and the
fragment source likewise with the fragment header; marker lines occur in
neither. -/
theorem shader_assembles_stages (first : String) (rest : List String)
    (hfirst : isStageMarker first = true)
    (hclean : ∀ l ∈ first :: rest, containsSubstr l "SHADER" = true → isStageMarker l = true) :
    Shader.assemble (first :: rest)
      = some (expectedSource vertexHeader 0 (first :: rest),
              expectedSource fragmentHeader 1 (first :: rest)) := by
  obtain ⟨p, hp, -, h0, h1⟩ := shader_parse_inv (first :: rest)
    (fun m r hmr => by
      have : first = m := (List.cons.inj hmr).1
      rw [← this]; exact hfirst)
    hclean
  simp only [Shader.assemble, hp, expectedSource, h0, h1]

/-- Witness for C11: the sample file with a vertex and a fragment section. -/
theorem shader_assembles_stages_witness :
    Shader.assemble sampleShader
      = some ("#version 330 core\n #define SHADER_VERTEX\n #ifdef SHADER_VERTEX\n" ++
                "layout (location = 0) in vec3 aPos;\nvoid main() ;\n",
              "#version 330 core\n #define SHADER_FRAGMENT\n #ifdef SHADER_FRAGMENT\n" ++
                "out vec4 FragColor;\n\nvoid main() ;\n") := by
  have h := shader_assembles_stages "// SHADER VERTEX"
    ["layout (location = 0) in vec3 aPos;", "void main() ;",
     "// SHADER FRAGMENT", "out vec4 FragColor;", "", "void main() ;"] (by decide) (by decide)
  rw [show sampleShader = "// SHADER VERTEX" ::
    ["layout (location = 0) in vec3 aPos;", "void main() ;",
     "// SHADER FRAGMENT", "out vec4 FragColor;", "", "void main() ;"] from rfl, h]
  decide

theorem shaderLineBody_foldl_none (lines : List String) :
    lines.foldl shaderLineBody none = none := by
  induction lines with
  | nil => rfl
  | cons l rest ih => simpa [List.foldl_cons, shaderLineBody] using ih

theorem shader_parse_before_marker (pre : List String)
    (hpre : ∀ x ∈ pre, isStageMarker x = false) :
    Shader.parse pre = some {} ∨ Shader.parse pre = none := by
  induction pre using List.reverseRecOn with
  | nil => exact Or.inl rfl
  | append_singleton pre l ih =>
    have hl : isStageMarker l = false := hpre l (by simp)
    have hstep : Shader.parse (pre ++ [l]) = shaderLineBody (Shader.parse pre) l := by
      unfold Shader.parse
      rw [List.foldl_append]
      rfl
    rw [hstep]
    rcases ih (fun x hx => hpre x (by simp [hx])) with h | h
    · rw [h]
      by_cases hs : containsSubstr l "SHADER" = true
      · have hv : containsSubstr l "VERTEX" = false ∧ containsSubstr l "FRAGMENT" = false := by
          simpa [isStageMarker, hs] using hl
        left
        simp [shaderLineBody, hs, hv.1, hv.2]
      · right
        simp [shaderLineBody, hs, ShaderParse.write]
    · right
      rw [h]
      rfl

/-- C17 (the code departs from the claim). A line that precedes the first stage
marker and does not contain "SHADER" is not discarded: the loop executes
`ss[(int)type] << line` with `type == NONE`, that is with index -1, outside the
two-element array, so the load has no defined result. -/
theorem shader_line_before_marker_out_of_bounds (drv : ShaderDriver) (shaderPath : String)
    (pre : List String) (l : String) (rest : List String)
    (hpre : ∀ x ∈ pre, isStageMarker x = false)
    (hl : containsSubstr l "SHADER" = false) :
    (({} : ShaderParse).type = -1 ∧ ({} : ShaderParse).write (-1) l = none) ∧
    Shader.assemble (pre ++ l :: rest) = none ∧
    Shader.load drv shaderPath (pre ++ l :: rest) = none := by
  have hparse : Shader.parse (pre ++ l :: rest) = none := by
    have hsplit : Shader.parse (pre ++ l :: rest)
        = rest.foldl shaderLineBody (shaderLineBody (Shader.parse pre) l) := by
      unfold Shader.parse
      rw [List.foldl_append, List.foldl_cons]
    rw [hsplit]
    have hbody : shaderLineBody (Shader.parse pre) l = none := by
      rcases shader_parse_before_marker pre hpre with h | h
      · rw [h]
        simp [shaderLineBody, hl, ShaderParse.write]
      · rw [h]
        rfl
    rw [hbody]
    exact shaderLineBody_foldl_none rest
  refine ⟨⟨rfl, rfl⟩, ?_, ?_⟩
  · simp [Shader.assemble, hparse]
  · simp [Shader.load, Shader.assemble, hparse]

/-- Witness for C17: a shader file whose first line is a comment. -/
theorem shader_line_before_marker_out_of_bounds_witness :
    Shader.assemble commentFirstShader = none ∧
    Shader.load okDriver "shaders/Line.glsl" commentFirstShader = none :=
  (shader_line_before_marker_out_of_bounds okDriver "shaders/Line.glsl" []
    "// basic colour shader"
    ["// SHADER VERTEX", "void main() ;", "// SHADER FRAGMENT", "void main() ;"]
    (by decide) (by decide)).2

/-- C12 (the code departs from the claim). When a stage fails to compile or the
program fails to link, `Shader::load` does not return: it prints the error line
and the log line and ends the process, but with exit status 0. -/
theorem shader_failure_exits_zero (drv : ShaderDriver) (shaderPath : String)
    (lines : List String) (v f : String)
    (hasm : Shader.assemble lines = some (v, f))
    (hfail : drv.compileStatus ShaderStage.GL_VERTEX_SHADER v = false ∨
      drv.compileStatus ShaderStage.GL_FRAGMENT_SHADER f = false ∨
      drv.linkStatus v f = false) :
    ∃ message, Shader.load drv shaderPath lines
        = some { printed := [message, "Log: " ++ drv.infoLog], outcome := Outcome.exited 0 } := by
  by_cases hv : drv.compileStatus ShaderStage.GL_VERTEX_SHADER v = true
  · by_cases hfr : drv.compileStatus ShaderStage.GL_FRAGMENT_SHADER f = true
    · have hl : drv.linkStatus v f = false := by
        rcases hfail with h | h | h
        · rw [hv] at h; exact Bool.noConfusion h
        · rw [hfr] at h; exact Bool.noConfusion h
        · exact h
      exact ⟨"[OpenGL Error] Linking error in '" ++ shaderPath ++ "'",
        by simp [Shader.load, hasm, Shader.CompileShader, hv, hfr, hl]⟩
    · exact ⟨"[OpenGL Error] Failed to compile fragment shader in '" ++ shaderPath ++ "'",
        by simp [Shader.load, hasm, Shader.CompileShader, hv, hfr]⟩
  · exact ⟨"[OpenGL Error] Failed to compile vertex shader in '" ++ shaderPath ++ "'",
      by simp [Shader.load, hasm, Shader.CompileShader, hv]⟩

/-- Witness for C12: the sample file with a driver that rejects the vertex stage,
one that rejects the fragment stage and one that fails to link. -/
theorem shader_failure_exits_zero_witness :
    Shader.load vertexFailDriver "shaders/Cube.shader" sampleShader
      = some { printed := ["[OpenGL Error] Failed to compile vertex shader in 'shaders/Cube.shader'",
                           "Log: 0(1) : error C0000: syntax error"],
               outcome := Outcome.exited 0 } ∧
    (∃ message, Shader.load fragmentFailDriver "shaders/Cube.shader" sampleShader
        = some { printed := [message, "Log: 0(1) : error C0000: syntax error"],
                 outcome := Outcome.exited 0 }) ∧
    (∃ message, Shader.load linkFailDriver "shaders/Cube.shader" sampleShader
        = some { printed := [message, "Log: link error"], outcome := Outcome.exited 0 }) :=
  ⟨by decide,
   shader_failure_exits_zero fragmentFailDriver "shaders/Cube.shader" sampleShader
     (expectedSource vertexHeader 0 sampleShader) (expectedSource fragmentHeader 1 sampleShader)
     (by decide) (Or.inr (Or.inl (by decide))),
   shader_failure_exits_zero linkFailDriver "shaders/Cube.shader" sampleShader
     (expectedSource vertexHeader 0 sampleShader) (expectedSource fragmentHeader 1 sampleShader)
     (by decide) (Or.inr (Or.inr (by decide)))⟩

/-! ## Theorems: the pitch clamp -/

theorem clamp_eq_max_min (v : ℚ) :
    (if v > 89 then 89 else if v < -89 then -89 else v) = max (-89) (min 89 v) := by
  split_ifs with h1 h2
  · rw [min_eq_left (le_of_lt h1), max_eq_right (by norm_num)]
  · rw [min_eq_right (by linarith), max_eq_left (le_of_lt h2)]
  · rw [min_eq_right (by linarith), max_eq_right (by linarith)]

/-! ## Theorems: failure signal and line dispatch of the OBJ loader -/

/-- C15 as stated fails: the file `danglingFaceObj` can be opened, yet `LoadModel`
does not return true on it: its face reads the empty position table out of
bounds, so the call has no defined result. -/
theorem loadModel_opened_file_counterexample :
    ¬ ∃ res, LoadModel sampleScanner (some danglingFaceObj) {} {} {} 0 = some res ∧
      res.ret = true := by
  decide

/-- C15, amended. `LoadModel` (and `Model::load`, which forwards to it) returns
false exactly when the file cannot be opened, and then it makes no GL call,
uploads nothing and leaves the vertex array, the buffer and the vertex count as
they were; whenever it returns for a file that was opened it returns true; and
it does return, with true, for every opened file whose face indices stay inside
the tables read so far. -/
theorem loadModel_failure_signal (sc : Scanner) (gl : GLContext) (vao : VertexArray)
    (vbo : VertexBuffer) (vertexCount : Int) (m : Model) :
    LoadModel sc none gl vao vbo vertexCount
      = some { ret := false, gl := gl, vao := vao, vbo := vbo, vertexCount := vertexCount,
               uploaded := [] } ∧
    Model.load sc none m gl = some (false, m, gl) ∧
    (∀ file res, LoadModel sc file gl vao vbo vertexCount = some res →
      (res.ret = false ↔ file = none)) ∧
    (∀ file b m1 gl1, Model.load sc file m gl = some (b, m1, gl1) → (b = false ↔ file = none)) ∧
    (∀ lines, FacesInRange sc lines →
      (∃ res, LoadModel sc (some lines) gl vao vbo vertexCount = some res ∧ res.ret = true) ∧
      (∃ m1 gl1, Model.load sc (some lines) m gl = some (true, m1, gl1))) := by
  have hret : ∀ (g0 : GLContext) (a : VertexArray) (b : VertexBuffer) (n : Int) file res,
      LoadModel sc file g0 a b n = some res → (res.ret = false ↔ file = none) := by
    intro g0 a b n file res hres
    cases file with
    | none =>
      simp only [LoadModel, Option.some.injEq] at hres
      subst hres
      simp
    | some lines =>
      cases hread : readLines sc lines with
      | none => simp [LoadModel, hread] at hres
      | some st =>
        simp only [LoadModel, hread, Option.some.injEq] at hres
        subst hres
        simp
  refine ⟨rfl, rfl, hret gl vao vbo vertexCount, ?_, ?_⟩
  · intro file b m1 gl1 hload
    unfold Model.load at hload
    cases hres : LoadModel sc file gl m.vao m.vbo m.nr_indices with
    | none => simp [hres] at hload
    | some r =>
      simp only [hres, Option.some.injEq, Prod.mk.injEq] at hload
      rw [← hload.1]
      exact hret gl m.vao m.vbo m.nr_indices file r hres
  · intro lines hwf
    obtain ⟨s, hs, -⟩ := readLines_inv sc lines hwf
    constructor
    · obtain ⟨res, hres, htrue, -⟩ := loadModel_of_read sc lines gl vao vbo vertexCount s hs
      exact ⟨res, hres, htrue⟩
    · obtain ⟨res, hres, htrue, -⟩ :=
        loadModel_of_read sc lines gl m.vao m.vbo m.nr_indices s hs
      refine ⟨{ vao := res.vao, vbo := res.vbo, nr_indices := res.vertexCount }, res.gl, ?_⟩
      simp [Model.load, hres, htrue]

/-- Witness for C15: the sample file loads with true; a file that cannot be
opened gives false and an untouched context. -/
theorem loadModel_failure_signal_witness :
    (∃ res, LoadModel sampleScanner (some sampleObj) {} {} {} 0 = some res ∧ res.ret = true) ∧
    (∀ res, LoadModel sampleScanner none {} {} {} 7 = some res →
      res.ret = false ∧ res.gl.calls = [] ∧ res.vertexCount = 7) := by
  have h := loadModel_failure_signal sampleScanner {} {} {} 7 {}
  have h0 := loadModel_failure_signal sampleScanner {} {} {} 0 {}
  refine ⟨(h0.2.2.2.2 sampleObj (by decide)).1, ?_⟩
  intro res hres
  rw [h.1] at hres
  simp only [Option.some.injEq] at hres
  subst hres
  exact ⟨rfl, rfl, rfl⟩

theorem startsWith_vt_v (l : String) (h : startsWith l "vt" = true ∨ startsWith l "vp" = true) :
    startsWith l "vn" = false ∧ startsWith l "v" = true := by
  unfold startsWith at *
  have hvt : "vt".data = ['v', 't'] := rfl
  have hvp : "vp".data = ['v', 'p'] := rfl
  have hvn : "vn".data = ['v', 'n'] := rfl
  have hv : "v".data = ['v'] := rfl
  rw [hvt, hvp] at h
  rw [hvn, hv]
  cases hd : l.data with
  | nil => simp [hd, List.isPrefixOf] at h
  | cons c cs =>
    rw [hd] at h
    cases cs with
    | nil => simp [List.isPrefixOf] at h
    | cons d ds =>
      simp only [List.isPrefixOf, Bool.and_true, Bool.and_eq_true, beq_iff_eq] at h
      rcases h with ⟨h1, h2⟩ | ⟨h1, h2⟩
      · subst h1; subst h2
        simp [List.isPrefixOf]
      · subst h1; subst h2
        simp [List.isPrefixOf]

theorem lineBody_foldl_congr (sc : Scanner) (post : List String) (a b : Option ParseState)
    (h : a = b) : post.foldl (lineBody sc) a = post.foldl (lineBody sc) b := by
  rw [h]

/-- C16 (the code departs from the claim). A line that starts neither with `v`
nor with `f` is ignored: the tables and the vertex list are as if it were
absent.  But a line that starts with `vt` or `vp` is not ignored: it passes the
test `line.starts_with('v')` and is appended to the position table like a `v`
record. -/
theorem loadModel_texcoord_line_not_ignored (sc : Scanner) (pre : List String) (l : String)
    (post : List String) :
    (startsWith l "v" = false → startsWith l "f" = false →
      readLines sc (pre ++ l :: post) = readLines sc (pre ++ post)) ∧
    ((startsWith l "vt" = true ∨ startsWith l "vp" = true) →
      ∀ s : ParseState, lineBody sc (some s) l
        = some { s with temp_positions := s.temp_positions ++ [sc.floats l] }) := by
  constructor
  · intro hv hf
    have hvn : startsWith l "vn" = false := by
      cases hvn : startsWith l "vn" with
      | false => rfl
      | true =>
        have := startsWith_vn_v l hvn
        rw [hv] at this
        exact Bool.noConfusion this
    unfold readLines
    rw [List.foldl_append, List.foldl_append, List.foldl_cons]
    apply lineBody_foldl_congr
    cases hst : pre.foldl (lineBody sc) (some {}) with
    | none => rfl
    | some s => simp [lineBody, hvn, hv, hf]
  · intro h s
    obtain ⟨hvn, hv⟩ := startsWith_vt_v l h
    simp [lineBody, hvn, hv]

/-- Witness for C16: with the line `vt 0 0` after the first position the table
holds four positions instead of three and the face resolves its second index
to the record read from the `vt` line. -/
theorem loadModel_texcoord_line_not_ignored_witness :
    lineBody sampleScanner (some { temp_positions := [⟨0, 0, 0⟩] }) "vt 0 0"
      = some { temp_positions := [⟨0, 0, 0⟩, ⟨0, 0, 1⟩] } ∧
    (readLines sampleScanner texcoordObj).map (fun s => s.temp_positions.length) = some 4 ∧
    (readLines sampleScanner plainObj).map (fun s => s.temp_positions.length) = some 3 ∧
    (readLines sampleScanner texcoordObj).map (fun s => s.vertices)
      ≠ (readLines sampleScanner plainObj).map (fun s => s.vertices) := by
  have h := (loadModel_texcoord_line_not_ignored sampleScanner ["v 0 0 0"] "vt 0 0"
    ["v 1 0 0", "v 0 1 0", "vn 0 0 1", "f 1//1 2//1 3//1"]).2 (Or.inl (by decide))
    { temp_positions := [⟨0, 0, 0⟩] }
  refine ⟨?_, by decide, by decide, by decide⟩
  rw [h]
  decide

/-! ## Theorems: texture loading -/

/-- C18 as stated fails: an image that decodes with two channels (grey with
alpha) makes `loadTexture` end the process with status -1. -/
theorem loadTexture_exit_counterexample :
    (Texture2D.loadTexture 1 "resources/textures/smoke.png" (some ⟨64, 64, 2⟩)).outcome
      = Outcome.exited (-1) := by
  decide

/-- C18, amended. `loadTexture` ends the process, with status -1 and before any
upload, exactly when the image decodes with a channel count other than 1, 3 or
4.  If the image cannot be opened or decoded it prints one message, uploads
nothing and returns.  If it decodes with 1, 3 or 4 channels it binds the
texture, uploads the pixels as RED, RGB or RGBA respectively, generates
mipmaps, sets the two wrap and the two filter parameters, and returns. -/
theorem loadTexture_outcomes (id : Nat) (path : String) :
    ((Texture2D.loadTexture id path none).outcome = Outcome.returned () ∧
      (Texture2D.loadTexture id path none).printed = ["Texture failed to load at path: " ++ path] ∧
      ∀ c ∈ (Texture2D.loadTexture id path none).calls, c.isUpload = false) ∧
    (∀ d : Decoded,
      ((Texture2D.loadTexture id path (some d)).outcome = Outcome.exited (-1) ↔
        (d.nrComponents ≠ 1 ∧ d.nrComponents ≠ 3 ∧ d.nrComponents ≠ 4)) ∧
      ((Texture2D.loadTexture id path (some d)).outcome ≠ Outcome.returned () →
        ∀ c ∈ (Texture2D.loadTexture id path (some d)).calls, c.isUpload = false) ∧
      (∀ format, (d.nrComponents = 1 ∧ format = TextureFormat.GL_RED) ∨
          (d.nrComponents = 3 ∧ format = TextureFormat.GL_RGB) ∨
          (d.nrComponents = 4 ∧ format = TextureFormat.GL_RGBA) →
        Texture2D.loadTexture id path (some d)
          = { calls :=
                [TextureCall.glGenTextures id, TextureCall.glBindTexture id,
                 TextureCall.glTexImage2D format d.width d.height, TextureCall.glGenerateMipmap,
                 TextureCall.glTexParameteri TextureParam.GL_TEXTURE_WRAP_S
                   TextureValue.GL_REPEAT,
                 TextureCall.glTexParameteri TextureParam.GL_TEXTURE_WRAP_T
                   TextureValue.GL_REPEAT,
                 TextureCall.glTexParameteri TextureParam.GL_TEXTURE_MIN_FILTER
                   TextureValue.GL_LINEAR_MIPMAP_LINEAR,
                 TextureCall.glTexParameteri TextureParam.GL_TEXTURE_MAG_FILTER
                   TextureValue.GL_LINEAR,
                 TextureCall.stbi_image_free],
              printed := [], outcome := Outcome.returned () })) := by
  refine ⟨⟨rfl, rfl, ?_⟩, ?_⟩
  · intro c hc
    simp only [Texture2D.loadTexture, List.mem_cons, List.mem_singleton, List.not_mem_nil,
      or_false] at hc
    rcases hc with h | h <;> subst h <;> rfl
  · intro d
    refine ⟨?_, ?_, ?_⟩
    · unfold Texture2D.loadTexture
      by_cases h1 : d.nrComponents = 1
      · simp [h1]
      · by_cases h3 : d.nrComponents = 3
        · simp [h3]
        · by_cases h4 : d.nrComponents = 4
          · simp [h4]
          · simp [h1, h3, h4]
    · intro hne c hc
      unfold Texture2D.loadTexture at hne hc
      by_cases h1 : d.nrComponents = 1
      · simp [h1] at hne
      · by_cases h3 : d.nrComponents = 3
        · simp [h3] at hne
        · by_cases h4 : d.nrComponents = 4
          · simp [h4] at hne
          · simp only [h1, h3, h4, if_false, List.mem_singleton] at hc
            subst hc
            rfl
    · intro format hf
      unfold Texture2D.loadTexture
      rcases hf with ⟨h, hfmt⟩ | ⟨h, hfmt⟩ | ⟨h, hfmt⟩ <;> subst hfmt <;> simp [h]

/-- Witness for C18: a three-channel image is uploaded as RGB; a four-channel
image as RGBA; a missing file prints and returns; a two-channel image ends the
process. -/
theorem loadTexture_outcomes_witness :
    (Texture2D.loadTexture 1 "container2.png" (some ⟨500, 500, 3⟩)).calls
      = [TextureCall.glGenTextures 1, TextureCall.glBindTexture 1,
         TextureCall.glTexImage2D TextureFormat.GL_RGB 500 500, TextureCall.glGenerateMipmap,
         TextureCall.glTexParameteri TextureParam.GL_TEXTURE_WRAP_S TextureValue.GL_REPEAT,
         TextureCall.glTexParameteri TextureParam.GL_TEXTURE_WRAP_T TextureValue.GL_REPEAT,
         TextureCall.glTexParameteri TextureParam.GL_TEXTURE_MIN_FILTER
           TextureValue.GL_LINEAR_MIPMAP_LINEAR,
         TextureCall.glTexParameteri TextureParam.GL_TEXTURE_MAG_FILTER TextureValue.GL_LINEAR,
         TextureCall.stbi_image_free] ∧
    (Texture2D.loadTexture 1 "smoke.png" (some ⟨64, 64, 2⟩)).outcome = Outcome.exited (-1) := by
  have h := (loadTexture_outcomes 1 "container2.png").2 ⟨500, 500, 3⟩
  have h2 := (loadTexture_outcomes 1 "smoke.png").2 ⟨64, 64, 2⟩
  refine ⟨?_, h2.1.mpr (by decide)⟩
  rw [h.2.2 TextureFormat.GL_RGB (Or.inr (Or.inl ⟨rfl, rfl⟩))]

/-! ## Theorems: steps inside the loop body -/

theorem bodyRun_snoc (s : BodyState) (schedule : List BodyAction) (a : BodyAction) :
    s.run (schedule ++ [a]) = (s.run schedule).step a := by
  simp [BodyState.run, List.foldl_append]

/-! ## Theorems: one layout binder used for several vertex arrays -/

theorem totalBytes_split (r : Registration) (rs : List Registration) :
    totalBytes (sameArray r rs) + totalBytes (otherArrays r rs) = totalBytes rs := by
  induction rs with
  | nil => simp [sameArray, otherArrays, totalBytes]
  | cons x xs ih =>
    simp only [sameArray, otherArrays] at ih ⊢
    by_cases hx : x.va = r.va
    · simp only [List.filter_cons, hx, decide_True, if_true, Bool.not_true, Bool.false_eq_true,
        if_false, totalBytes_cons]
      rw [← ih]; ring
    · simp only [List.filter_cons, hx, decide_False, if_true, Bool.not_false, Bool.false_eq_true,
        if_false, totalBytes_cons]
      rw [← ih]; ring

theorem length_split (r : Registration) (rs : List Registration) :
    (sameArray r rs).length + (otherArrays r rs).length = rs.length := by
  induction rs with
  | nil => simp [sameArray, otherArrays]
  | cons x xs ih =>
    simp only [sameArray, otherArrays] at ih ⊢
    by_cases hx : x.va = r.va
    · simp only [List.filter_cons, hx, decide_True, if_true, Bool.not_true, Bool.false_eq_true,
        if_false, List.length_cons]
      omega
    · simp only [List.filter_cons, hx, decide_False, if_true, Bool.not_false, Bool.false_eq_true,
        if_false, List.length_cons]
      omega

/-- Counterexample for C21: one binder, a first registration on vertex array 1
and a second on vertex array 2.  Nothing was registered on array 2 before, yet
the second call passes slot 1 and byte offset 12, not slot 0 and offset 0. -/
theorem layout_offset_same_array_counterexample :
    (BufferLayout.registerAll BufferLayout.fresh twoArrayRegistrations).2
      = [[GLCall.glBindVertexArray 1, GLCall.glBindBuffer BufferTarget.GL_ARRAY_BUFFER 1,
          GLCall.glVertexAttribPointer 0 3 BufferType.FLOAT 32 0,
          GLCall.glEnableVertexAttribArray 0],
         [GLCall.glBindVertexArray 2, GLCall.glBindBuffer BufferTarget.GL_ARRAY_BUFFER 1,
          GLCall.glVertexAttribPointer 1 3 BufferType.FLOAT 32 12,
          GLCall.glEnableVertexAttribArray 1]] ∧
    ¬ ∀ (k : Nat) (r : Registration), twoArrayRegistrations[k]? = some r →
      (BufferLayout.registerAll BufferLayout.fresh twoArrayRegistrations).2[k]?
        = some (expectedCalls (sameArray r (twoArrayRegistrations.take k)).length
            (totalBytes (sameArray r (twoArrayRegistrations.take k))) r) := by
  refine ⟨by decide, ?_⟩
  intro h
  have h1 := h 1 _ rfl
  revert h1
  decide

/-- C21 (amended). The counters belong to the binder, not to the vertex array:
for every sequence of registrations through a freshly constructed binder (of
non-negative component counts, short enough and small enough that no `int`
wraps), whatever vertex arrays they target, the `k`-th registration passes as
byte offset the total size of the earlier registrations on its own array plus
the total size of the earlier registrations on every other array, and as slot
the number of all earlier registrations; these are the total and the number for
its own array when every earlier registration targeted that array. -/
theorem layout_offset_per_binder (regs : List Registration)
    (hlen : (regs.length : Int) < 2147483648)
    (hcount : ∀ r ∈ regs, 0 ≤ r.count)
    (htotal : totalBytes regs < 2147483648) (k : Nat) (r : Registration)
    (hk : regs[k]? = some r) :
    (BufferLayout.registerAll BufferLayout.fresh regs).2[k]?
      = some (expectedCalls
          ((sameArray r (regs.take k)).length + (otherArrays r (regs.take k)).length)
          (totalBytes (sameArray r (regs.take k)) + totalBytes (otherArrays r (regs.take k)))
          r) ∧
    (otherArrays r (regs.take k) = [] →
      (BufferLayout.registerAll BufferLayout.fresh regs).2[k]?
        = some (expectedCalls (sameArray r (regs.take k)).length
            (totalBytes (sameArray r (regs.take k))) r)) := by
  have h := (registerAll_from regs BufferLayout.fresh 0 0 rfl rfl (le_refl 0)
    (by simpa using hlen) hcount (by simpa using htotal)).1 k r hk
  have hklt : k < regs.length := by
    rcases Nat.lt_or_ge k regs.length with h1 | h1
    · exact h1
    · rw [List.getElem?_eq_none h1] at hk
      cases hk
  have hl : (sameArray r (regs.take k)).length + (otherArrays r (regs.take k)).length = k := by
    rw [length_split, List.length_take]
    omega
  have ht := totalBytes_split r (regs.take k)
  have h2 : (BufferLayout.registerAll BufferLayout.fresh regs).2[k]?
      = some (expectedCalls
          ((sameArray r (regs.take k)).length + (otherArrays r (regs.take k)).length)
          (totalBytes (sameArray r (regs.take k)) + totalBytes (otherArrays r (regs.take k)))
          r) := by
    rw [hl, ht, h]
    simp
  refine ⟨h2, ?_⟩
  intro hnone
  rw [h2, hnone]
  simp [totalBytes]

/-- Witness for C21 (amended): the second registration of
`twoArrayRegistrations`, on vertex array 2, after one registration of 12 bytes on
vertex array 1. -/
theorem layout_offset_per_binder_witness :
    (BufferLayout.registerAll BufferLayout.fresh twoArrayRegistrations).2[1]?
      = some [GLCall.glBindVertexArray 2, GLCall.glBindBuffer BufferTarget.GL_ARRAY_BUFFER 1,
          GLCall.glVertexAttribPointer 1 3 BufferType.FLOAT 32 12,
          GLCall.glEnableVertexAttribArray 1] := by
  have h := (layout_offset_per_binder twoArrayRegistrations (by decide) (by decide) (by decide) 1
    { va := { m_VertexArrayID := 2 },
      buffer := { m_VertexBufferID := 1, m_VertexCount := 8, typeSize := 4 },
      indexBuffer := none, count := 3, type := BufferType.FLOAT } rfl).1
  rw [h]
  decide

/-! ## Theorems: the cached view matrix -/

/-- C22. The cached view matrix is recomputed by `init`, `ProcessKeyboard` and
`ProcessMouse` (after each, `getLookAt()` is `lookAt(position, position + front,
up)` of the current members), but not by `SetCameraPos`: it stores the new
position and leaves the matrix as it was, so `getLookAt()` differs from
`lookAt(position, position + front, up)` whenever the view from the new position
differs from the cached one. -/
theorem setCameraPos_leaves_view_stale {Mat4 : Type} (g : Glm Mat4) (c : Camera Mat4)
    (vPos vFront p : Vec3) (movement : CameraMovement) (dt : ℚ) (b : Bool) (w h : Int) (x y : ℚ)
    (hp : g.lookAt p (p.add c.vCameraFront) c.vCameraUp ≠ c.getLookAt) :
    (c.init g vPos vFront).getLookAt = (c.init g vPos vFront).expectedView g ∧
    (c.ProcessKeyboard g movement dt).getLookAt = (c.ProcessKeyboard g movement dt).expectedView g ∧
    (c.ProcessMouse g b w h x y).getLookAt = (c.ProcessMouse g b w h x y).expectedView g ∧
    (c.SetCameraPos p).vCameraPos = p ∧
    (c.SetCameraPos p).getLookAt = c.getLookAt ∧
    (c.SetCameraPos p).getLookAt ≠ (c.SetCameraPos p).expectedView g := by
  refine ⟨rfl, rfl, ?_, rfl, rfl, ?_⟩
  · cases b <;> rfl
  · intro heq
    exact hp heq.symm

/-- Witness for C22: the camera of the demos, initialised at `(0, 0, 3)` looking
along `(0, 0, -1)`, then moved to `(5, 0, 3)` by `SetCameraPos`: `getLookAt()`
still returns the view from `(0, 0, 3)`. -/
theorem setCameraPos_leaves_view_stale_witness :
    (demoCamera.SetCameraPos ⟨5, 0, 3⟩).getLookAt = (⟨0, 0, 3⟩, ⟨0, 0, 2⟩, ⟨0, 1, 0⟩) ∧
    (demoCamera.SetCameraPos ⟨5, 0, 3⟩).expectedView rationalGlm
      = (⟨5, 0, 3⟩, ⟨5, 0, 2⟩, ⟨0, 1, 0⟩) ∧
    (demoCamera.SetCameraPos ⟨5, 0, 3⟩).getLookAt
      ≠ (demoCamera.SetCameraPos ⟨5, 0, 3⟩).expectedView rationalGlm := by
  have hview : demoCamera.getLookAt = (⟨0, 0, 3⟩, ⟨0, 0, 2⟩, ⟨0, 1, 0⟩) := by
    simp [demoCamera, Camera.getLookAt, Camera.init, Camera.fresh, rationalGlm, Vec3.add]
    norm_num
  have hexp : rationalGlm.lookAt ⟨5, 0, 3⟩ ((⟨5, 0, 3⟩ : Vec3).add demoCamera.vCameraFront)
      demoCamera.vCameraUp = (⟨5, 0, 3⟩, ⟨5, 0, 2⟩, ⟨0, 1, 0⟩) := by
    simp [demoCamera, Camera.init, Camera.fresh, rationalGlm, Vec3.add]
    norm_num
  have h := setCameraPos_leaves_view_stale rationalGlm demoCamera ⟨0, 0, 0⟩ ⟨0, 0, 0⟩ ⟨5, 0, 3⟩
    CameraMovement.FORWARD 0 true 800 600 0 0 (by rw [hview, hexp]; simp)
  refine ⟨?_, hexp, h.2.2.2.2.2⟩
  rw [h.2.2.2.2.1, hview]

/-! ## Theorems: line accumulation of the shader loader -/

theorem shader_parse_snoc (pre : List String) (l : String) :
    Shader.parse (pre ++ [l]) = shaderLineBody (Shader.parse pre) l := by
  unfold Shader.parse
  rw [List.foldl_append]
  rfl

/-- While the read loop has a defined state, `type` names the last marker read
(`NONE` if there was none). -/
theorem shader_parse_type (pre : List String) (s : ShaderParse)
    (h : Shader.parse pre = some s) : s.type = (lastMarkerStage pre).getD (-1) := by
  induction pre using List.reverseRecOn generalizing s with
  | nil =>
    have : s = {} := by
      simpa [Shader.parse] using h.symm
    rw [this]
    rfl
  | append_singleton pre l ih =>
    rw [shader_parse_snoc] at h
    cases hp : Shader.parse pre with
    | none =>
      rw [hp] at h
      simp [shaderLineBody] at h
    | some p =>
      have hpt := ih p hp
      rw [hp] at h
      rw [lastMarkerStage_snoc]
      cases hs : containsSubstr l "SHADER" with
      | true =>
        cases hv : containsSubstr l "VERTEX" with
        | true =>
          simp only [shaderLineBody, hs, hv, if_true, Option.some.injEq] at h
          subst h
          simp [isStageMarker, hs, hv, markerStage]
        | false =>
          cases hf : containsSubstr l "FRAGMENT" with
          | true =>
            simp only [shaderLineBody, hs, hv, hf, if_true, Bool.false_eq_true, if_false,
              Option.some.injEq] at h
            subst h
            simp [isStageMarker, hs, hv, hf, markerStage]
          | false =>
            simp only [shaderLineBody, hs, hv, hf, if_true, Bool.false_eq_true, if_false,
              Option.some.injEq] at h
            subst h
            simp [isStageMarker, hs, hv, hf, hpt]
      | false =>
        have hm : isStageMarker l = false := by simp [isStageMarker, hs]
        simp only [shaderLineBody, hs, ShaderParse.write, Bool.false_eq_true, if_false] at h
        split_ifs at h with h0 h1
        · simp only [Option.some.injEq] at h
          subst h
          simpa [hm] using hpt
        · simp only [Option.some.injEq] at h
          subst h
          simpa [hm] using hpt

/-- Counterexample for C23: in `taggedCommentShader` the second line follows the
vertex marker and is not a stage marker (it has "SHADER" but neither "VERTEX" nor
"FRAGMENT"), yet it is not appended: the vertex buffer is empty after it and the
assembled vertex source holds only the third line. -/
theorem shader_line_dropped_counterexample :
    isStageMarker "// inputs of this SHADER" = false ∧
    lastMarkerStage ["// SHADER VERTEX"] = some 0 ∧
    Shader.parse ["// SHADER VERTEX", "// inputs of this SHADER"]
      = some { type := 0, ss0 := [], ss1 := [] } ∧
    Shader.assemble taggedCommentShader
      = some ("#version 330 core\n #define SHADER_VERTEX\n #ifdef SHADER_VERTEX\n" ++
                "void main() ;\n",
              "#version 330 core\n #define SHADER_FRAGMENT\n #ifdef SHADER_FRAGMENT\n") := by
  decide

/-- C23 (amended). A line read after a stage marker, while the loop has a
defined state: if it does not contain "SHADER" it is appended verbatim, followed
by a newline, to the buffer of the stage named by the last marker and nothing
else changes, whatever else the line contains; if it contains "SHADER" without
"VERTEX" or "FRAGMENT" it is not a marker and the state is left as it was, so
the line is dropped. -/
theorem shader_line_appended_unless_tagged (pre : List String) (l : String) (s : ShaderParse)
    (stage : Int) (hparse : Shader.parse pre = some s) (hstage : lastMarkerStage pre = some stage) :
    (stage = 0 ∨ stage = 1) ∧ s.type = stage ∧
    (containsSubstr l "SHADER" = false →
      Shader.parse (pre ++ [l])
        = some (if stage = 0 then { s with ss0 := s.ss0 ++ [l ++ "\n"] }
                else { s with ss1 := s.ss1 ++ [l ++ "\n"] })) ∧
    (containsSubstr l "SHADER" = true → isStageMarker l = false →
      Shader.parse (pre ++ [l]) = some s) := by
  have ht : s.type = stage := by
    rw [shader_parse_type pre s hparse, hstage]
    rfl
  have h01 : stage = 0 ∨ stage = 1 := by
    unfold lastMarkerStage at hstage
    cases hg : (pre.filter isStageMarker).getLast? with
    | none => rw [hg] at hstage; cases hstage
    | some x =>
      rw [hg] at hstage
      simp only [Option.map_some', Option.some.injEq] at hstage
      rw [← hstage]
      unfold markerStage
      split_ifs <;> simp
  refine ⟨h01, ht, ?_, ?_⟩
  · intro hs
    rw [shader_parse_snoc, hparse]
    simp only [shaderLineBody, hs, ShaderParse.write, ht, Bool.false_eq_true, if_false]
    rcases h01 with h | h
    · simp [h]
    · simp [h]
  · intro hs hm
    have hv : containsSubstr l "VERTEX" = false ∧ containsSubstr l "FRAGMENT" = false := by
      simpa [isStageMarker, hs] using hm
    rw [shader_parse_snoc, hparse]
    simp [shaderLineBody, hs, hv.1, hv.2]

/-- Witness for C23 (amended): after the vertex marker, a comment line and a
blank line are appended to the vertex buffer. -/
theorem shader_line_appended_unless_tagged_witness :
    Shader.parse (["// SHADER VERTEX", "// position only"] ++ [""])
      = some { type := 0, ss0 := ["// position only\n", "\n"], ss1 := [] } := by
  have h := (shader_line_appended_unless_tagged ["// SHADER VERTEX", "// position only"] ""
    { type := 0, ss0 := ["// position only\n"], ss1 := [] } 0 (by decide) (by decide)).2.2.1
    (by decide)
  rw [h]
  decide

/-! ## Theorems: `Camera::init` and the next mouse sample -/

/-- C28. `Camera::init(p, f)` stores `p`, `f` and `lookAt(p, p + f, up)` and
changes no other member: yaw, pitch and the mouse reference point keep their
values.  The next `ProcessMouse` call made with `bFirstMouse` cleared therefore
sets the front vector to the normalised direction of yaw `yaw + 0.2 * (x - lastX)`
and pitch `pitch + 0.2 * (lastY - y)` clamped to `[-89, 89]`, computed from the
members `init` retained; the result is the same for every `f`. -/
theorem init_retains_orientation {Mat4 : Type} (g : Glm Mat4) (c : Camera Mat4)
    (p f f2 : Vec3) (w h : Int) (x y : ℚ) :
    c.init g p f
      = { c with vCameraPos := p, vCameraFront := f,
                 matView := g.lookAt p (p.add f) c.vCameraUp } ∧
    (c.init g p f).fYaw = c.fYaw ∧
    (c.init g p f).fPitch = c.fPitch ∧
    (c.init g p f).fLastX = c.fLastX ∧
    (c.init g p f).fLastY = c.fLastY ∧
    ((c.init g p f).ProcessMouse g false w h x y).vCameraFront
      = g.normalize (g.direction (c.fYaw + 2 / 10 * (x - c.fLastX))
          (max (-89) (min 89 (c.fPitch + 2 / 10 * (c.fLastY - y))))) ∧
    ((c.init g p f).ProcessMouse g false w h x y).vCameraFront
      = ((c.init g p f2).ProcessMouse g false w h x y).vCameraFront := by
  refine ⟨rfl, rfl, rfl, rfl, rfl, ?_, rfl⟩
  simp only [Camera.ProcessMouse, Camera.init, Bool.false_eq_true, if_false, Glm.direction]
  rw [clamp_eq_max_min]
  have e1 : c.fYaw + (x - c.fLastX) * (2 / 10) = c.fYaw + 2 / 10 * (x - c.fLastX) := by ring
  have e2 : c.fPitch + (c.fLastY - y) * (2 / 10) = c.fPitch + 2 / 10 * (c.fLastY - y) := by ring
  rw [e1, e2]

/-! ## Theorems: the run flag is only cleared -/

/-- Once the main thread is past `m_bIsRunning = true;` it never returns there,
and no step turns a clear flag into a set one. -/
theorem flag_step (c : Control) (a : Action) (h : c.mainPc ≠ MainPc.setRunning) :
    (c.step a).1.mainPc ≠ MainPc.setRunning ∧
    ((c.step a).1.m_bIsRunning = true → c.m_bIsRunning = true) := by
  obtain ⟨mpc, rpc, flag, sc, o⟩ := c
  obtain ⟨th, ret, esc, cl, ev⟩ := a
  cases th
  · cases mpc <;> simp_all [Control.step, Start.step] <;> split_ifs <;> simp_all
  · cases rpc <;> simp_all [Control.step, RendererThread.step] <;> split_ifs <;> simp_all

theorem flag_run (post : List Action) (c : Control) (h : c.mainPc ≠ MainPc.setRunning)
    (hf : c.m_bIsRunning = false) :
    (c.run post).mainPc ≠ MainPc.setRunning ∧ (c.run post).m_bIsRunning = false := by
  induction post using List.reverseRecOn with
  | nil => exact ⟨h, hf⟩
  | append_singleton post a ih =>
    have hrun : c.run (post ++ [a]) = ((c.run post).step a).1 := by
      simp [Control.run, List.foldl_append]
    rw [hrun]
    have hs := flag_step (c.run post) a ih.1
    refine ⟨hs.1, ?_⟩
    cases hb : ((c.run post).step a).1.m_bIsRunning with
    | false => rfl
    | true =>
      have := hs.2 hb
      rw [ih.2] at this
      cases this

/-- C24. In every execution of `Start`, at every state reached after the main
thread has executed `m_bIsRunning = true;`: no step of either thread, whatever
`Setup`, `Update`, the quit key and the close request answer, leaves the flag
set unless it was set before the step, and if the flag is clear it is clear
after every continuation of the execution. -/
theorem run_flag_only_cleared (pre post : List Action)
    (hstart : (RunState.init.run pre).ctl.mainPc ≠ MainPc.setRunning) :
    (∀ a : Action, ((RunState.init.run pre).ctl.step a).1.m_bIsRunning = true →
      (RunState.init.run pre).ctl.m_bIsRunning = true) ∧
    ((RunState.init.run pre).ctl.m_bIsRunning = false →
      (RunState.init.run (pre ++ post)).ctl.m_bIsRunning = false) := by
  refine ⟨fun a => (flag_step _ a hstart).2, ?_⟩
  intro hf
  rw [run_append, run_ctl]
  exact (flag_run post _ hstart hf).2

/-- Witness for C24: after a failed `Setup` the flag is clear, and it is still
clear when both threads have run on to the end of `Start`. -/
theorem run_flag_only_cleared_witness :
    (RunState.init.run setupFailedStart).ctl.m_bIsRunning = false ∧
    (RunState.init.run (setupFailedStart
      ++ (List.replicate 2 renderStep ++ List.replicate 5 mainStep))).ctl.mainPc = MainPc.done ∧
    (RunState.init.run (setupFailedStart
      ++ (List.replicate 2 renderStep ++ List.replicate 5 mainStep))).ctl.m_bIsRunning = false :=
  ⟨by decide, by decide,
   (run_flag_only_cleared setupFailedStart
    (List.replicate 2 renderStep ++ List.replicate 5 mainStep) (by decide)).2 (by decide)⟩

/-! ## Theorems: the thread on which the context is current -/

theorem holdsContext_beforeSpawn (mpc : MainPc) (h : mpc.holdsContext = true) :
    mpc.beforeSpawn = true := by
  cases mpc <;> simp_all [MainPc.holdsContext, MainPc.beforeSpawn]

theorem owner_step (c : Control) (a : Action) (hc : c.consistent)
    (ho : c.contextOwner = c.ownerByPc) :
    (c.step a).1.contextOwner = (c.step a).1.ownerByPc := by
  obtain ⟨mpc, rpc, flag, sc, o⟩ := c
  obtain ⟨th, ret, esc, cl, ev⟩ := a
  unfold Control.consistent at hc
  unfold Control.ownerByPc at *
  simp only at hc ho
  cases th
  · cases mpc <;>
      simp_all [Control.step, Start.step, MainPc.beforeSpawn, MainPc.afterJoin,
        MainPc.holdsContext, RenderPc.holdsContext] <;>
      (try split_ifs) <;> simp_all [MainPc.holdsContext, RenderPc.holdsContext]
  · by_cases hr : rpc = RenderPc.notStarted
    · subst hr
      simpa [Control.step, RendererThread.step] using ho
    · have hm : mpc.holdsContext = false := by
        cases hh : mpc.holdsContext with
        | false => rfl
        | true => exact absurd (hc.1 (holdsContext_beforeSpawn mpc hh)) hr
      cases rpc <;>
        simp_all [Control.step, RendererThread.step, RenderPc.holdsContext] <;>
        (try split_ifs) <;> simp_all [RenderPc.holdsContext]

theorem owner_run (schedule : List Action) :
    (RunState.init.run schedule).ctl.contextOwner = (RunState.init.run schedule).ctl.ownerByPc := by
  induction schedule using List.reverseRecOn with
  | nil => rfl
  | append_singleton sched a ih =>
    rw [run_snoc]
    exact owner_step _ a (consistent_run sched) ih

theorem needsContext_step (c : Control) (a : Action) (e : Event) (hc : c.consistent)
    (he : e ∈ (c.step a).2) (hn : e.needsContext = true) :
    (e ≠ Event.destroy → a.thread = Thread.render ∧ c.ownerByPc = some Thread.render) ∧
    (e = Event.destroy → a.thread = Thread.main ∧ c.ownerByPc = none) := by
  obtain ⟨mpc, rpc, flag, sc, o⟩ := c
  obtain ⟨th, ret, esc, cl, ev⟩ := a
  unfold Control.consistent at hc
  unfold Control.ownerByPc
  simp only at hc
  cases th
  · cases mpc <;>
      simp_all [Control.step, Start.step, MainPc.beforeSpawn, MainPc.afterJoin,
        MainPc.holdsContext, RenderPc.holdsContext, Event.needsContext] <;>
      (try split_ifs at he) <;> simp_all [Event.needsContext]
  · by_cases hr : rpc = RenderPc.notStarted
    · subst hr
      simp [Control.step, RendererThread.step] at he
    · have hm : mpc.holdsContext = false := by
        cases hh : mpc.holdsContext with
        | false => rfl
        | true => exact absurd (hc.1 (holdsContext_beforeSpawn mpc hh)) hr
      cases rpc <;>
        simp_all [Control.step, RendererThread.step, RenderPc.holdsContext,
          Event.needsContext] <;>
        (try split_ifs at he) <;> simp_all [Event.needsContext]

/-- C25. In every execution of `Start`, for every step that makes OpenGL calls:
`Setup`, `Update` and the buffer swap are executed by the render thread while
the context is current on the render thread, but `Destroy` is executed by the
main thread while the context is current on no thread.  The render thread ends
with `glfwMakeContextCurrent(nullptr)` and `Start` does not make the context
current again before it calls `Destroy`, so from the release in `Start` on the
context is never current on the main thread. -/
theorem destroy_runs_without_context (schedule : List Action) (a : Action) (e : Event)
    (he : e ∈ ((RunState.init.run schedule).ctl.step a).2) (hn : e.needsContext = true) :
    (e ≠ Event.destroy →
      a.thread = Thread.render ∧
      (RunState.init.run schedule).ctl.contextOwner = some Thread.render) ∧
    (e = Event.destroy →
      a.thread = Thread.main ∧ (RunState.init.run schedule).ctl.contextOwner = none) ∧
    ((RunState.init.run schedule).ctl.mainPc.holdsContext = false →
      (RunState.init.run schedule).ctl.contextOwner ≠ some Thread.main) := by
  have ho := owner_run schedule
  have h := needsContext_step _ a e (consistent_run schedule) he hn
  rw [ho]
  refine ⟨h.1, h.2, ?_⟩
  intro hm
  unfold Control.ownerByPc
  rw [hm]
  simp only [Bool.false_eq_true, if_false]
  split_ifs <;> simp

/-- Witness for C25: a run in which `Setup` fails; when the main thread calls
`Destroy` the context is current on no thread. -/
theorem destroy_runs_without_context_witness :
    ((RunState.init.run untilDestroySchedule).ctl.step mainStep).2 = [Event.destroy] ∧
    (RunState.init.run untilDestroySchedule).ctl.contextOwner = none :=
  ⟨by decide,
   ((destroy_runs_without_context untilDestroySchedule mainStep Event.destroy (by decide)
      (by decide)).2.1 rfl).2⟩

/-! ## Theorems: bounds of the table lookups of the OBJ loader -/

theorem vecAt_isSome_iff {α : Type} (xs : List α) (p : Int) :
    (vecAt xs (p - 1)).isSome = true ↔ (1 ≤ p ∧ p ≤ xs.length) := by
  unfold vecAt
  by_cases h0 : 0 ≤ p - 1
  · rw [if_pos h0]
    by_cases hlt : (p - 1).toNat < xs.length
    · rw [List.getElem?_eq_getElem hlt]
      simp only [Option.isSome_some, true_iff]
      omega
    · rw [List.getElem?_eq_none (by omega)]
      simp only [Option.isSome_none, Bool.false_eq_true, false_iff]
      omega
  · rw [if_neg h0]
    simp only [Option.isSome_none, Bool.false_eq_true, false_iff]
    omega

/-- The face branch has no defined result as soon as one of its six lookups is
outside its table. -/
theorem faceFold_none (v n : Nat → Int) (s : ParseState) (i : Nat) (hi : i < 3)
    (hbad : (vecAt s.temp_positions (v i - 1)).isSome = false ∨
      (vecAt s.temp_normals (n i - 1)).isSome = false) :
    (List.range 3).foldl (faceBody v n) (some s) = none := by
  have hr : List.range 3 = [0, 1, 2] := rfl
  rw [hr]
  simp only [List.foldl]
  have h3 : i = 0 ∨ i = 1 ∨ i = 2 := by omega
  cases hp0 : vecAt s.temp_positions (v 0 - 1) <;>
    cases hn0 : vecAt s.temp_normals (n 0 - 1) <;>
    cases hp1 : vecAt s.temp_positions (v 1 - 1) <;>
    cases hn1 : vecAt s.temp_normals (n 1 - 1) <;>
    cases hp2 : vecAt s.temp_positions (v 2 - 1) <;>
    cases hn2 : vecAt s.temp_normals (n 2 - 1) <;>
    simp [faceBody, hp0, hn0, hp1, hn1, hp2, hn2]
  rcases h3 with h | h | h <;> (subst h; simp_all)

/-- C26. For a face line read after lines whose own faces were in range: the six
lookups `temp_positions[p - 1]`, `temp_normals[n - 1]` are all inside their
tables, and the read loop goes on, exactly when every index `p` satisfies
`1 <= p <= number of v records before the line` and every `n` likewise for
`vn` records.  A lookup `vec[p - 1]` is inside the table exactly when
`1 <= p <= size`: an index of 0, a negative index and an index beyond the records
read so far (a record defined later in the file) fall outside.  Hence the read
loop of a whole file meeting the precondition makes no lookup out of bounds. -/
theorem face_lookups_in_bounds (sc : Scanner) (pre : List String) (l : String)
    (hpre : FacesInRange sc pre) (hf : startsWith l "f" = true) :
    ((readLines sc (pre ++ [l])).isSome = true ↔
      ∀ i, i < 3 →
        1 ≤ sc.faceV l i ∧ sc.faceV l i ≤ (positionRecords sc pre).length ∧
        1 ≤ sc.faceN l i ∧ sc.faceN l i ≤ (normalRecords sc pre).length) ∧
    (∀ (xs : List Vec3) (p : Int),
      ((vecAt xs (p - 1)).isSome = true ↔ (1 ≤ p ∧ p ≤ xs.length)) ∧
      (p ≤ 0 → vecAt xs (p - 1) = none) ∧
      ((xs.length : Int) < p → vecAt xs (p - 1) = none)) ∧
    (∀ lines, FacesInRange sc lines → (readLines sc lines).isSome = true) := by
  have hv : startsWith l "v" = false := by
    cases h : startsWith l "v" with
    | false => rfl
    | true =>
      rw [startsWith_v_not_f l h] at hf
      cases hf
  have hvn : startsWith l "vn" = false := by
    cases h : startsWith l "vn" with
    | false => rfl
    | true =>
      rw [startsWith_vn_v l h] at hv
      cases hv
  obtain ⟨s, hs, hpos, hnorm, -, -⟩ := readLines_inv sc pre hpre
  have hstep : readLines sc (pre ++ [l])
      = (List.range 3).foldl (faceBody (sc.faceV l) (sc.faceN l)) (some s) := by
    unfold readLines at hs ⊢
    rw [List.foldl_append, hs]
    simp [lineBody, hv, hvn, hf]
  have hall : ∀ lines, FacesInRange sc lines → (readLines sc lines).isSome = true := by
    intro lines h
    obtain ⟨s1, hs1, -⟩ := readLines_inv sc lines h
    rw [hs1]
    rfl
  refine ⟨⟨?_, ?_⟩, ?_, hall⟩
  · intro hsome i hi
    by_contra hbad
    have hnone : (vecAt s.temp_positions (sc.faceV l i - 1)).isSome = false ∨
        (vecAt s.temp_normals (sc.faceN l i - 1)).isSome = false := by
      by_contra hboth
      push_neg at hboth
      simp only [Bool.not_eq_false] at hboth
      rw [vecAt_isSome_iff, vecAt_isSome_iff, hpos, hnorm] at hboth
      exact hbad ⟨hboth.1.1, hboth.1.2, hboth.2.1, hboth.2.2⟩
    rw [hstep, faceFold_none _ _ s i hi hnone] at hsome
    cases hsome
  · intro hrange
    obtain ⟨P, Q, -, hfold⟩ := faceFold_ok (sc.faceV l) (sc.faceN l) s
      (fun i hi => by rw [hpos]; exact ⟨(hrange i hi).1, (hrange i hi).2.1⟩)
      (fun i hi => by rw [hnorm]; exact ⟨(hrange i hi).2.2.1, (hrange i hi).2.2.2⟩)
    rw [hstep, hfold]
    rfl
  · intro xs p
    refine ⟨vecAt_isSome_iff xs p, ?_, ?_⟩
    · intro hp
      have := vecAt_isSome_iff xs p
      cases hx : vecAt xs (p - 1) with
      | none => rfl
      | some x =>
        rw [hx] at this
        have := this.1 rfl
        omega
    · intro hp
      have := vecAt_isSome_iff xs p
      cases hx : vecAt xs (p - 1) with
      | none => rfl
      | some x =>
        rw [hx] at this
        have := this.1 rfl
        omega

/-- Witness for C26: in `forwardFaceObj` the face line follows one `v` and one
`vn` record and names positions 1, 2, 3; positions 2 and 3 are defined later in
the file, so the lookups are out of bounds, while the lookups of `sampleObj` are
all in bounds. -/
theorem face_lookups_in_bounds_witness :
    (readLines sampleScanner (["v 0 0 0", "vn 0 0 1"] ++ ["f 1//1 2//1 3//1"])).isSome = false ∧
    (readLines sampleScanner sampleObj).isSome = true ∧
    readLines sampleScanner forwardFaceObj = none := by
  have h := face_lookups_in_bounds sampleScanner ["v 0 0 0", "vn 0 0 1"] "f 1//1 2//1 3//1"
    (by decide) (by decide)
  refine ⟨?_, h.2.2 sampleObj (by decide), by decide⟩
  cases hx : (readLines sampleScanner (["v 0 0 0", "vn 0 0 1"] ++ ["f 1//1 2//1 3//1"])).isSome with
  | false => rfl
  | true =>
    have h1 := (h.1.1 hx 1 (by decide)).2.1
    revert h1
    decide

/-! ## Theorems: bounds of the mouse tables -/

/-- C27. The three-entry mouse tables: `GetMouseButton(b)` reads inside `m_mouse`
exactly for `LEFT`, `RIGHT` and `MIDDLE` (entries 0, 1, 2) and outside it for
`SCROLL_UP` (3) and `SCROLL_DOWN` (4); `mouse_button_callback` writes inside
`m_bMouseButtonHeld` exactly for button ids 0, 1 and 2, where it stores whether
`action` is non-zero, and outside it for every id of 3 or more. -/
theorem mouse_tables_bounds (s : InputState) (latch : Nat → Bool) (b : Mouse)
    (button action : Int) :
    ((GetMouseButton s b).isSome = true ↔ (b = Mouse.LEFT ∨ b = Mouse.RIGHT ∨ b = Mouse.MIDDLE)) ∧
    GetMouseButton s Mouse.LEFT = some (s.m_mouse 0) ∧
    GetMouseButton s Mouse.RIGHT = some (s.m_mouse 1) ∧
    GetMouseButton s Mouse.MIDDLE = some (s.m_mouse 2) ∧
    GetMouseButton s Mouse.SCROLL_UP = none ∧
    GetMouseButton s Mouse.SCROLL_DOWN = none ∧
    ((mouse_button_callback button action latch).isSome = true ↔ (0 ≤ button ∧ button ≤ 2)) ∧
    (0 ≤ button → button ≤ 2 →
      mouse_button_callback button action latch
        = some (Function.update latch button.toNat (decide (action ≠ 0)))) ∧
    (3 ≤ button → mouse_button_callback button action latch = none) := by
  refine ⟨?_, rfl, rfl, rfl, rfl, rfl, ?_, ?_, ?_⟩
  · cases b <;> simp [GetMouseButton, arrayIndex, mouseTableSize, Mouse.toInt]
  · unfold mouse_button_callback arrayIndex mouseTableSize
    by_cases h : 0 ≤ button ∧ button < ((3 : Nat) : Int)
    · rw [if_pos h]
      simp only [Option.map_some', Option.isSome_some, true_iff]
      omega
    · rw [if_neg h]
      simp only [Option.map_none', Option.isSome_none, Bool.false_eq_true, false_iff]
      omega
  · intro h0 h2
    unfold mouse_button_callback arrayIndex mouseTableSize
    rw [if_pos (by omega)]
    rfl
  · intro h3
    unfold mouse_button_callback arrayIndex mouseTableSize
    rw [if_neg (by omega)]
    rfl

/-- Witness for C27: button id 3 (`GLFW_MOUSE_BUTTON_4`) is outside the latch
array, button id 1 is inside it. -/
theorem mouse_tables_bounds_witness :
    mouse_button_callback 3 1 (fun _ => false) = none ∧
    (mouse_button_callback 1 1 (fun _ => false)).isSome = true ∧
    GetMouseButton clearedInput Mouse.SCROLL_UP = none :=
  ⟨(mouse_tables_bounds clearedInput (fun _ => false) Mouse.SCROLL_UP 3 1).2.2.2.2.2.2.2.2
      (by decide),
   (mouse_tables_bounds clearedInput (fun _ => false) Mouse.SCROLL_UP 1 1).2.2.2.2.2.2.1.2
      ⟨by decide, by decide⟩,
   by decide⟩

/-! ## Theorems: the stride argument of `setBufferLayout` -/

theorem strideArg_of_fit (buffer : VertexBuffer)
    (hfit : buffer.m_VertexCount * buffer.typeSize < 2147483648) :
    strideArg buffer = ((buffer.m_VertexCount * buffer.typeSize : Nat) : Int) := by
  unfold strideArg
  rw [Nat.mod_eq_of_lt (by omega)]
  exact wrapInt32_of_range _ (by omega) (by omega)

theorem register_strides (l : BufferLayout) (r : Registration) :
    pointerStrides (l.register r).2 = [strideArg r.buffer] := by
  unfold BufferLayout.register
  cases r.indexBuffer <;> rfl

theorem registerAll_strides (regs : List Registration) (l : BufferLayout) (buffer : VertexBuffer)
    (hbuf : ∀ r ∈ regs, r.buffer = buffer) :
    ∀ calls ∈ (BufferLayout.registerAll l regs).2, pointerStrides calls = [strideArg buffer] := by
  induction regs generalizing l with
  | nil => intro calls h; simp [BufferLayout.registerAll] at h
  | cons r rs ih =>
    intro calls h
    simp only [BufferLayout.registerAll, List.mem_cons] at h
    rcases h with h | h
    · rw [h, register_strides, hbuf r (by simp)]
    · exact ih (l.register r).1 (fun x hx => hbuf x (by simp [hx])) calls h

/-- C29. The byte stride passed to `glVertexAttribPointer` by a registration is
`buffer.getVertexCount() * buffer.typeSize` (while that product fits an `int`),
whatever the binder's counters and whatever was registered before; `generate(n)`
stores `n` as the vertex count and leaves the element size alone; so every
registration against one buffer passes the same stride, in both overloads; and
on a fresh binder (no `int` wrapping) the final accumulated attribute size equals
that stride exactly when the registered sizes sum to it. -/
theorem stride_is_count_times_size (regs : List Registration) (l : BufferLayout)
    (buffer : VertexBuffer) (hbuf : ∀ r ∈ regs, r.buffer = buffer)
    (hfit : buffer.m_VertexCount * buffer.typeSize < 2147483648) :
    (∀ (l1 : BufferLayout) (va : VertexArray) (ib : IndexBuffer) (count : Int) (type : BufferType),
      pointerStrides (l1.setBufferLayout va buffer count type).2
        = [((buffer.m_VertexCount * buffer.typeSize : Nat) : Int)] ∧
      pointerStrides (l1.setBufferLayoutIndexed va buffer ib count type).2
        = [((buffer.m_VertexCount * buffer.typeSize : Nat) : Int)]) ∧
    (∀ (vb : VertexBuffer) (n : Nat) (gl : GLContext),
      (vb.generate n gl).1.m_VertexCount = n ∧ (vb.generate n gl).1.typeSize = vb.typeSize) ∧
    (∀ calls ∈ (BufferLayout.registerAll l regs).2,
      pointerStrides calls = [((buffer.m_VertexCount * buffer.typeSize : Nat) : Int)]) ∧
    ((regs.length : Int) < 2147483648 → (∀ r ∈ regs, 0 ≤ r.count) →
      totalBytes regs < 2147483648 →
      ((BufferLayout.registerAll BufferLayout.fresh regs).1.stride
          = ((buffer.m_VertexCount * buffer.typeSize : Nat) : Int)
        ↔ totalBytes regs = ((buffer.m_VertexCount * buffer.typeSize : Nat) : Int))) := by
  have hs := strideArg_of_fit buffer hfit
  refine ⟨?_, ?_, ?_, ?_⟩
  · intro l1 va ib count type
    rw [← hs]
    exact ⟨rfl, rfl⟩
  · intro vb n gl
    exact ⟨rfl, rfl⟩
  · rw [← hs]
    exact registerAll_strides regs l buffer hbuf
  · intro hlen hcount htotal
    have h := (registerAll_from regs BufferLayout.fresh 0 0 rfl rfl (le_refl 0)
      (by simpa using hlen) hcount (by simpa using htotal)).2.2.2
    rw [h]
    simp

/-- Witness for C29: on the buffer of `generate(8)` of floats the three cube
registrations all pass stride 32, which is also the final accumulated size
(12 + 12 + 8); the lamp's single registration passes stride 32 as well, while its
accumulated size is 12; a buffer of `generate(6)` of floats gives stride 24. -/
theorem stride_is_count_times_size_witness :
    (BufferLayout.registerAll BufferLayout.fresh cubeRegistrations).2.map pointerStrides
      = [[32], [32], [32]] ∧
    (BufferLayout.registerAll BufferLayout.fresh cubeRegistrations).1.stride = 32 ∧
    (BufferLayout.registerAll BufferLayout.fresh lampRegistrations).2.map pointerStrides
      = [[32]] ∧
    (BufferLayout.registerAll BufferLayout.fresh lampRegistrations).1.stride = 12 ∧
    pointerStrides (BufferLayout.fresh.setBufferLayout {}
      (({} : VertexBuffer).generate 6 {}).1 3 BufferType.FLOAT).2 = [24] := by
  have h := stride_is_count_times_size cubeRegistrations BufferLayout.fresh
    { m_VertexBufferID := 1, m_VertexCount := 8, typeSize := 4 } (by decide) (by decide)
  have h6 := (stride_is_count_times_size [] BufferLayout.fresh
    (({} : VertexBuffer).generate 6 {}).1 (by simp) (by decide)).1 BufferLayout.fresh {} {} 3
    BufferType.FLOAT
  refine ⟨by decide, ?_, by decide, by decide, ?_⟩
  · rw [(h.2.2.2 (by decide) (by decide) (by decide)).2 (by decide)]
    decide
  · rw [h6.1]
    decide

/-! ## Theorems: the scroll callback -/

theorem truncToInt_eq_one_iff (y : ℚ) : truncToInt y = 1 ↔ (1 ≤ y ∧ y < 2) := by
  unfold truncToInt
  by_cases h : 0 ≤ y
  · rw [if_pos h, Int.floor_eq_iff]
    constructor
    · rintro ⟨h1, h2⟩
      push_cast at h1 h2
      exact ⟨h1, by linarith⟩
    · rintro ⟨h1, h2⟩
      push_cast
      exact ⟨h1, by linarith⟩
  · rw [if_neg h, Int.ceil_eq_iff]
    push_neg at h
    constructor
    · rintro ⟨h1, h2⟩
      push_cast at h1 h2
      linarith
    · rintro ⟨h1, h2⟩
      linarith

theorem truncToInt_eq_neg_one_iff (y : ℚ) : truncToInt y = -1 ↔ (-2 < y ∧ y ≤ -1) := by
  unfold truncToInt
  by_cases h : 0 ≤ y
  · rw [if_pos h, Int.floor_eq_iff]
    constructor
    · rintro ⟨h1, h2⟩
      push_cast at h1 h2
      linarith
    · rintro ⟨h1, h2⟩
      linarith
  · rw [if_neg h, Int.ceil_eq_iff]
    constructor
    · rintro ⟨h1, h2⟩
      push_cast at h1 h2
      exact ⟨by linarith, h2⟩
    · rintro ⟨h1, h2⟩
      push_cast
      exact ⟨by linarith, h2⟩

/-- C30. `scroll_callback` stores `SCROLL_UP` exactly when `(int)yoffset` is 1
(that is, `1 <= yoffset < 2`), `SCROLL_DOWN` exactly when it is -1
(`-2 < yoffset <= -1`) and 0 for every other offset, among them the offsets of
magnitude 2 or more and those of magnitude below 1; it changes no other member;
`GetMouseScroll()` returns the stored value, and the value stored for "none" is
the value of `Mouse::LEFT`.  (The conversion is exact truncation toward zero;
for offsets beyond the range of `int` C++ leaves it undefined.) -/
theorem scroll_callback_stores (yoffset : ℚ) (s : InputState) :
    ((scroll_callback yoffset s).m_mouseScroll = Mouse.SCROLL_UP.toInt ↔ truncToInt yoffset = 1) ∧
    ((scroll_callback yoffset s).m_mouseScroll = Mouse.SCROLL_DOWN.toInt
      ↔ truncToInt yoffset = -1) ∧
    ((scroll_callback yoffset s).m_mouseScroll = 0
      ↔ (truncToInt yoffset ≠ 1 ∧ truncToInt yoffset ≠ -1)) ∧
    (truncToInt yoffset = 1 ↔ (1 ≤ yoffset ∧ yoffset < 2)) ∧
    (truncToInt yoffset = -1 ↔ (-2 < yoffset ∧ yoffset ≤ -1)) ∧
    (2 ≤ |yoffset| → (scroll_callback yoffset s).m_mouseScroll = 0) ∧
    (|yoffset| < 1 → (scroll_callback yoffset s).m_mouseScroll = 0) ∧
    scroll_callback yoffset s = { s with m_mouseScroll := (scroll_callback yoffset s).m_mouseScroll } ∧
    GetMouseScroll (scroll_callback yoffset s) = (scroll_callback yoffset s).m_mouseScroll ∧
    ((scroll_callback yoffset s).m_mouseScroll = 0 →
      GetMouseScroll (scroll_callback yoffset s) = Mouse.LEFT.toInt) := by
  have hzero : (scroll_callback yoffset s).m_mouseScroll = 0
      ↔ (truncToInt yoffset ≠ 1 ∧ truncToInt yoffset ≠ -1) := by
    unfold scroll_callback
    split_ifs with h1 h2
    · simp [h1]
    · simp [h2]
    · simp [h1, h2]
  refine ⟨?_, ?_, hzero, truncToInt_eq_one_iff yoffset, truncToInt_eq_neg_one_iff yoffset,
    ?_, ?_, ?_, rfl, ?_⟩
  · unfold scroll_callback
    split_ifs with h1 h2
    · simp [h1, Mouse.toInt]
    · simp [h1, Mouse.toInt]
    · simp [h1, Mouse.toInt]
  · unfold scroll_callback
    split_ifs with h1 h2
    · simp [h1, Mouse.toInt]
    · simp [h2, Mouse.toInt]
    · simp [h2, Mouse.toInt]
  · intro habs
    rw [hzero, Ne, Ne, truncToInt_eq_one_iff, truncToInt_eq_neg_one_iff]
    rcases le_abs.mp habs with h | h
    · constructor
      · rintro ⟨-, h2⟩; linarith
      · rintro ⟨-, h2⟩; linarith
    · constructor
      · rintro ⟨h1, -⟩; linarith
      · rintro ⟨h1, -⟩; linarith
  · intro habs
    rw [hzero, Ne, Ne, truncToInt_eq_one_iff, truncToInt_eq_neg_one_iff]
    have h := abs_lt.mp habs
    constructor
    · rintro ⟨h1, -⟩; linarith [h.2]
    · rintro ⟨-, h2⟩; linarith [h.1]
  · unfold scroll_callback
    split_ifs <;> rfl
  · intro h0
    rw [show GetMouseScroll (scroll_callback yoffset s) = (scroll_callback yoffset s).m_mouseScroll
      from rfl, h0]
    rfl

/-- Witness for C30: offsets 1 and 3/2 store `SCROLL_UP`, offset -1 stores
`SCROLL_DOWN`, offsets 2 and 1/2 store 0. -/
theorem scroll_callback_stores_witness :
    (scroll_callback 1 clearedInput).m_mouseScroll = 3 ∧
    (scroll_callback (3 / 2) clearedInput).m_mouseScroll = 3 ∧
    (scroll_callback (-1) clearedInput).m_mouseScroll = 4 ∧
    (scroll_callback 2 clearedInput).m_mouseScroll = 0 ∧
    (scroll_callback (1 / 2) clearedInput).m_mouseScroll = 0 := by
  refine ⟨?_, ?_, ?_, ?_, ?_⟩
  · exact (scroll_callback_stores 1 clearedInput).1.2
      ((scroll_callback_stores 1 clearedInput).2.2.2.1.2 ⟨by norm_num, by norm_num⟩)
  · exact (scroll_callback_stores (3 / 2) clearedInput).1.2
      ((scroll_callback_stores (3 / 2) clearedInput).2.2.2.1.2 ⟨by norm_num, by norm_num⟩)
  · exact (scroll_callback_stores (-1) clearedInput).2.1.2
      ((scroll_callback_stores (-1) clearedInput).2.2.2.2.1.2 ⟨by norm_num, by norm_num⟩)
  · exact (scroll_callback_stores 2 clearedInput).2.2.2.2.2.1 (by norm_num)
  · exact (scroll_callback_stores (1 / 2) clearedInput).2.2.2.2.2.2.1
      (by rw [abs_of_pos (by norm_num)]; norm_num)

/-! ## Theorems: binary32 arithmetic -/

theorem roundHalfEven_of_near (t : ℚ) (m : Int) (h : |t - m| < 1 / 2) : roundHalfEven t = m := by
  have h1 := abs_lt.mp h
  have hf1 : (⌊t⌋ : ℚ) ≤ t := Int.floor_le t
  have hf2 : t < ⌊t⌋ + 1 := Int.lt_floor_add_one t
  have hm : m = ⌊t⌋ ∨ m = ⌊t⌋ + 1 := by
    have a1 : (m : ℚ) < ⌊t⌋ + 2 := by linarith [h1.1]
    have a2 : ((⌊t⌋ : Int) : ℚ) < m + 1 := by linarith [h1.2]
    have b1 : m < ⌊t⌋ + 2 := by exact_mod_cast a1
    have b2 : ⌊t⌋ < m + 1 := by exact_mod_cast a2
    omega
  unfold roundHalfEven
  rcases hm with hm | hm
  · have : t - ⌊t⌋ < 1 / 2 := by
      have := h1.2
      rw [hm] at this
      linarith
    rw [if_pos this, hm]
  · have hgt : 1 / 2 < t - ⌊t⌋ := by
      have := h1.1
      rw [hm] at this
      push_cast at this
      linarith
    rw [if_neg (by linarith), if_pos hgt, hm]

theorem roundHalfEven_intCast (n : Int) : roundHalfEven (n : ℚ) = n :=
  roundHalfEven_of_near _ n (by simp)

theorem abs_roundHalfEven_sub_le (t : ℚ) : |(roundHalfEven t : ℚ) - t| ≤ 1 / 2 := by
  have hf1 : (⌊t⌋ : ℚ) ≤ t := Int.floor_le t
  have hf2 : t < ⌊t⌋ + 1 := Int.lt_floor_add_one t
  unfold roundHalfEven
  split_ifs with h1 h2 h3
  · rw [abs_le]; constructor <;> linarith
  · rw [abs_le]; push_cast; constructor <;> linarith
  · rw [abs_le]; constructor <;> linarith
  · rw [abs_le]; push_cast; constructor <;> linarith

theorem two_zpow_pos (e : Int) : (0 : ℚ) < 2 ^ e := zpow_pos (by norm_num) e

theorem f32Exponent_of_binade (v : ℚ) (e : Int) (hlo : (2 : ℚ) ^ (e + 23) ≤ |v|)
    (hhi : |v| < (2 : ℚ) ^ (e + 24)) (he : -149 ≤ e) : f32Exponent v = e := by
  have hpos : 0 < |v| := lt_of_lt_of_le (two_zpow_pos _) hlo
  have h1 : e + 23 ≤ Int.log 2 |v| := by
    rw [← Int.zpow_le_iff_le_log (by norm_num) hpos]
    exact_mod_cast hlo
  have h2 : Int.log 2 |v| < e + 24 := by
    rw [← Int.lt_zpow_iff_log_lt (by norm_num) hpos]
    exact_mod_cast hhi
  unfold f32Exponent
  omega

/-- Evaluation of a rounding away from ties: `v` lies in the binade of exponent
`e` and strictly within half a unit in the last place of `m * 2 ^ e`. -/
theorem roundF32_of_near (v : ℚ) (m e : Int) (hlo : (2 : ℚ) ^ (e + 23) ≤ |v|)
    (hhi : |v| < (2 : ℚ) ^ (e + 24)) (he : -149 ≤ e)
    (hnear : |v - m * 2 ^ e| < 2 ^ e / 2) : roundF32 v = m * 2 ^ e := by
  have hexp := f32Exponent_of_binade v e hlo hhi he
  have hp := two_zpow_pos e
  unfold roundF32
  rw [hexp, roundHalfEven_of_near (v / 2 ^ e) m]
  have e1 : v / 2 ^ e - m = (v - m * 2 ^ e) / 2 ^ e := by
    field_simp
    ring
  rw [e1, abs_div, abs_of_pos hp, div_lt_iff₀ hp]
  linarith

theorem roundF32_zero : roundF32 0 = 0 := by
  simp [roundF32, roundHalfEven]

/-- Binary32 numbers are left alone: a 24-bit mantissa times a power of two of
exponent at least -149. -/
theorem roundF32_exact (m e : Int) (hm : |m| < 16777216) (he : -149 ≤ e) :
    roundF32 (m * 2 ^ e) = m * 2 ^ e := by
  by_cases hm0 : m = 0
  · simp [hm0, roundF32_zero]
  have hp := two_zpow_pos e
  have habs : |((m : ℚ) * 2 ^ e)| = |(m : ℚ)| * 2 ^ e := by
    rw [abs_mul, abs_of_pos hp]
  have hmq : |(m : ℚ)| < 16777216 := by
    have : ((|m| : Int) : ℚ) < ((16777216 : Int) : ℚ) := by exact_mod_cast hm
    simpa using this
  have hvpos : 0 < |((m : ℚ) * 2 ^ e)| := by
    rw [habs]
    exact mul_pos (abs_pos.mpr (by exact_mod_cast hm0)) hp
  have hlog : Int.log 2 |((m : ℚ) * 2 ^ e)| < e + 24 := by
    rw [← Int.lt_zpow_iff_log_lt (by norm_num) hvpos, habs]
    have e24 : ((2 : ℕ) : ℚ) ^ (e + 24) = 16777216 * 2 ^ e := by
      rw [zpow_add₀ (by norm_num)]
      norm_num
      ring
    rw [e24]
    exact mul_lt_mul_of_pos_right hmq hp
  have hk : f32Exponent ((m : ℚ) * 2 ^ e) ≤ e := by
    unfold f32Exponent
    omega
  obtain ⟨n, hn⟩ := Int.eq_ofNat_of_zero_le (by omega : 0 ≤ e - f32Exponent ((m : ℚ) * 2 ^ e))
  have hpk := two_zpow_pos (f32Exponent ((m : ℚ) * 2 ^ e))
  have hsplit : (2 : ℚ) ^ e = 2 ^ n * 2 ^ f32Exponent ((m : ℚ) * 2 ^ e) := by
    have : e = (n : Int) + f32Exponent ((m : ℚ) * 2 ^ e) := by omega
    conv_lhs => rw [this]
    rw [zpow_add₀ (by norm_num), zpow_natCast]
  have hdiv : (m : ℚ) * 2 ^ e / 2 ^ f32Exponent ((m : ℚ) * 2 ^ e) = ((m * 2 ^ n : Int) : ℚ) := by
    rw [div_eq_iff (ne_of_gt hpk)]
    conv_lhs => rw [hsplit]
    push_cast
    ring
  unfold roundF32
  rw [hdiv, roundHalfEven_intCast]
  conv_rhs => rw [hsplit]
  push_cast
  ring

theorem roundF32_intCast (n : Int) (hn : |n| < 16777216) : roundF32 (n : ℚ) = n := by
  have := roundF32_exact n 0 hn (by norm_num)
  simpa using this

/-- The standard error bound of a rounding: relative error at most `2 ^ -24`,
or absolute error at most `2 ^ -150` in the subnormal range. -/
theorem roundF32_error (v : ℚ) :
    |roundF32 v - v| ≤ |v| / 16777216 + 2 ^ (-150 : Int) := by
  by_cases hv : v = 0
  · rw [hv, roundF32_zero]
    simp
    positivity
  have hvpos : 0 < |v| := abs_pos.mpr hv
  have hp := two_zpow_pos (f32Exponent v)
  have hr := abs_roundHalfEven_sub_le (v / 2 ^ f32Exponent v)
  have herr : |roundF32 v - v| ≤ 2 ^ f32Exponent v / 2 := by
    unfold roundF32
    have e1 : (roundHalfEven (v / 2 ^ f32Exponent v) : ℚ) * 2 ^ f32Exponent v - v
        = ((roundHalfEven (v / 2 ^ f32Exponent v) : ℚ) - v / 2 ^ f32Exponent v)
            * 2 ^ f32Exponent v := by
      field_simp
    rw [e1, abs_mul, abs_of_pos hp]
    calc |(roundHalfEven (v / 2 ^ f32Exponent v) : ℚ) - v / 2 ^ f32Exponent v|
          * 2 ^ f32Exponent v
        ≤ 1 / 2 * 2 ^ f32Exponent v := mul_le_mul_of_nonneg_right hr (le_of_lt hp)
      _ = 2 ^ f32Exponent v / 2 := by ring
  have hbound : (2 : ℚ) ^ f32Exponent v / 2 ≤ |v| / 16777216 + 2 ^ (-150 : Int) := by
    by_cases hcase : -149 ≤ Int.log 2 |v| - 23
    · have hexp : f32Exponent v = Int.log 2 |v| - 23 := by
        unfold f32Exponent
        omega
      have hlog : ((2 : ℕ) : ℚ) ^ Int.log 2 |v| ≤ |v| := Int.zpow_log_le_self (by norm_num) hvpos
      have e2 : (2 : ℚ) ^ f32Exponent v = 2 ^ Int.log 2 |v| / 8388608 := by
        rw [hexp, zpow_sub₀ (by norm_num)]
        norm_num
      rw [e2]
      have h150 : (0 : ℚ) < 2 ^ (-150 : Int) := two_zpow_pos _
      have hlog2 : (2 : ℚ) ^ Int.log 2 |v| ≤ |v| := by exact_mod_cast hlog
      linarith
    · have hexp : f32Exponent v = -149 := by
        unfold f32Exponent
        omega
      rw [hexp]
      have e3 : (2 : ℚ) ^ (-149 : Int) / 2 = 2 ^ (-150 : Int) := by
        norm_num
      rw [e3]
      have : 0 ≤ |v| / 16777216 := by positivity
      linarith
  exact le_trans herr hbound
theorem roundF32_fifth : roundF32 (2 / 10) = 13421773 / 67108864 := by
  have h := roundF32_of_near (2 / 10) 13421773 (-26)
    (by rw [abs_of_pos (by norm_num)]; norm_num)
    (by rw [abs_of_pos (by norm_num)]; norm_num) (by norm_num)
    (by rw [abs_lt]; constructor <;> norm_num)
  rw [h]
  norm_num

/-- The update `base += 0.2f * delta` in binary32 (the difference `delta` being
a rounded result itself) stays within rounding distance of the exact
`base + 0.2 * delta`. -/
theorem scaledStep_error (b a : ℚ) :
    |roundF32 (b + roundF32 (roundF32 a * roundF32 (2 / 10))) - (b + 2 / 10 * a)|
      ≤ (|b| + |a|) / 16777216 + 2 ^ (-148 : Int) := by
  rw [roundF32_fifth]
  have E1 := roundF32_error a
  have E2 := roundF32_error (roundF32 a * (13421773 / 67108864))
  have E3 := roundF32_error (b + roundF32 (roundF32 a * (13421773 / 67108864)))
  have hη : (0 : ℚ) < 2 ^ (-150 : Int) := two_zpow_pos _
  have h148 : (2 : ℚ) ^ (-148 : Int) = 4 * 2 ^ (-150 : Int) := by norm_num
  rw [h148]
  generalize (2 : ℚ) ^ (-150 : Int) = η at *
  generalize ha1 : roundF32 a = a1 at *
  generalize hp : roundF32 (a1 * (13421773 / 67108864)) = p at *
  generalize hy : roundF32 (b + p) = y at *
  have hA : 0 ≤ |a| := abs_nonneg a
  have hB : 0 ≤ |b| := abs_nonneg b
  have ha1abs : |a1| ≤ |a| + |a1 - a| := by
    have := abs_add a (a1 - a)
    simpa using this
  have hp0abs : |a1 * (13421773 / 67108864)| = |a1| * (13421773 / 67108864) := by
    rw [abs_mul, abs_of_pos (by norm_num : (0 : ℚ) < 13421773 / 67108864)]
  have hpabs : |p| ≤ |a1 * (13421773 / 67108864)| + |p - a1 * (13421773 / 67108864)| := by
    have := abs_add (a1 * (13421773 / 67108864)) (p - a1 * (13421773 / 67108864))
    simpa using this
  have hy0abs : |b + p| ≤ |b| + |p| := abs_add b p
  rw [hp0abs] at E2 hpabs
  have e1 := abs_le.mp E1
  have e2 := abs_le.mp E2
  have e3 := abs_le.mp E3
  have a_lo := neg_abs_le a
  have a_hi := le_abs_self a
  have hE1nn : 0 ≤ |a1 - a| := abs_nonneg _
  have hE2nn : 0 ≤ |p - a1 * (13421773 / 67108864)| := abs_nonneg _
  rw [abs_le]
  constructor <;> linarith

/-! ## Theorems: mouse look in binary32 -/

theorem clamp_lipschitz (p q : ℚ) :
    |max (-89) (min 89 p) - max (-89) (min 89 q)| ≤ |p - q| := by
  have h1 := abs_max_sub_max_le_abs (min 89 p) (min 89 q) (-89 : ℚ)
  have h2 := abs_min_sub_min_le_max (89 : ℚ) p 89 q
  rw [max_comm (-89 : ℚ) (min 89 p), max_comm (-89 : ℚ) (min 89 q)]
  have h3 : max |(89 : ℚ) - 89| |p - q| = |p - q| := by
    simp
  rw [h3] at h2
  exact le_trans h1 h2

theorem roundF32_abs_le (v B : ℚ) (hB : 1 ≤ B) (h : |v| ≤ B) : |roundF32 v| ≤ 2 * B := by
  have E := roundF32_error v
  have hη : (2 : ℚ) ^ (-150 : Int) ≤ 1 / 2 := by norm_num
  have h1 : |roundF32 v| ≤ |v| + |roundF32 v - v| := by
    have := abs_add v (roundF32 v - v)
    simpa using this
  have h0 : 0 ≤ |v| := abs_nonneg v
  linarith

theorem f32Finite_of_le (v : ℚ) (h : |v| ≤ 2 ^ 120) : F32Finite v := by
  unfold F32Finite
  refine lt_of_le_of_lt h ?_
  norm_num

/-- With base and delta in range, no operation of the update
`base += 0.2f * delta` overflows. -/
theorem scaledStep_finite (b a : ℚ) (hb : |b| ≤ 2 ^ 100) (ha : |a| ≤ 2 ^ 101) :
    ∀ v ∈ scaledStepOperands b a, F32Finite v := by
  have h1 : |roundF32 a| ≤ 2 * 2 ^ 101 := roundF32_abs_le a (2 ^ 101) (by norm_num) ha
  have h2 : |roundF32 a * roundF32 (2 / 10)| ≤ 2 ^ 102 := by
    rw [roundF32_fifth, abs_mul, abs_of_pos (by norm_num : (0 : ℚ) < 13421773 / 67108864)]
    have h0 : 0 ≤ |roundF32 a| := abs_nonneg _
    linarith
  have h3 : |roundF32 (roundF32 a * roundF32 (2 / 10))| ≤ 2 * 2 ^ 102 :=
    roundF32_abs_le _ (2 ^ 102) (by norm_num) h2
  have h4 : |b + roundF32 (roundF32 a * roundF32 (2 / 10))| ≤ 2 ^ 100 + 2 * 2 ^ 102 :=
    le_trans (abs_add _ _) (add_le_add hb h3)
  intro v hv
  simp only [scaledStepOperands, List.mem_cons, List.mem_singleton, List.not_mem_nil,
    or_false] at hv
  rcases hv with hv | hv | hv
  · rw [hv]
    exact f32Finite_of_le _ (le_trans ha (by norm_num))
  · rw [hv]
    exact f32Finite_of_le _ (le_trans h2 (by norm_num))
  · rw [hv]
    exact f32Finite_of_le _ (le_trans h4 (by norm_num))

/-- Counterexample for C13: the camera of the demos (yaw -90, reference point
(400, 300)) and the sample (401, 300).  The claim gives yaw
`-90 + 0.2 * (401 - 400) = -449/5`; the `float` computation gives
`-5885133/65536`. -/
theorem processMouse_exact_yaw_counterexample :
    ((Camera.fresh ⟨0, 0, 3⟩ ⟨0, 0, -1⟩ ()).ProcessMouse32 stubGlm false 800 600 401 300).fYaw
      = -5885133 / 65536 ∧
    ((Camera.fresh ⟨0, 0, 3⟩ ⟨0, 0, -1⟩ ()).ProcessMouse32 stubGlm false 800 600 401 300).fYaw
      ≠ (Camera.fresh ⟨0, 0, 3⟩ ⟨0, 0, -1⟩ ()).fYaw
        + 2 / 10 * (401 - (Camera.fresh ⟨0, 0, 3⟩ ⟨0, 0, -1⟩ ()).fLastX) := by
  have h1 : roundF32 (401 - 400) = 1 := by
    have := roundF32_intCast 1 (by norm_num)
    norm_num at this ⊢
    exact this
  have h2 : roundF32 (1 * (13421773 / 67108864)) = 13421773 / 67108864 := by
    have := roundF32_exact 13421773 (-26) (by norm_num) (by norm_num)
    norm_num at this ⊢
    exact this
  have h3 : roundF32 (-90 + 13421773 / 67108864) = -5885133 / 65536 := by
    have h := roundF32_of_near (-90 + 13421773 / 67108864) (-11770266) (-17)
      (by rw [abs_of_neg (by norm_num)]; norm_num)
      (by rw [abs_of_neg (by norm_num)]; norm_num) (by norm_num)
      (by rw [abs_lt]; constructor <;> norm_num)
    rw [h]
    norm_num
  have hy : ((Camera.fresh ⟨0, 0, 3⟩ ⟨0, 0, -1⟩ ()).ProcessMouse32 stubGlm false 800 600 401
      300).fYaw = -5885133 / 65536 := by
    simp only [Camera.ProcessMouse32, Camera.fresh, Bool.false_eq_true, if_false,
      roundF32_fifth, h1, h2, h3]
  refine ⟨hy, ?_⟩
  rw [hy]
  simp only [Camera.fresh]
  norm_num

/-- C13 (amended). A `ProcessMouse` call with `bFirstMouse` cleared, for members
and samples of magnitude at most `2 ^ 100` and library cosines and sines of
magnitude at most 1: no `float` operation overflows; yaw becomes the `float`
result of `yaw + 0.2f * (x - lastX)` and pitch the `float` result of
`pitch + 0.2f * (lastY - y)` clamped to `[-89, 89]`, each operation rounded;
these differ from the exact `yaw + 0.2 * (x - lastX)` and
`clamp(pitch + 0.2 * (lastY - y))` by at most
`(|angle| + |delta|) * 2 ^ -24 + 2 ^ -148`; `(x, y)` becomes the reference
point, the position is unchanged, and the front vector is `glm::normalize` of
the direction `(cos yaw' cos pitch', sin pitch', sin yaw' cos pitch')` with its
products rounded. -/
theorem processMouse32_orientation {Mat4 : Type} (g : Glm Mat4) (c : Camera Mat4)
    (w h : Int) (x y : ℚ)
    (hyaw : |c.fYaw| ≤ 2 ^ 100) (hpitch : |c.fPitch| ≤ 2 ^ 100)
    (hlastX : |c.fLastX| ≤ 2 ^ 100) (hlastY : |c.fLastY| ≤ 2 ^ 100)
    (hx : |x| ≤ 2 ^ 100) (hy : |y| ≤ 2 ^ 100)
    (hcos : ∀ a, |g.cosf a| ≤ 1) (hsin : ∀ a, |g.sinf a| ≤ 1) :
    (∀ v ∈ scaledStepOperands c.fYaw (x - c.fLastX), F32Finite v) ∧
    (∀ v ∈ scaledStepOperands c.fPitch (c.fLastY - y), F32Finite v) ∧
    (c.ProcessMouse32 g false w h x y).fYaw
      = roundF32 (c.fYaw + roundF32 (roundF32 (x - c.fLastX) * roundF32 (2 / 10))) ∧
    |(c.ProcessMouse32 g false w h x y).fYaw - (c.fYaw + 2 / 10 * (x - c.fLastX))|
      ≤ (|c.fYaw| + |x - c.fLastX|) / 16777216 + 2 ^ (-148 : Int) ∧
    (c.ProcessMouse32 g false w h x y).fPitch
      = max (-89) (min 89
          (roundF32 (c.fPitch + roundF32 (roundF32 (c.fLastY - y) * roundF32 (2 / 10))))) ∧
    |(c.ProcessMouse32 g false w h x y).fPitch
        - max (-89) (min 89 (c.fPitch + 2 / 10 * (c.fLastY - y)))|
      ≤ (|c.fPitch| + |c.fLastY - y|) / 16777216 + 2 ^ (-148 : Int) ∧
    (c.ProcessMouse32 g false w h x y).fLastX = x ∧
    (c.ProcessMouse32 g false w h x y).fLastY = y ∧
    (c.ProcessMouse32 g false w h x y).vCameraPos = c.vCameraPos ∧
    (c.ProcessMouse32 g false w h x y).vCameraFront
      = g.normalize (g.direction32 (c.ProcessMouse32 g false w h x y).fYaw
          (c.ProcessMouse32 g false w h x y).fPitch) ∧
    (∀ a b, F32Finite (g.cosf a * g.cosf b) ∧ F32Finite (g.sinf a * g.cosf b)) := by
  have hyaw2 : (c.ProcessMouse32 g false w h x y).fYaw
      = roundF32 (c.fYaw + roundF32 (roundF32 (x - c.fLastX) * roundF32 (2 / 10))) := rfl
  have hpitch2 : (c.ProcessMouse32 g false w h x y).fPitch
      = max (-89) (min 89
          (roundF32 (c.fPitch + roundF32 (roundF32 (c.fLastY - y) * roundF32 (2 / 10))))) := by
    simp only [Camera.ProcessMouse32, Bool.false_eq_true, if_false]
    rw [clamp_eq_max_min]
  have hdx : |x - c.fLastX| ≤ 2 ^ 101 := by
    have := abs_sub x c.fLastX
    linarith
  have hdy : |c.fLastY - y| ≤ 2 ^ 101 := by
    have := abs_sub c.fLastY y
    linarith
  have hprod : ∀ p q : ℚ, |p| ≤ 1 → |q| ≤ 1 → F32Finite (p * q) := by
    intro p q hp hq
    apply f32Finite_of_le
    rw [abs_mul]
    have := mul_le_mul hp hq (abs_nonneg q) (by norm_num : (0 : ℚ) ≤ 1)
    refine le_trans this (by norm_num)
  refine ⟨scaledStep_finite _ _ hyaw hdx, scaledStep_finite _ _ hpitch hdy, hyaw2, ?_, hpitch2,
    ?_, rfl, rfl, rfl, rfl, fun a b => ⟨hprod _ _ (hcos a) (hcos b), hprod _ _ (hsin a) (hcos b)⟩⟩
  · rw [hyaw2]
    exact scaledStep_error c.fYaw (x - c.fLastX)
  · rw [hpitch2]
    exact le_trans (clamp_lipschitz _ _) (scaledStep_error c.fPitch (c.fLastY - y))

/-- Witness for C13 (amended): the camera of the demos and the sample
(401, 300): yaw `-5885133/65536`, within `2 ^ -17` of `-449/5`, pitch 0. -/
theorem processMouse32_orientation_witness :
    ((Camera.fresh ⟨0, 0, 3⟩ ⟨0, 0, -1⟩ ()).ProcessMouse32 stubGlm false 800 600 401 300).fYaw
      = roundF32 (-90 + roundF32 (roundF32 (401 - 400) * roundF32 (2 / 10))) ∧
    |((Camera.fresh ⟨0, 0, 3⟩ ⟨0, 0, -1⟩ ()).ProcessMouse32 stubGlm false 800 600 401 300).fYaw
        - (-449 / 5)| ≤ 1 / 131072 := by
  have h := processMouse32_orientation stubGlm (Camera.fresh ⟨0, 0, 3⟩ ⟨0, 0, -1⟩ ()) 800 600 401 300
    (by simp only [Camera.fresh]; rw [abs_le]; constructor <;> norm_num)
    (by simp only [Camera.fresh]; rw [abs_le]; constructor <;> norm_num)
    (by simp only [Camera.fresh]; rw [abs_le]; constructor <;> norm_num)
    (by simp only [Camera.fresh]; rw [abs_le]; constructor <;> norm_num)
    (by rw [abs_le]; constructor <;> norm_num)
    (by rw [abs_le]; constructor <;> norm_num)
    (by intro a; simp [stubGlm])
    (by intro a; simp [stubGlm])
  refine ⟨h.2.2.1, ?_⟩
  have h2 := h.2.2.2.1
  simp only [Camera.fresh] at h2
  have e : (-90 : ℚ) + 2 / 10 * (401 - 400) = -449 / 5 := by norm_num
  rw [e] at h2
  refine le_trans h2 ?_
  rw [abs_of_neg (by norm_num : (-90 : ℚ) < 0), abs_of_pos (by norm_num : (0 : ℚ) < 401 - 400)]
  norm_num

/-- The `float` value of `ScreenWidth() / 2.0f` is the exact half for every
window size below `2 ^ 24`. -/
theorem roundF32_half_intCast (w : Int) (hw : |w| < 16777216) :
    roundF32 (roundF32 (w : ℚ) / 2) = (w : ℚ) / 2 := by
  rw [roundF32_intCast w hw]
  have h := roundF32_exact w (-1) hw (by norm_num)
  have e : (w : ℚ) * 2 ^ (-1 : Int) = (w : ℚ) / 2 := by
    norm_num
    ring
  rw [e] at h
  exact h

/-- C6 (amended). If `ProcessMouse` is called with any sample while `bFirstMouse`
is set and then with sample `(x2, y2)` after the flag was cleared (window sizes
below `2 ^ 24`, members and samples of magnitude at most `2 ^ 100`), the second
call changes the orientation in proportion to the delta between the second
sample and the window centre `(W/2, H/2)`, whatever the first sample: no
`float` operation overflows, yaw becomes the `float` result of
`yaw + 0.2f * (x2 - W/2)` and pitch the `float` result of
`pitch + 0.2f * (H/2 - y2)` clamped to `[-89, 89]`, which differ from the exact
`yaw + 0.2 * (x2 - W/2)` and `clamp(pitch + 0.2 * (H/2 - y2))` by at most
`(|angle| + |delta|) * 2 ^ -24 + 2 ^ -148`. -/
theorem processMouse32_second_delta_from_centre {Mat4 : Type} (g : Glm Mat4) (c : Camera Mat4)
    (w h : Int) (x1 y1 x2 y2 : ℚ) (hw : |w| < 16777216) (hh : |h| < 16777216)
    (hyaw : |c.fYaw| ≤ 2 ^ 100) (hpitch : |c.fPitch| ≤ 2 ^ 100)
    (hx : |x2| ≤ 2 ^ 100) (hy : |y2| ≤ 2 ^ 100) :
    (∀ v ∈ scaledStepOperands c.fYaw (x2 - (w : ℚ) / 2), F32Finite v) ∧
    (∀ v ∈ scaledStepOperands c.fPitch ((h : ℚ) / 2 - y2), F32Finite v) ∧
    ((c.ProcessMouse32 g true w h x1 y1).ProcessMouse32 g false w h x2 y2).fYaw
      = roundF32 (c.fYaw + roundF32 (roundF32 (x2 - (w : ℚ) / 2) * roundF32 (2 / 10))) ∧
    |((c.ProcessMouse32 g true w h x1 y1).ProcessMouse32 g false w h x2 y2).fYaw
        - (c.fYaw + 2 / 10 * (x2 - (w : ℚ) / 2))|
      ≤ (|c.fYaw| + |x2 - (w : ℚ) / 2|) / 16777216 + 2 ^ (-148 : Int) ∧
    ((c.ProcessMouse32 g true w h x1 y1).ProcessMouse32 g false w h x2 y2).fPitch
      = max (-89) (min 89
          (roundF32 (c.fPitch + roundF32 (roundF32 ((h : ℚ) / 2 - y2) * roundF32 (2 / 10))))) ∧
    |((c.ProcessMouse32 g true w h x1 y1).ProcessMouse32 g false w h x2 y2).fPitch
        - max (-89) (min 89 (c.fPitch + 2 / 10 * ((h : ℚ) / 2 - y2)))|
      ≤ (|c.fPitch| + |(h : ℚ) / 2 - y2|) / 16777216 + 2 ^ (-148 : Int) := by
  have hyaw2 : ((c.ProcessMouse32 g true w h x1 y1).ProcessMouse32 g false w h x2 y2).fYaw
      = roundF32 (c.fYaw + roundF32 (roundF32 (x2 - (w : ℚ) / 2) * roundF32 (2 / 10))) := by
    simp only [Camera.ProcessMouse32, Bool.false_eq_true, if_false, if_true,
      roundF32_half_intCast w hw]
  have hpitch2 : ((c.ProcessMouse32 g true w h x1 y1).ProcessMouse32 g false w h x2 y2).fPitch
      = max (-89) (min 89
          (roundF32 (c.fPitch + roundF32 (roundF32 ((h : ℚ) / 2 - y2) * roundF32 (2 / 10))))) := by
    simp only [Camera.ProcessMouse32, Bool.false_eq_true, if_false, if_true,
      roundF32_half_intCast h hh]
    rw [clamp_eq_max_min]
  have hwq : |(w : ℚ) / 2| ≤ 2 ^ 100 := by
    have h1 : |(w : ℚ)| < 16777216 := by
      have : ((|w| : Int) : ℚ) < ((16777216 : Int) : ℚ) := by exact_mod_cast hw
      simpa using this
    rw [abs_div, abs_of_pos (by norm_num : (0 : ℚ) < 2)]
    have h0 : 0 ≤ |(w : ℚ)| := abs_nonneg _
    norm_num
    linarith
  have hhq : |(h : ℚ) / 2| ≤ 2 ^ 100 := by
    have h1 : |(h : ℚ)| < 16777216 := by
      have : ((|h| : Int) : ℚ) < ((16777216 : Int) : ℚ) := by exact_mod_cast hh
      simpa using this
    rw [abs_div, abs_of_pos (by norm_num : (0 : ℚ) < 2)]
    have h0 : 0 ≤ |(h : ℚ)| := abs_nonneg _
    norm_num
    linarith
  have hdx : |x2 - (w : ℚ) / 2| ≤ 2 ^ 101 := by
    have := abs_sub x2 ((w : ℚ) / 2)
    linarith
  have hdy : |(h : ℚ) / 2 - y2| ≤ 2 ^ 101 := by
    have := abs_sub ((h : ℚ) / 2) y2
    linarith
  refine ⟨scaledStep_finite _ _ hyaw hdx, scaledStep_finite _ _ hpitch hdy, hyaw2, ?_, hpitch2,
    ?_⟩
  · rw [hyaw2]
    exact scaledStep_error c.fYaw (x2 - (w : ℚ) / 2)
  · rw [hpitch2]
    exact le_trans (clamp_lipschitz _ _) (scaledStep_error c.fPitch ((h : ℚ) / 2 - y2))

/-- Witness for C6 (amended): an 800 x 600 window, first sample (0, 0), second
sample (10, 0): the yaw goes from -90 to -168, a change of
`0.2 * (10 - 400) = -78`. -/
theorem processMouse32_second_delta_from_centre_witness :
    (((Camera.fresh ⟨0, 0, 3⟩ ⟨0, 0, -1⟩ ()).ProcessMouse32 stubGlm true 800 600 0 0).ProcessMouse32
        stubGlm false 800 600 10 0).fYaw = -168 := by
  have h := (processMouse32_second_delta_from_centre stubGlm
    (Camera.fresh ⟨0, 0, 3⟩ ⟨0, 0, -1⟩ ()) 800 600 0 0 10 0 (by norm_num) (by norm_num)
    (by simp only [Camera.fresh]; rw [abs_le]; constructor <;> norm_num)
    (by simp only [Camera.fresh]; rw [abs_le]; constructor <;> norm_num)
    (by rw [abs_le]; constructor <;> norm_num)
    (by rw [abs_le]; constructor <;> norm_num)).2.2.1
  have h1 : roundF32 (10 - ((800 : Int) : ℚ) / 2) = -390 := by
    have := roundF32_intCast (-390) (by norm_num)
    norm_num at this ⊢
    exact this
  have h2 : roundF32 (-390 * (13421773 / 67108864)) = -78 := by
    have h := roundF32_of_near (-390 * (13421773 / 67108864)) (-10223616) (-17)
      (by rw [abs_of_neg (by norm_num)]; norm_num)
      (by rw [abs_of_neg (by norm_num)]; norm_num) (by norm_num)
      (by rw [abs_lt]; constructor <;> norm_num)
    rw [h]
    norm_num
  have h3 : roundF32 (-90 + -78) = -168 := by
    have := roundF32_intCast (-168) (by norm_num)
    norm_num at this ⊢
    exact this
  rw [h]
  simp only [Camera.fresh, h1, roundF32_fifth, h2, h3]

/-! ## Theorems: keyboard movement in binary32 -/

/-- Adding and then subtracting the same `float` restores a value only up to
two roundings. -/
theorem roundTrip_error (x t : ℚ) :
    |roundF32 (roundF32 (x + t) - t) - x| ≤ (|x| + |t|) / 4194304 + 2 ^ (-148 : Int) := by
  have E1 := roundF32_error (x + t)
  have E2 := roundF32_error (roundF32 (x + t) - t)
  have hη : (0 : ℚ) < 2 ^ (-150 : Int) := two_zpow_pos _
  have h148 : (2 : ℚ) ^ (-148 : Int) = 4 * 2 ^ (-150 : Int) := by norm_num
  rw [h148]
  generalize (2 : ℚ) ^ (-150 : Int) = η at *
  generalize roundF32 (x + t) = x1 at *
  generalize roundF32 (x1 - t) = x2 at *
  have h1 : |x + t| ≤ |x| + |t| := abs_add x t
  have h2 : |x1 - t| ≤ |x1 - (x + t)| + |x| := by
    have := abs_add (x1 - (x + t)) x
    have e : x1 - (x + t) + x = x1 - t := by ring
    rw [e] at this
    exact this
  have e1 := abs_le.mp E1
  have e2 := abs_le.mp E2
  have hx : 0 ≤ |x| := abs_nonneg x
  have ht : 0 ≤ |t| := abs_nonneg t
  have hE1 : 0 ≤ |x1 - (x + t)| := abs_nonneg _
  rw [abs_le]
  constructor <;> linarith

/-- Counterexample for C14: a camera at `x = 0.1f` looking along the x axis, speed
5, `dt = 0.0625`.  FORWARD moves it to `13841203/33554432`, the following
BACKWARD to `3355443/33554432`, which is not the `13421773/134217728` it
started from. -/
theorem processKeyboard_round_trip_counterexample :
    (tenthCamera.ProcessKeyboard32 stubGlm CameraMovement.FORWARD (1 / 16)).vCameraPos.x
      = 13841203 / 33554432 ∧
    ((tenthCamera.ProcessKeyboard32 stubGlm CameraMovement.FORWARD (1 / 16)).ProcessKeyboard32
        stubGlm CameraMovement.BACKWARD (1 / 16)).vCameraPos.x = 3355443 / 33554432 ∧
    ((tenthCamera.ProcessKeyboard32 stubGlm CameraMovement.FORWARD (1 / 16)).ProcessKeyboard32
        stubGlm CameraMovement.BACKWARD (1 / 16)).vCameraPos.x ≠ tenthCamera.vCameraPos.x := by
  have h1 : roundF32 (5 * (1 / 16)) = 5 / 16 := by
    have := roundF32_exact 5 (-4) (by norm_num) (by norm_num)
    norm_num at this ⊢
    exact this
  have h2 : roundF32 (1 * (5 / 16)) = 5 / 16 := by
    have := roundF32_exact 5 (-4) (by norm_num) (by norm_num)
    norm_num at this ⊢
    exact this
  have h3 : roundF32 (13421773 / 134217728 + 5 / 16) = 13841203 / 33554432 := by
    have h := roundF32_of_near (13421773 / 134217728 + 5 / 16) 13841203 (-25)
      (by rw [abs_of_pos (by norm_num)]; norm_num)
      (by rw [abs_of_pos (by norm_num)]; norm_num) (by norm_num)
      (by rw [abs_lt]; constructor <;> norm_num)
    rw [h]
    norm_num
  have h4 : roundF32 (13841203 / 33554432 - 5 / 16) = 3355443 / 33554432 := by
    have := roundF32_exact 3355443 (-25) (by norm_num) (by norm_num)
    norm_num at this ⊢
    exact this
  have hf : (tenthCamera.ProcessKeyboard32 stubGlm CameraMovement.FORWARD (1 / 16)).vCameraPos.x
      = 13841203 / 33554432 := by
    simp only [Camera.ProcessKeyboard32, tenthCamera, Camera.fresh, Vec3.add32, Vec3.scale32,
      h1, h2, h3]
  have hb : ((tenthCamera.ProcessKeyboard32 stubGlm CameraMovement.FORWARD
      (1 / 16)).ProcessKeyboard32 stubGlm CameraMovement.BACKWARD (1 / 16)).vCameraPos.x
      = 3355443 / 33554432 := by
    simp only [Camera.ProcessKeyboard32, tenthCamera, Camera.fresh, Vec3.add32, Vec3.sub32,
      Vec3.scale32, h1, h2, h3, h4]
  refine ⟨hf, hb, ?_⟩
  rw [hb]
  simp only [tenthCamera, Camera.fresh]
  norm_num

theorem within_mono (v : Vec3) (B C : ℚ) (h : v.Within B) (hBC : B ≤ C) : v.Within C :=
  ⟨le_trans h.1 hBC, le_trans h.2.1 hBC, le_trans h.2.2 hBC⟩

theorem scale_finite (v : Vec3) (d : ℚ) (hv : v.Within (2 ^ 40)) (hd : |d| ≤ 2 ^ 61) :
    (v.scale d).Finite32 ∧ (v.scale32 d).Within (2 ^ 102) := by
  have hprod : ∀ p : ℚ, |p| ≤ 2 ^ 40 → |p * d| ≤ 2 ^ 101 := by
    intro p hp
    rw [abs_mul]
    have := mul_le_mul hp hd (abs_nonneg d) (by norm_num : (0 : ℚ) ≤ 2 ^ 40)
    refine le_trans this (by norm_num)
  have hfin : ∀ p : ℚ, |p| ≤ 2 ^ 40 → F32Finite (p * d) := fun p hp =>
    f32Finite_of_le _ (le_trans (hprod p hp) (by norm_num))
  have hrnd : ∀ p : ℚ, |p| ≤ 2 ^ 40 → |roundF32 (p * d)| ≤ 2 ^ 102 := by
    intro p hp
    have := roundF32_abs_le (p * d) (2 ^ 101) (by norm_num) (hprod p hp)
    refine le_trans this (by norm_num)
  exact ⟨⟨hfin _ hv.1, hfin _ hv.2.1, hfin _ hv.2.2⟩, ⟨hrnd _ hv.1, hrnd _ hv.2.1, hrnd _ hv.2.2⟩⟩

theorem add_finite (p t : Vec3) (P T : ℚ) (hP : 1 ≤ P) (hT : 0 ≤ T) (hPT : P + T ≤ 2 ^ 119)
    (hp : p.Within P) (ht : t.Within T) :
    (p.add t).Finite32 ∧ (p.sub t).Finite32 ∧ (p.add32 t).Within (2 * (P + T)) ∧
    (p.sub32 t).Within (2 * (P + T)) := by
  have hadd : ∀ a b : ℚ, |a| ≤ P → |b| ≤ T → |a + b| ≤ P + T := fun a b ha hb =>
    le_trans (abs_add a b) (add_le_add ha hb)
  have hsub : ∀ a b : ℚ, |a| ≤ P → |b| ≤ T → |a - b| ≤ P + T := fun a b ha hb =>
    le_trans (abs_sub a b) (add_le_add ha hb)
  have hfin : ∀ v : ℚ, |v| ≤ P + T → F32Finite v := fun v hv =>
    f32Finite_of_le v (le_trans hv (le_trans hPT (by norm_num)))
  have hrnd : ∀ v : ℚ, |v| ≤ P + T → |roundF32 v| ≤ 2 * (P + T) := fun v hv =>
    roundF32_abs_le v (P + T) (by linarith) hv
  refine ⟨⟨hfin _ (hadd _ _ hp.1 ht.1), hfin _ (hadd _ _ hp.2.1 ht.2.1),
      hfin _ (hadd _ _ hp.2.2 ht.2.2)⟩,
    ⟨hfin _ (hsub _ _ hp.1 ht.1), hfin _ (hsub _ _ hp.2.1 ht.2.1),
      hfin _ (hsub _ _ hp.2.2 ht.2.2)⟩,
    ⟨hrnd _ (hadd _ _ hp.1 ht.1), hrnd _ (hadd _ _ hp.2.1 ht.2.1),
      hrnd _ (hadd _ _ hp.2.2 ht.2.2)⟩,
    ⟨hrnd _ (hsub _ _ hp.1 ht.1), hrnd _ (hsub _ _ hp.2.1 ht.2.1),
      hrnd _ (hsub _ _ hp.2.2 ht.2.2)⟩⟩

/-- C14 (amended). `ProcessKeyboard` in `float` arithmetic, for speed and `dt` of
magnitude at most `2 ^ 30`, position components at most `2 ^ 100`, front and up
components at most `2 ^ 40` and a normalised cross product with components at
most 1:
no operation of the displacement overflows; with `d` the `float` product
`fCameraSpeed * dt` and `t` the `float` product `axis * d`, the position becomes
the `float` sum `position + t` for FORWARD (axis front), RIGHT (axis
`normalize(front x up)`) and UP (axis up) and the `float` difference
`position - t` for BACKWARD, LEFT and DOWN; front, up, yaw, pitch and the speed
are unchanged and the view matrix is `lookAt(position', position' + front, up)`;
FORWARD followed by BACKWARD with the same `dt` brings every coordinate back to
within `(|coordinate| + |t|) * 2 ^ -22 + 2 ^ -148` of its start. -/
theorem processKeyboard32_moves {Mat4 : Type} (g : Glm Mat4) (c : Camera Mat4)
    (movement : CameraMovement) (dt : ℚ)
    (hspeed : |c.fCameraSpeed| ≤ 2 ^ 30) (hdt : |dt| ≤ 2 ^ 30)
    (hpos : c.vCameraPos.Within (2 ^ 100)) (hfront : c.vCameraFront.Within (2 ^ 40))
    (hup : c.vCameraUp.Within (2 ^ 40))
    (hnorm : (g.normalize (c.vCameraFront.cross32 c.vCameraUp)).Within 1) :
    F32Finite (c.fCameraSpeed * dt) ∧
    ((moveAxis32 g c movement).scale (roundF32 (c.fCameraSpeed * dt))).Finite32 ∧
    (c.vCameraPos.add
      ((moveAxis32 g c movement).scale32 (roundF32 (c.fCameraSpeed * dt)))).Finite32 ∧
    (c.vCameraPos.sub
      ((moveAxis32 g c movement).scale32 (roundF32 (c.fCameraSpeed * dt)))).Finite32 ∧
    ((c.ProcessKeyboard32 g movement dt).vCameraPos.add c.vCameraFront).Finite32 ∧
    (c.ProcessKeyboard32 g movement dt).vCameraPos
      = (if movement.adds = true then
          c.vCameraPos.add32
            ((moveAxis32 g c movement).scale32 (roundF32 (c.fCameraSpeed * dt)))
         else
          c.vCameraPos.sub32
            ((moveAxis32 g c movement).scale32 (roundF32 (c.fCameraSpeed * dt)))) ∧
    (c.ProcessKeyboard32 g movement dt).matView
      = g.lookAt (c.ProcessKeyboard32 g movement dt).vCameraPos
          ((c.ProcessKeyboard32 g movement dt).vCameraPos.add32 c.vCameraFront) c.vCameraUp ∧
    (c.ProcessKeyboard32 g movement dt).vCameraFront = c.vCameraFront ∧
    (c.ProcessKeyboard32 g movement dt).vCameraUp = c.vCameraUp ∧
    (c.ProcessKeyboard32 g movement dt).fYaw = c.fYaw ∧
    (c.ProcessKeyboard32 g movement dt).fPitch = c.fPitch ∧
    (c.ProcessKeyboard32 g movement dt).fCameraSpeed = c.fCameraSpeed ∧
    |((c.ProcessKeyboard32 g CameraMovement.FORWARD dt).ProcessKeyboard32 g
        CameraMovement.BACKWARD dt).vCameraPos.x - c.vCameraPos.x|
      ≤ (|c.vCameraPos.x| + |roundF32 (c.vCameraFront.x * roundF32 (c.fCameraSpeed * dt))|)
          / 4194304 + 2 ^ (-148 : Int) ∧
    |((c.ProcessKeyboard32 g CameraMovement.FORWARD dt).ProcessKeyboard32 g
        CameraMovement.BACKWARD dt).vCameraPos.y - c.vCameraPos.y|
      ≤ (|c.vCameraPos.y| + |roundF32 (c.vCameraFront.y * roundF32 (c.fCameraSpeed * dt))|)
          / 4194304 + 2 ^ (-148 : Int) ∧
    |((c.ProcessKeyboard32 g CameraMovement.FORWARD dt).ProcessKeyboard32 g
        CameraMovement.BACKWARD dt).vCameraPos.z - c.vCameraPos.z|
      ≤ (|c.vCameraPos.z| + |roundF32 (c.vCameraFront.z * roundF32 (c.fCameraSpeed * dt))|)
          / 4194304 + 2 ^ (-148 : Int) := by
  have hsd : |c.fCameraSpeed * dt| ≤ 2 ^ 60 := by
    rw [abs_mul]
    have := mul_le_mul hspeed hdt (abs_nonneg dt) (by norm_num : (0 : ℚ) ≤ 2 ^ 30)
    refine le_trans this (by norm_num)
  have hd : |roundF32 (c.fCameraSpeed * dt)| ≤ 2 ^ 61 := by
    have := roundF32_abs_le _ (2 ^ 60) (by norm_num) hsd
    refine le_trans this (by norm_num)
  have haxis : (moveAxis32 g c movement).Within (2 ^ 40) := by
    cases movement
    · exact hfront
    · exact hfront
    · exact within_mono _ _ _ hnorm (by norm_num)
    · exact within_mono _ _ _ hnorm (by norm_num)
    · exact hup
    · exact hup
  obtain ⟨hs1, hs2⟩ := scale_finite (moveAxis32 g c movement) _ haxis hd
  obtain ⟨ha1, ha2, ha3, ha4⟩ := add_finite c.vCameraPos
    ((moveAxis32 g c movement).scale32 (roundF32 (c.fCameraSpeed * dt))) (2 ^ 100) (2 ^ 102)
    (by norm_num) (by norm_num) (by norm_num) hpos hs2
  have hposEq : (c.ProcessKeyboard32 g movement dt).vCameraPos
      = (if movement.adds = true then
          c.vCameraPos.add32
            ((moveAxis32 g c movement).scale32 (roundF32 (c.fCameraSpeed * dt)))
         else
          c.vCameraPos.sub32
            ((moveAxis32 g c movement).scale32 (roundF32 (c.fCameraSpeed * dt)))) := by
    cases movement <;> rfl
  have hnew : (c.ProcessKeyboard32 g movement dt).vCameraPos.Within (2 ^ 104) := by
    rw [hposEq]
    split_ifs
    · exact within_mono _ _ _ ha3 (by norm_num)
    · exact within_mono _ _ _ ha4 (by norm_num)
  obtain ⟨hv1, -, -, -⟩ := add_finite (c.ProcessKeyboard32 g movement dt).vCameraPos
    c.vCameraFront (2 ^ 104) (2 ^ 40) (by norm_num) (by norm_num) (by norm_num) hnew hfront
  refine ⟨f32Finite_of_le _ (le_trans hsd (by norm_num)), hs1, ha1, ha2, hv1, hposEq, rfl, rfl,
    rfl, rfl, rfl, rfl, ?_, ?_, ?_⟩
  · exact roundTrip_error c.vCameraPos.x
      (roundF32 (c.vCameraFront.x * roundF32 (c.fCameraSpeed * dt)))
  · exact roundTrip_error c.vCameraPos.y
      (roundF32 (c.vCameraFront.y * roundF32 (c.fCameraSpeed * dt)))
  · exact roundTrip_error c.vCameraPos.z
      (roundF32 (c.vCameraFront.z * roundF32 (c.fCameraSpeed * dt)))

/-- Witness for C14 (amended): the camera at `x = 0.1f`, speed 5, `dt = 0.0625`:
FORWARD then BACKWARD ends within `2 ^ -23` of the start. -/
theorem processKeyboard32_moves_witness :
    |((tenthCamera.ProcessKeyboard32 stubGlm CameraMovement.FORWARD (1 / 16)).ProcessKeyboard32
        stubGlm CameraMovement.BACKWARD (1 / 16)).vCameraPos.x - 13421773 / 134217728|
      ≤ 1 / 8388608 := by
  have h1 : roundF32 (5 * (1 / 16)) = 5 / 16 := by
    have := roundF32_exact 5 (-4) (by norm_num) (by norm_num)
    norm_num at this ⊢
    exact this
  have h2 : roundF32 (1 * (5 / 16)) = 5 / 16 := by
    have := roundF32_exact 5 (-4) (by norm_num) (by norm_num)
    norm_num at this ⊢
    exact this
  have hone : roundF32 1 = 1 := by
    have := roundF32_intCast 1 (by norm_num)
    norm_num at this ⊢
    exact this
  have hcross : stubGlm.normalize (tenthCamera.vCameraFront.cross32 tenthCamera.vCameraUp)
      = ⟨0, 0, 1⟩ := by
    simp [stubGlm, tenthCamera, Camera.fresh, Vec3.cross32, roundF32_zero, hone]
  have h := (processKeyboard32_moves stubGlm tenthCamera CameraMovement.FORWARD (1 / 16)
    (by simp only [tenthCamera, Camera.fresh]; rw [abs_le]; constructor <;> norm_num)
    (by rw [abs_le]; constructor <;> norm_num)
    (by simp only [tenthCamera, Camera.fresh, Vec3.Within]
        refine ⟨?_, ?_, ?_⟩ <;> (rw [abs_le]; constructor <;> norm_num))
    (by simp only [tenthCamera, Camera.fresh, Vec3.Within]
        refine ⟨?_, ?_, ?_⟩ <;> (rw [abs_le]; constructor <;> norm_num))
    (by simp only [tenthCamera, Camera.fresh, Vec3.Within]
        refine ⟨?_, ?_, ?_⟩ <;> (rw [abs_le]; constructor <;> norm_num))
    (by rw [hcross]
        simp only [Vec3.Within]
        refine ⟨?_, ?_, ?_⟩ <;> (rw [abs_le]; constructor <;> norm_num))).2.2.2.2.2.2.2.2.2.2.2.2.1
  simp only [tenthCamera, Camera.fresh, h1, h2] at h
  refine le_trans h ?_
  rw [abs_of_pos (by norm_num : (0 : ℚ) < 13421773 / 134217728),
    abs_of_pos (by norm_num : (0 : ℚ) < 5 / 16)]
  norm_num

/-! ## Theorems: frame statistics in binary32 -/

theorem keyBody_scroll (poll : Nat → Bool) (s : InputState) (i : Nat) :
    (keyBody poll s i).m_mouseScroll = s.m_mouseScroll := by
  unfold keyBody
  simp only
  split_ifs <;> rfl

theorem mouseBody_scroll (latch : Nat → Bool) (s : InputState) (i : Nat) :
    (mouseBody latch s i).m_mouseScroll = s.m_mouseScroll := by
  unfold mouseBody
  simp only
  split_ifs <;> rfl

theorem inputPass_scroll (f : FrameInput) (s : InputState) :
    (inputPass f s).m_mouseScroll = s.m_mouseScroll := by
  have hk : ∀ (l : List Nat) (t : InputState),
      (l.foldl (keyBody f.glfwGetKey) t).m_mouseScroll = t.m_mouseScroll := by
    intro l
    induction l with
    | nil => intro t; rfl
    | cons i rest ih => intro t; rw [List.foldl_cons, ih, keyBody_scroll]
  have hm : ∀ (l : List Nat) (t : InputState),
      (l.foldl (mouseBody f.m_bMouseButtonHeld) t).m_mouseScroll = t.m_mouseScroll := by
    intro l
    induction l with
    | nil => intro t; rfl
    | cons i rest ih => intro t; rw [List.foldl_cons, ih, mouseBody_scroll]
  unfold inputPass mousePass keyboardPass
  rw [hm, hk]

theorem scroll_callback_flag (y : ℚ) (s t : InputState) :
    (scroll_callback y s).m_mouseScroll = (scroll_callback y t).m_mouseScroll := by
  unfold scroll_callback
  split_ifs <;> rfl

/-- Scroll events leave the program point alone, and the flag holds what the last
of them stored. -/
theorem scrollRun (ys : List ℚ) (s : BodyState) :
    (s.run (ys.map BodyAction.scroll)).pc = s.pc ∧
    (s.run (ys.map BodyAction.scroll)).input.m_mouseScroll
      = (ys.getLast?.map fun y => (scroll_callback y clearedInput).m_mouseScroll).getD
          s.input.m_mouseScroll := by
  induction ys using List.reverseRecOn with
  | nil => exact ⟨rfl, rfl⟩
  | append_singleton ys y ih =>
    rw [List.map_append, List.map_singleton, bodyRun_snoc]
    refine ⟨?_, ?_⟩
    · simpa [BodyState.step] using ih.1
    · have hl : (ys ++ [y]).getLast? = some y := by simp
      rw [hl]
      simp only [BodyState.step, Option.map_some', Option.getD_some]
      exact scroll_callback_flag y _ _

/-- Counterexample for C20: the render thread executes `m_mouseScroll = 0`, then
the main thread delivers a scroll-up event before the buffer swap: in front of
the swap the flag holds `SCROLL_UP` (3), not 0. -/
theorem scroll_flag_before_swap_counterexample :
    (BodyState.run ⟨BodyPc.resets, clearedInput⟩
      [BodyAction.render ⟨fun _ => false, fun _ => false⟩, BodyAction.scroll 1]).pc
      = BodyPc.present ∧
    (BodyState.run ⟨BodyPc.resets, clearedInput⟩
      [BodyAction.render ⟨fun _ => false, fun _ => false⟩,
       BodyAction.scroll 1]).input.m_mouseScroll = 3 := by
  have t1 : truncToInt 1 = 1 := by norm_num [truncToInt]
  simp [BodyState.run, BodyState.step, scroll_callback, t1]

/-- C20 (amended). In every execution of the loop body, with scroll events
delivered at any points: the statement `m_mouseScroll = 0` that follows `Update`
and the FPS block leaves the flag at 0, whatever the callbacks stored earlier in
the iteration; while the render thread then stands in front of the buffer swap
the flag holds 0 if no scroll event arrives and otherwise the value stored by
the last one; and that value stays in place through the swap, the loop test, the
input pass, `Update` and the FPS block of the next iteration, up to its
resets. -/
theorem scroll_flag_reset_then_kept (s0 : BodyState) (schedule : List BodyAction)
    (f f2 : FrameInput) (ys : List ℚ) (h : (s0.run schedule).pc = BodyPc.resets) :
    (s0.run (schedule ++ [BodyAction.render f])).input.m_mouseScroll = 0 ∧
    (s0.run (schedule ++ [BodyAction.render f])).pc = BodyPc.present ∧
    (s0.run (schedule ++ [BodyAction.render f] ++ ys.map BodyAction.scroll)).pc
      = BodyPc.present ∧
    (s0.run (schedule ++ [BodyAction.render f] ++ ys.map BodyAction.scroll)).input.m_mouseScroll
      = (ys.getLast?.map fun y => (scroll_callback y clearedInput).m_mouseScroll).getD 0 ∧
    (s0.run (schedule ++ [BodyAction.render f] ++ ys.map BodyAction.scroll
      ++ untilNextResets f2)).pc = BodyPc.resets ∧
    (s0.run (schedule ++ [BodyAction.render f] ++ ys.map BodyAction.scroll
      ++ untilNextResets f2)).input.m_mouseScroll
      = (ys.getLast?.map fun y => (scroll_callback y clearedInput).m_mouseScroll).getD 0 := by
  have hrun : ∀ (a b : List BodyAction), s0.run (a ++ b) = (s0.run a).run b := by
    intro a b
    simp [BodyState.run, List.foldl_append]
  have h1 : (s0.run (schedule ++ [BodyAction.render f])).input.m_mouseScroll = 0 ∧
      (s0.run (schedule ++ [BodyAction.render f])).pc = BodyPc.present := by
    rw [bodyRun_snoc]
    simp [BodyState.step, h, endOfFrame]
  obtain ⟨h2, h3⟩ := scrollRun ys (s0.run (schedule ++ [BodyAction.render f]))
  rw [h1.1] at h3
  rw [h1.2] at h2
  have h4 : ∀ t : BodyState, t.pc = BodyPc.present →
      (t.run (untilNextResets f2)).pc = BodyPc.resets ∧
      (t.run (untilNextResets f2)).input.m_mouseScroll = t.input.m_mouseScroll := by
    intro t ht
    obtain ⟨pc, input⟩ := t
    simp only at ht
    subst ht
    simp [untilNextResets, BodyState.run, BodyState.step, inputPass_scroll]
  refine ⟨h1.1, h1.2, ?_, ?_, ?_, ?_⟩
  · rw [hrun]; exact h2
  · rw [hrun]; exact h3
  · rw [hrun, hrun]
    exact (h4 _ (by rw [← hrun]; rw [hrun]; exact h2)).1
  · rw [hrun, hrun]
    rw [(h4 _ h2).2]
    exact h3

/-- Witness for C20 (amended): a scroll-up event arrives before `Update` and a
scroll-down event after it; the resets clear the flag; a scroll-up event that
arrives before the swap is still in the flag at the resets of the next
iteration. -/
theorem scroll_flag_reset_then_kept_witness :
    (BodyState.run ⟨BodyPc.update, clearedInput⟩
      (scrollSchedule ++ [BodyAction.render ⟨fun _ => false, fun _ => false⟩])).input.m_mouseScroll
      = 0 ∧
    (BodyState.run ⟨BodyPc.update, clearedInput⟩
      (scrollSchedule ++ [BodyAction.render ⟨fun _ => false, fun _ => false⟩]
        ++ [1].map BodyAction.scroll
        ++ untilNextResets ⟨fun _ => false, fun _ => false⟩)).input.m_mouseScroll = 3 := by
  have hpc : (BodyState.run ⟨BodyPc.update, clearedInput⟩ scrollSchedule).pc = BodyPc.resets :=
    rfl
  have h := scroll_flag_reset_then_kept ⟨BodyPc.update, clearedInput⟩ scrollSchedule
    ⟨fun _ => false, fun _ => false⟩ ⟨fun _ => false, fun _ => false⟩ [1] hpc
  have t1 : truncToInt 1 = 1 := by norm_num [truncToInt]
  refine ⟨h.1, ?_⟩
  rw [h.2.2.2.2.2]
  simp [scroll_callback, t1]

end CrabbyOpenGL

